import Mathlib

/-! # vm-operator: reconciliation, drift detection and placement

A shallow embedding of the parts of the vm-operator sources that decide how a
declared virtual machine is converged with its backend object:

* `pkg/vmprovider/providers/vsphere/resources/vm.go`
  (`CompareVmConfig`, `VirtualMachine.Reconfigure`, `VirtualMachine.SetPowerState`),
* `pkg/vmprovider/providers/vsphere/placement/cluster_placement.go` and
  `pkg/vmprovider/providers/vsphere/pool/pool.go` (placement response parsing),
* `pkg/controller/virtualmachine/controller.go` (`Reconcile` and its helpers),
* `pkg/controller/infracluster/infracluster_controller.go` (`Reconcile`),
* `api/v1alpha1/virtualmachine_conversion.go` (network status, readiness probe and
  volume provisioning options).

Conventions of the embedding.

* A Go pointer is an `Option`; dereferencing `none` is a nil-pointer panic.
* A Go `error` result is an `Option Error` (`none` is the nil error); a Go
  `(value, error)` result coming from a collaborator is an `Except Error value`.
* Calls to collaborators (the vSphere backend, the API-server store, the VM
  provider) are functions over an explicit state `σ`, supplied as a record of
  functions, so every theorem quantifies over every behaviour of the
  collaborator.  Every operation returns, besides its Go result and the final
  state, the list of collaborator calls it issued, in program order.
* Go fixed-width integers are `Int`; the embedded code only compares them and
  converts `int32` to `int64`, which is the identity on the numeric value.
-/

/-! ## Go runtime values shared by all packages -/

/-- Reason attached to an API error, as read by `errors.ReasonForError`. -/
inductive StatusReason where
  | Unknown
  | NotFound
  | MethodNotAllowed
  deriving DecidableEq, Repr

/-- A Go `error` value: the reason the Kubernetes `errors` package reads from it and its message. -/
structure Error where
  reason : StatusReason
  msg : String
  deriving DecidableEq, Repr

namespace errors

/-- Go `fmt.Errorf` and `errors.New` with the message already formatted. -/
def New (msg : String) : Error := ⟨StatusReason.Unknown, msg⟩

/-- Go `errors.Wrapf(err, ...)` of `github.com/pkg/errors`: the message is prefixed, the cause kept. -/
def Wrapf (err : Error) (msg : String) : Error := ⟨err.reason, msg ++ ": " ++ err.msg⟩

/-- Kubernetes `errors.IsNotFound`; the argument is the Go error, `none` being nil. -/
def IsNotFound (err : Option Error) : Bool :=
  match err with
  | none => false
  | some e => e.reason == StatusReason.NotFound

/-- Kubernetes `errors.NewMethodNotSupported(qualifiedResource, action)`. -/
def NewMethodNotSupported (group resource action : String) : Error :=
  ⟨StatusReason.MethodNotAllowed, action ++ " is not supported on resources of kind \"" ++
    resource ++ "." ++ group ++ "\""⟩

end errors

/-- Outcome of running one embedded Go function against a collaborator with state `σ`:
`result` is `none` when the function panicked, `state` is the collaborator state it
left behind and `calls` lists the collaborator calls it issued, oldest first. -/
structure Exec (σ : Type) (κ : Type) (α : Type) where
  result : Option α
  state : σ
  calls : List κ

/-- Go `%q` for a name without characters that need escaping. -/
def goQuote (s : String) : String := "\"" ++ s ++ "\""

/-! ## govmomi types (`vim25/types`, `vim25/mo`) -/

namespace types

/-- Type `types.ManagedObjectReference`; `Kind` is the Go field `Type`, a reserved word here. -/
structure ManagedObjectReference where
  Kind : String
  Value : String
  deriving DecidableEq, Repr

/-- Type `types.ResourceAllocationInfo`; `Reservation` and `Limit` are `*int64`. -/
structure ResourceAllocationInfo where
  Reservation : Option Int
  Limit : Option Int
  deriving DecidableEq, Repr

/-- Type `types.VirtualHardware`; both fields are `int32`. -/
structure VirtualHardware where
  NumCPU : Int
  MemoryMB : Int
  deriving DecidableEq, Repr

/-- Type `types.VirtualMachineConfigInfo`, the live configuration of a VM. -/
structure VirtualMachineConfigInfo where
  Hardware : VirtualHardware
  CpuAllocation : Option ResourceAllocationInfo
  MemoryAllocation : Option ResourceAllocationInfo
  deriving DecidableEq, Repr

/-- Type `types.VirtualMachineFileInfo`. -/
structure VirtualMachineFileInfo where
  VmPathName : String
  deriving DecidableEq, Repr

/-- Type `types.VirtualMachineConfigSpec`, the desired configuration; `NumCPUs` is
`int32`, `MemoryMB` is `int64`. -/
structure VirtualMachineConfigSpec where
  Name : String
  NumCPUs : Int
  MemoryMB : Int
  CpuAllocation : Option ResourceAllocationInfo
  MemoryAllocation : Option ResourceAllocationInfo
  Files : Option VirtualMachineFileInfo
  deriving DecidableEq, Repr

/-- Type `types.GuestInfo`. -/
structure GuestInfo where
  IpAddress : String
  deriving DecidableEq, Repr

/-- Type `types.VirtualMachineRelocateSpec`; every reference is a Go pointer. -/
structure VirtualMachineRelocateSpec where
  Folder : Option ManagedObjectReference
  Datastore : Option ManagedObjectReference
  Pool : Option ManagedObjectReference
  Host : Option ManagedObjectReference
  deriving DecidableEq, Repr

/-- Type `types.VirtualMachineCloneSpec`; `Config` is a Go pointer. -/
structure VirtualMachineCloneSpec where
  Location : VirtualMachineRelocateSpec
  Config : Option VirtualMachineConfigSpec
  PowerOn : Bool
  Template : Bool
  deriving DecidableEq, Repr

/-- Type `types.PlacementSpec`, the request of `PlaceVm`. -/
structure PlacementSpec where
  PlacementType : String
  ConfigSpec : Option VirtualMachineConfigSpec
  CloneSpec : Option VirtualMachineCloneSpec
  RelocateSpec : Option VirtualMachineRelocateSpec
  CloneName : String
  Vm : Option ManagedObjectReference
  deriving DecidableEq, Repr

/-- Type `types.PlacementAction`. -/
structure PlacementAction where
  Vm : Option ManagedObjectReference
  TargetHost : Option ManagedObjectReference
  RelocateSpec : Option VirtualMachineRelocateSpec
  deriving DecidableEq, Repr

/-- Type `types.ClusterClusterInitialPlacementAction`: `TargetHost` is a value, `Pool` a
pointer, as the repository uses them (`&action.TargetHost`, `action.Pool == nil`). -/
structure ClusterClusterInitialPlacementAction where
  TargetHost : ManagedObjectReference
  Pool : Option ManagedObjectReference
  ConfigSpec : Option VirtualMachineConfigSpec
  deriving DecidableEq, Repr

/-- Interface `types.BaseClusterAction` by dynamic type: the two pointer types the
repository asserts on, and any other action. -/
inductive BaseClusterAction where
  | PlacementAction (pa : PlacementAction)
  | ClusterClusterInitialPlacementAction (ca : ClusterClusterInitialPlacementAction)
  | ClusterAction (target : Option ManagedObjectReference)
  deriving DecidableEq, Repr

/-- Type `types.ClusterRecommendation`. -/
structure ClusterRecommendation where
  Key : String
  Reason : String
  Action : List BaseClusterAction
  deriving DecidableEq, Repr

/-- Type `types.PlacementResult`, the response of `PlaceVm`. -/
structure PlacementResult where
  Recommendations : List ClusterRecommendation
  deriving DecidableEq, Repr

/-- Type `types.LocalizedMethodFault`. -/
structure LocalizedMethodFault where
  LocalizedMessage : String
  deriving DecidableEq, Repr

/-- Type `types.PlaceVmsXClusterResultPlacementFaults`. -/
structure PlaceVmsXClusterResultPlacementFaults where
  ResourcePool : ManagedObjectReference
  VmName : String
  Faults : List LocalizedMethodFault
  deriving DecidableEq, Repr

/-- Type `types.PlaceVmsXClusterResultPlacementInfo`. -/
structure PlaceVmsXClusterResultPlacementInfo where
  VmName : String
  Recommendation : ClusterRecommendation
  deriving DecidableEq, Repr

/-- Type `types.PlaceVmsXClusterResult`, the response of `PlaceVmsXCluster`. -/
structure PlaceVmsXClusterResult where
  PlacementInfos : List PlaceVmsXClusterResultPlacementInfo
  Faults : List PlaceVmsXClusterResultPlacementFaults
  deriving DecidableEq, Repr

/-- Type `types.PlaceVmsXClusterSpecVmPlacementSpec`. -/
structure PlaceVmsXClusterSpecVmPlacementSpec where
  ConfigSpec : VirtualMachineConfigSpec
  deriving DecidableEq, Repr

/-- Type `types.PlaceVmsXClusterSpec`, the request of `PlaceVmsXCluster`. -/
structure PlaceVmsXClusterSpec where
  ResourcePools : List ManagedObjectReference
  VmPlacementSpecs : List PlaceVmsXClusterSpecVmPlacementSpec
  deriving DecidableEq, Repr

/-- Reason code `types.RecommendationReasonCodeXvmotionPlacement`. -/
def RecommendationReasonCodeXvmotionPlacement : String := "xvmotionPlacement"

/-- Reason code `types.RecommendationReasonCodeXClusterPlacement`. -/
def RecommendationReasonCodeXClusterPlacement : String := "xClusterPlacement"

/-- Placement type `types.PlacementSpecPlacementTypeCreate`. -/
def PlacementSpecPlacementTypeCreate : String := "create"

/-- Placement type `types.PlacementSpecPlacementTypeClone`. -/
def PlacementSpecPlacementTypeClone : String := "clone"

/-- Power states of `types.VirtualMachinePowerState`, a Go string type. -/
def VirtualMachinePowerStatePoweredOff : String := "poweredOff"

/-- Power state `poweredOn` of `types.VirtualMachinePowerState`. -/
def VirtualMachinePowerStatePoweredOn : String := "poweredOn"

end types

namespace mo

/-- Type `mo.VirtualMachine`, the property bag filled by `Properties`. -/
structure VirtualMachine where
  Config : Option types.VirtualMachineConfigInfo
  Guest : Option types.GuestInfo
  deriving DecidableEq, Repr

end mo

namespace v1alpha1

/-- Constant `v1alpha1.VirtualMachinePoweredOff` of `pkg/apis/vmoperator/v1alpha1`. -/
def VirtualMachinePoweredOff : String := "poweredOff"

/-- Constant `v1alpha1.VirtualMachinePoweredOn` of `pkg/apis/vmoperator/v1alpha1`. -/
def VirtualMachinePoweredOn : String := "poweredOn"

/-- Constant `v1alpha1.VirtualMachineFinalizer` of `pkg/apis/vmoperator/v1alpha1`. -/
def VirtualMachineFinalizer : String := "virtualmachine.vmoperator.vmware.com"

end v1alpha1

/-! ## `resources/vm.go` -/

namespace resources

/-- Handle of an asynchronous backend task (`*object.Task`). -/
structure Task where
  ref : Nat
  deriving DecidableEq, Repr

/-- Calls an `object.VirtualMachine` receives from `resources.VirtualMachine`. -/
inductive VcCall where
  | Properties (props : List String)
  | Reconfigure (spec : types.VirtualMachineConfigSpec)
  | PowerState
  | PowerOn
  | PowerOff
  | WaitForResult (task : Task)
  deriving DecidableEq, Repr

/-- True on a backend reconfigure submission. -/
def VcCall.isReconfigure : VcCall → Bool
  | VcCall.Reconfigure _ => true
  | _ => false

/-- True on a backend power-on submission. -/
def VcCall.isPowerOn : VcCall → Bool
  | VcCall.PowerOn => true
  | _ => false

/-- True on a backend power-off submission. -/
def VcCall.isPowerOff : VcCall → Bool
  | VcCall.PowerOff => true
  | _ => false

/-- The `*object.VirtualMachine` a `resources.VirtualMachine` holds, as the behaviour of
the backend behind it: each method maps the backend state to its Go result and the
next backend state. -/
structure VcVirtualMachine (σ : Type) where
  Properties : List String → σ → Except Error mo.VirtualMachine × σ
  Reconfigure : types.VirtualMachineConfigSpec → σ → Except Error Task × σ
  PowerState : σ → Except Error String × σ
  PowerOn : σ → Except Error Task × σ
  PowerOff : σ → Except Error Task × σ
  WaitForResult : Task → σ → Option Error × σ

/-- Type `resources.VirtualMachine` of a VM built by `NewVMFromObject`, whose
`vcVirtualMachine` is set. -/
structure VirtualMachine (σ : Type) where
  Name : String
  vcVirtualMachine : VcVirtualMachine σ

/-- One guarded allocation check of `CompareVmConfig`:
`(desired != nil) && (desired.f != nil) && (*actual.f != *desired.f)`.
The result is `none` when `actual` or `actual.f` is nil where it is dereferenced,
`some true` when the check fires (the values differ). -/
def allocationDiffers (actual desired : Option types.ResourceAllocationInfo)
    (f : types.ResourceAllocationInfo → Option Int) : Option Bool :=
  match desired with
  | none => some false
  | some d =>
    match f d with
    | none => some false
    | some dv =>
      match actual with
      | none => none
      | some a =>
        match f a with
        | none => none
        | some av => some (av != dv)

/-- Function `CompareVmConfig` of `resources/vm.go`; `none` is a nil-pointer panic. -/
def CompareVmConfig (_name : String) (actualConfig : Option types.VirtualMachineConfigInfo)
    (desiredConfig : Option types.VirtualMachineConfigSpec) : Option Bool :=
  match desiredConfig, actualConfig with
  | none, _ => none
  | some _, none => none
  | some desired, some actual =>
    let isDesired := true
    let isDesired := if desired.NumCPUs != actual.Hardware.NumCPU then false else isDesired
    let isDesired := if desired.MemoryMB != actual.Hardware.MemoryMB then false else isDesired
    match allocationDiffers actual.CpuAllocation desired.CpuAllocation (fun a => a.Reservation) with
    | none => none
    | some d1 =>
      let isDesired := if d1 then false else isDesired
      match allocationDiffers actual.CpuAllocation desired.CpuAllocation (fun a => a.Limit) with
      | none => none
      | some d2 =>
        let isDesired := if d2 then false else isDesired
        match allocationDiffers actual.MemoryAllocation desired.MemoryAllocation
            (fun a => a.Reservation) with
        | none => none
        | some d3 =>
          let isDesired := if d3 then false else isDesired
          match allocationDiffers actual.MemoryAllocation desired.MemoryAllocation
              (fun a => a.Limit) with
          | none => none
          | some d4 =>
            let isDesired := if d4 then false else isDesired
            some isDesired

/-- Method `(*VirtualMachine).Reconfigure` of `resources/vm.go`. -/
def VirtualMachine.Reconfigure {σ : Type} (vm : VirtualMachine σ)
    (configSpec : Option types.VirtualMachineConfigSpec) (s : σ) :
    Exec σ VcCall (Option Error) :=
  match vm.vcVirtualMachine.Properties ["config"] s with
  | (Except.error err, s1) => ⟨some (some err), s1, [VcCall.Properties ["config"]]⟩
  | (Except.ok o, s1) =>
    match CompareVmConfig vm.Name o.Config configSpec with
    | none => ⟨none, s1, [VcCall.Properties ["config"]]⟩
    | some true => ⟨some none, s1, [VcCall.Properties ["config"]]⟩
    | some false =>
      match configSpec with
      | none => ⟨none, s1, [VcCall.Properties ["config"]]⟩
      | some spec =>
        match vm.vcVirtualMachine.Reconfigure spec s1 with
        | (Except.error err, s2) =>
          ⟨some (some err), s2, [VcCall.Properties ["config"], VcCall.Reconfigure spec]⟩
        | (Except.ok task, s2) =>
          match vm.vcVirtualMachine.WaitForResult task s2 with
          | (some err, s3) =>
            ⟨some (some (errors.Wrapf err
                ("reconfigure VM " ++ goQuote vm.Name ++ " task failed"))), s3,
              [VcCall.Properties ["config"], VcCall.Reconfigure spec, VcCall.WaitForResult task]⟩
          | (none, s3) =>
            ⟨some none, s3,
              [VcCall.Properties ["config"], VcCall.Reconfigure spec, VcCall.WaitForResult task]⟩

/-- Method `(*VirtualMachine).SetPowerState` of `resources/vm.go`. -/
def VirtualMachine.SetPowerState {σ : Type} (vm : VirtualMachine σ)
    (desiredPowerState : String) (s : σ) : Exec σ VcCall (Option Error) :=
  match vm.vcVirtualMachine.PowerState s with
  | (Except.error err, s1) => ⟨some (some err), s1, [VcCall.PowerState]⟩
  | (Except.ok ps, s1) =>
    if ps = desiredPowerState then
      ⟨some none, s1, [VcCall.PowerState]⟩
    else if desiredPowerState = v1alpha1.VirtualMachinePoweredOn then
      match vm.vcVirtualMachine.PowerOn s1 with
      | (Except.error err, s2) => ⟨some (some err), s2, [VcCall.PowerState, VcCall.PowerOn]⟩
      | (Except.ok task, s2) =>
        match vm.vcVirtualMachine.WaitForResult task s2 with
        | (some err, s3) =>
          ⟨some (some err), s3, [VcCall.PowerState, VcCall.PowerOn, VcCall.WaitForResult task]⟩
        | (none, s3) =>
          ⟨some none, s3, [VcCall.PowerState, VcCall.PowerOn, VcCall.WaitForResult task]⟩
    else if desiredPowerState = v1alpha1.VirtualMachinePoweredOff then
      match vm.vcVirtualMachine.PowerOff s1 with
      | (Except.error err, s2) => ⟨some (some err), s2, [VcCall.PowerState, VcCall.PowerOff]⟩
      | (Except.ok task, s2) =>
        match vm.vcVirtualMachine.WaitForResult task s2 with
        | (some err, s3) =>
          ⟨some (some err), s3, [VcCall.PowerState, VcCall.PowerOff, VcCall.WaitForResult task]⟩
        | (none, s3) =>
          ⟨some none, s3, [VcCall.PowerState, VcCall.PowerOff, VcCall.WaitForResult task]⟩
    else
      ⟨some (some (errors.New ("invalid desired power state " ++ desiredPowerState))), s1,
        [VcCall.PowerState]⟩

/-! ### A reference backend for the update path

The backend behind `object.VirtualMachine` is not part of the repository.  The
reference backend below is the one the idempotence property is stated over: a
reconfigure whose task succeeds sets every field named in the submitted spec, a
power call whose task succeeds sets the power state, reads change nothing, and
any call may fail. -/

/-- Result of a successful backend reconfigure on one allocation: the fields the spec
names are set, the others keep their live value. -/
def applyAllocation (live spec : Option types.ResourceAllocationInfo) :
    Option types.ResourceAllocationInfo :=
  match spec with
  | none => live
  | some sa =>
    some { Reservation :=
             match sa.Reservation with
             | some r => some r
             | none => live.bind (fun a => a.Reservation),
           Limit :=
             match sa.Limit with
             | some l => some l
             | none => live.bind (fun a => a.Limit) }

/-- Result of a successful backend reconfigure: every field named in the spec is set. -/
def applySpec (live : types.VirtualMachineConfigInfo) (spec : types.VirtualMachineConfigSpec) :
    types.VirtualMachineConfigInfo :=
  { Hardware := { NumCPU := spec.NumCPUs, MemoryMB := spec.MemoryMB },
    CpuAllocation := applyAllocation live.CpuAllocation spec.CpuAllocation,
    MemoryAllocation := applyAllocation live.MemoryAllocation spec.MemoryAllocation }

/-- Whether a value fits the `int32` field `VirtualHardware.MemoryMB`. -/
def fitsInt32 (x : Int) : Bool := decide (-2147483648 ≤ x ∧ x ≤ 2147483647)

/-- State of the reference backend: the live configuration and power state of the VM. -/
structure SimState where
  config : types.VirtualMachineConfigInfo
  powerState : String
  deriving DecidableEq, Repr

/-- Faults the reference backend injects during one pass; `none` lets the call succeed. -/
structure SimFaults where
  Properties : Option Error
  Reconfigure : Option Error
  ReconfigureTask : Option Error
  PowerState : Option Error
  PowerOn : Option Error
  PowerOff : Option Error
  PowerTask : Option Error
  deriving DecidableEq, Repr

/-- No fault at all. -/
def SimFaults.none : SimFaults := ⟨Option.none, Option.none, Option.none, Option.none,
  Option.none, Option.none, Option.none⟩

/-- Task handle the reference backend returns for a reconfigure. -/
def simReconfigureTask : Task := ⟨0⟩

/-- Task handle the reference backend returns for a power operation. -/
def simPowerTask : Task := ⟨1⟩

/-- The reference backend.  A reconfigure to a memory size the live `int32` field cannot
hold is refused, so that a successful reconfigure has set every field of the spec. -/
def simBackend (f : SimFaults) : VcVirtualMachine SimState where
  Properties := fun _ s =>
    match f.Properties with
    | some e => (Except.error e, s)
    | Option.none => (Except.ok { Config := some s.config, Guest := Option.none }, s)
  Reconfigure := fun spec s =>
    match f.Reconfigure with
    | some e => (Except.error e, s)
    | Option.none =>
      if fitsInt32 spec.MemoryMB then
        match f.ReconfigureTask with
        | some _ => (Except.ok simReconfigureTask, s)
        | Option.none => (Except.ok simReconfigureTask, { s with config := applySpec s.config spec })
      else
        (Except.error (errors.New "memoryMB out of range"), s)
  PowerState := fun s =>
    match f.PowerState with
    | some e => (Except.error e, s)
    | Option.none => (Except.ok s.powerState, s)
  PowerOn := fun s =>
    match f.PowerOn with
    | some e => (Except.error e, s)
    | Option.none =>
      match f.PowerTask with
      | some _ => (Except.ok simPowerTask, s)
      | Option.none =>
        (Except.ok simPowerTask, { s with powerState := types.VirtualMachinePowerStatePoweredOn })
  PowerOff := fun s =>
    match f.PowerOff with
    | some e => (Except.error e, s)
    | Option.none =>
      match f.PowerTask with
      | some _ => (Except.ok simPowerTask, s)
      | Option.none =>
        (Except.ok simPowerTask, { s with powerState := types.VirtualMachinePowerStatePoweredOff })
  WaitForResult := fun task s =>
    if task = simReconfigureTask then (f.ReconfigureTask, s) else (f.PowerTask, s)

/-- A `resources.VirtualMachine` bound to the reference backend. -/
def simVm (f : SimFaults) : VirtualMachine SimState := ⟨"vm-0", simBackend f⟩

/-- Backend state after one pass of the update path on the reference backend:
`Reconfigure`, then `SetPowerState` on the state `Reconfigure` left. -/
def simUpdatePass (f : SimFaults) (spec : types.VirtualMachineConfigSpec)
    (desiredPowerState : String) (s : SimState) : SimState :=
  ((simVm f).SetPowerState desiredPowerState ((simVm f).Reconfigure (some spec) s).state).state

/-- A desired configuration used by the worked examples. -/
def exampleSpec : types.VirtualMachineConfigSpec :=
  { Name := "vm-0", NumCPUs := 2, MemoryMB := 2048,
    CpuAllocation := some ⟨some 100, none⟩, MemoryAllocation := none, Files := none }

/-- A live configuration that already matches `exampleSpec`. -/
def exampleMatchingConfig : types.VirtualMachineConfigInfo :=
  { Hardware := ⟨2, 2048⟩, CpuAllocation := some ⟨some 100, some 500⟩,
    MemoryAllocation := none }

/-- A live configuration that differs from `exampleSpec` in its memory size. -/
def exampleDriftedConfig : types.VirtualMachineConfigInfo :=
  { Hardware := ⟨2, 1024⟩, CpuAllocation := some ⟨some 100, some 500⟩,
    MemoryAllocation := none }

end resources

/-! ## govmomi objects used for placement -/

namespace object

/-- The `*object.ClusterComputeResource` handle, as the response of the backend to a
`PlaceVm` request. -/
structure ClusterComputeResource where
  PlaceVm : types.PlacementSpec → Except Error types.PlacementResult

/-- The root folder of a `*vim25.Client`, as the response of the backend to a
`PlaceVmsXCluster` request. -/
structure RootFolder where
  PlaceVmsXCluster : types.PlaceVmsXClusterSpec → Except Error types.PlaceVmsXClusterResult

end object

/-- Go `strings.Join(elems, sep)`. -/
def stringsJoin : List String → String → String
  | [], _ => ""
  | [a], _ => a
  | a :: b :: rest, sep => a ++ sep ++ stringsJoin (b :: rest) sep

/-- Go `fmt` verb `%v` applied to a `[]string`: the elements, blank-separated, in brackets. -/
def fmtStringSlice (l : List String) : String := "[" ++ stringsJoin l " " ++ "]"

/-! ## `placement/cluster_placement.go` -/

namespace placement

/-- Type `placement.Recommendation`. -/
structure Recommendation where
  PoolMoRef : types.ManagedObjectReference
  HostMoRef : Option types.ManagedObjectReference
  deriving DecidableEq, Repr

/-- Function `relocateSpecToRecommendation`; the result is a Go pointer. -/
def relocateSpecToRecommendation (relocateSpec : Option types.VirtualMachineRelocateSpec) :
    Option Recommendation :=
  match relocateSpec with
  | none => none
  | some rs =>
    match rs.Pool, rs.Host with
    | none, _ => none
    | some _, none => none
    | some pool, some host => some { PoolMoRef := pool, HostMoRef := some host }

/-- Function `clusterPlacementActionToRecommendation`; the result is a Go pointer. -/
def clusterPlacementActionToRecommendation (action : types.ClusterClusterInitialPlacementAction) :
    Option Recommendation :=
  match action.Pool with
  | none => none
  | some pool => some { PoolMoRef := pool, HostMoRef := some action.TargetHost }

/-- Function `placement.CheckPlacementRelocateSpec`. -/
def CheckPlacementRelocateSpec (spec : Option types.VirtualMachineRelocateSpec) : Bool :=
  match spec with
  | none => false
  | some sp =>
    if sp.Host = none then false
    else if sp.Pool = none then false
    else if sp.Datastore = none then false
    else true

/-- Inner loop of `ParseRelocateVMResponse` over the actions of one recommendation:
the first placement action whose relocate spec passes the check. -/
def ParseRelocateVMResponse.actions :
    List types.BaseClusterAction → Option types.VirtualMachineRelocateSpec
  | [] => none
  | a :: rest =>
    match a with
    | types.BaseClusterAction.PlacementAction pa =>
      if CheckPlacementRelocateSpec pa.RelocateSpec then pa.RelocateSpec
      else ParseRelocateVMResponse.actions rest
    | _ => ParseRelocateVMResponse.actions rest

/-- Outer loop of `ParseRelocateVMResponse` over the recommendations. -/
def ParseRelocateVMResponse.recommendations :
    List types.ClusterRecommendation → Option types.VirtualMachineRelocateSpec
  | [] => none
  | r :: rest =>
    if r.Reason = types.RecommendationReasonCodeXvmotionPlacement then
      match ParseRelocateVMResponse.actions r.Action with
      | some spec => some spec
      | none => ParseRelocateVMResponse.recommendations rest
    else ParseRelocateVMResponse.recommendations rest

/-- Function `placement.ParseRelocateVMResponse`; the result is a Go pointer. -/
def ParseRelocateVMResponse (res : types.PlacementResult) :
    Option types.VirtualMachineRelocateSpec :=
  ParseRelocateVMResponse.recommendations res.Recommendations

/-- Function `placement.CloneVMRelocateSpec`; the outer `none` is the nil-pointer panic
on `cloneSpec.Config.Name` when `cloneSpec.Config` is nil. -/
def CloneVMRelocateSpec (cluster : object.ClusterComputeResource)
    (vmRef : types.ManagedObjectReference) (cloneSpec : types.VirtualMachineCloneSpec) :
    Option (Option types.VirtualMachineRelocateSpec × Option Error) :=
  match cloneSpec.Config with
  | none => none
  | some config =>
    let placementSpec : types.PlacementSpec :=
      { PlacementType := types.PlacementSpecPlacementTypeClone,
        ConfigSpec := none,
        CloneSpec := some cloneSpec,
        RelocateSpec := some cloneSpec.Location,
        CloneName := config.Name,
        Vm := some vmRef }
    match cluster.PlaceVm placementSpec with
    | Except.error err => some (none, some err)
    | Except.ok resp =>
      match ParseRelocateVMResponse resp with
      | none => some (none, some (errors.New "no valid placement action"))
      | some rSpec => some (some rSpec, none)

/-- Body of the inner loop of `PlaceVMForCreate`: one action appended to the result. -/
def PlaceVMForCreate.action (recommendations : List Recommendation)
    (a : types.BaseClusterAction) : List Recommendation :=
  match a with
  | types.BaseClusterAction.PlacementAction pa =>
    match relocateSpecToRecommendation pa.RelocateSpec with
    | some r => recommendations ++ [r]
    | none => recommendations
  | _ => recommendations

/-- Body of the outer loop of `PlaceVMForCreate`: one backend recommendation. -/
def PlaceVMForCreate.recommendation (recommendations : List Recommendation)
    (r : types.ClusterRecommendation) : List Recommendation :=
  if r.Reason ≠ types.RecommendationReasonCodeXvmotionPlacement then recommendations
  else r.Action.foldl PlaceVMForCreate.action recommendations

/-- Function `placement.PlaceVMForCreate`. -/
def PlaceVMForCreate (cluster : object.ClusterComputeResource)
    (configSpec : Option types.VirtualMachineConfigSpec) : List Recommendation × Option Error :=
  let placementSpec : types.PlacementSpec :=
    { PlacementType := types.PlacementSpecPlacementTypeCreate,
      ConfigSpec := configSpec,
      CloneSpec := none,
      RelocateSpec := none,
      CloneName := "",
      Vm := none }
  match cluster.PlaceVm placementSpec with
  | Except.error err => ([], some err)
  | Except.ok resp => (resp.Recommendations.foldl PlaceVMForCreate.recommendation [], none)

/-- One entry of `faultMgs` in `ClusterPlaceVMForCreate`:
`fmt.Sprintf("ResourcePool %s faults: %s", f.ResourcePool.Value, strings.Join(msgs, ", "))`. -/
def ClusterPlaceVMForCreate.faultMsg (f : types.PlaceVmsXClusterResultPlacementFaults) : String :=
  "ResourcePool " ++ f.ResourcePool.Value ++ " faults: " ++
    stringsJoin (f.Faults.foldl (fun msgs ff => msgs ++ [ff.LocalizedMessage]) []) ", "

/-- Body of the inner loop of `ClusterPlaceVMForCreate`: one action appended to the result. -/
def ClusterPlaceVMForCreate.action (recommendations : List Recommendation)
    (a : types.BaseClusterAction) : List Recommendation :=
  match a with
  | types.BaseClusterAction.ClusterClusterInitialPlacementAction ca =>
    match clusterPlacementActionToRecommendation ca with
    | some r => recommendations ++ [r]
    | none => recommendations
  | _ => recommendations

/-- Body of the outer loop of `ClusterPlaceVMForCreate`: one placement info. -/
def ClusterPlaceVMForCreate.info (recommendations : List Recommendation)
    (info : types.PlaceVmsXClusterResultPlacementInfo) : List Recommendation :=
  if info.Recommendation.Reason ≠ types.RecommendationReasonCodeXClusterPlacement then
    recommendations
  else info.Recommendation.Action.foldl ClusterPlaceVMForCreate.action recommendations

/-- Function `placement.ClusterPlaceVMForCreate`; the outer `none` is the nil-pointer panic
on `*configSpec` when `configSpec` is nil. -/
def ClusterPlaceVMForCreate (vcClient : object.RootFolder)
    (resourcePoolsMoRefs : List types.ManagedObjectReference)
    (configSpec : Option types.VirtualMachineConfigSpec) :
    Option (List Recommendation × Option Error) :=
  match configSpec with
  | none => none
  | some cfg =>
    let cs : types.VirtualMachineConfigSpec := { cfg with Files := some ⟨""⟩ }
    let placementSpec : types.PlaceVmsXClusterSpec :=
      { ResourcePools := resourcePoolsMoRefs, VmPlacementSpecs := [⟨cs⟩] }
    match vcClient.PlaceVmsXCluster placementSpec with
    | Except.error err => some ([], some err)
    | Except.ok resp =>
      if resp.Faults.length ≠ 0 then
        let faultMgs := resp.Faults.foldl
          (fun msgs f => msgs ++ [ClusterPlaceVMForCreate.faultMsg f]) []
        some ([], some (errors.New ("PlaceVmsXCluster faults: " ++ fmtStringSlice faultMgs)))
      else
        some (resp.PlacementInfos.foldl ClusterPlaceVMForCreate.info [], none)

end placement

/-! ## `pool/pool.go` -/

namespace pool

/-- Function `pool.CheckPlacementRelocateSpec`. -/
def CheckPlacementRelocateSpec (spec : Option types.VirtualMachineRelocateSpec) : Bool :=
  match spec with
  | none => false
  | some sp =>
    if sp.Host = none then false
    else if sp.Pool = none then false
    else if sp.Datastore = none then false
    else true

/-- Inner loop of `ParsePlaceVMResponse` over the actions of one recommendation. -/
def ParsePlaceVMResponse.actions :
    List types.BaseClusterAction → Option types.VirtualMachineRelocateSpec
  | [] => none
  | a :: rest =>
    match a with
    | types.BaseClusterAction.PlacementAction pa =>
      if CheckPlacementRelocateSpec pa.RelocateSpec then pa.RelocateSpec
      else ParsePlaceVMResponse.actions rest
    | _ => ParsePlaceVMResponse.actions rest

/-- Outer loop of `ParsePlaceVMResponse` over the recommendations. -/
def ParsePlaceVMResponse.recommendations :
    List types.ClusterRecommendation → Option types.VirtualMachineRelocateSpec
  | [] => none
  | r :: rest =>
    if r.Reason = types.RecommendationReasonCodeXvmotionPlacement then
      match ParsePlaceVMResponse.actions r.Action with
      | some spec => some spec
      | none => ParsePlaceVMResponse.recommendations rest
    else ParsePlaceVMResponse.recommendations rest

/-- Function `pool.ParsePlaceVMResponse`; the result is a Go pointer. -/
def ParsePlaceVMResponse (res : types.PlacementResult) :
    Option types.VirtualMachineRelocateSpec :=
  ParsePlaceVMResponse.recommendations res.Recommendations

/-- Function `pool.placeVM`. -/
def placeVM (cluster : object.ClusterComputeResource) (placementSpec : types.PlacementSpec) :
    Option types.VirtualMachineRelocateSpec × Option Error :=
  match cluster.PlaceVm placementSpec with
  | Except.error err => (none, some err)
  | Except.ok res =>
    match ParsePlaceVMResponse res with
    | none => (none, some (errors.New "no valid placement action"))
    | some rSpec => (some rSpec, none)

/-- Function `pool.CloneVMRelocateSpec`; the outer `none` is the nil-pointer panic on
`cloneSpec.Config.Name` when `cloneSpec.Config` is nil. -/
def CloneVMRelocateSpec (cluster : object.ClusterComputeResource)
    (vmRef : types.ManagedObjectReference) (cloneSpec : types.VirtualMachineCloneSpec) :
    Option (Option types.VirtualMachineRelocateSpec × Option Error) :=
  match cloneSpec.Config with
  | none => none
  | some config =>
    let placementSpec : types.PlacementSpec :=
      { PlacementType := types.PlacementSpecPlacementTypeClone,
        ConfigSpec := none,
        CloneSpec := some cloneSpec,
        RelocateSpec := some cloneSpec.Location,
        CloneName := config.Name,
        Vm := some vmRef }
    some (placeVM cluster placementSpec)

end pool

/-! ## Reference definitions for the placement contract

The definitions of this section follow the wording of the resolver contract, not the
code; the theorems compare the embedded code with them. -/

/-- The string `t` occurs in `s` as a contiguous piece. -/
def occursIn (t s : String) : Prop := ∃ pre post : String, s = pre ++ t ++ post

namespace placement

/-- The recommendation a response action stands for: a placement action whose relocate
spec is present with both a resource pool and a host gives that (pool, host) pair, every
other action gives nothing. -/
def usableRecommendation (a : types.BaseClusterAction) : Option Recommendation :=
  match a with
  | types.BaseClusterAction.PlacementAction pa =>
    match pa.RelocateSpec with
    | none => none
    | some rs =>
      match rs.Pool, rs.Host with
      | some pool, some host => some ⟨pool, some host⟩
      | _, _ => none
  | _ => none

/-- The recommendations the resolver is to return for a response: in response order, one
per usable action of the recommendations that carry the placement reason code. -/
def expectedRecommendations (resp : types.PlacementResult) : List Recommendation :=
  ((resp.Recommendations.filter
      (fun r => decide (r.Reason = types.RecommendationReasonCodeXvmotionPlacement))).map
    (fun r => r.Action.filterMap usableRecommendation)).flatten

/-- A response with two recommendations: the first carries only a pool reference, the
second both a pool and a host reference. -/
def poolOnlyAndHostQualified (pool1 pool2 host : types.ManagedObjectReference) :
    types.PlacementResult :=
  ⟨[⟨"1", types.RecommendationReasonCodeXvmotionPlacement,
      [types.BaseClusterAction.PlacementAction ⟨none, none, some ⟨none, none, some pool1, none⟩⟩]⟩,
    ⟨"2", types.RecommendationReasonCodeXvmotionPlacement,
      [types.BaseClusterAction.PlacementAction
        ⟨none, none, some ⟨none, none, some pool2, some host⟩⟩]⟩]⟩

/-- The relocate spec a response action offers to a clone: that of a placement action
whose relocate spec has host, resource pool and datastore all present. -/
def usableRelocateSpec (a : types.BaseClusterAction) : Option types.VirtualMachineRelocateSpec :=
  match a with
  | types.BaseClusterAction.PlacementAction pa =>
    match pa.RelocateSpec with
    | none => none
    | some rs => if rs.Host.isSome && rs.Pool.isSome && rs.Datastore.isSome then some rs else none
  | _ => none

/-- The usable relocate specs of a response, in response order, over the recommendations
that carry the placement reason code. -/
def usableRelocateSpecs (res : types.PlacementResult) : List types.VirtualMachineRelocateSpec :=
  ((res.Recommendations.filter
      (fun r => decide (r.Reason = types.RecommendationReasonCodeXvmotionPlacement))).map
    (fun r => r.Action.filterMap usableRelocateSpec)).flatten

/-- A managed object reference used by the worked examples. -/
def exampleRef (kind value : String) : types.ManagedObjectReference := ⟨kind, value⟩

/-- A response whose first recommendation lacks a datastore and whose second is usable. -/
def exampleCloneResponse : types.PlacementResult :=
  ⟨[⟨"1", types.RecommendationReasonCodeXvmotionPlacement,
      [types.BaseClusterAction.PlacementAction
        ⟨none, none, some ⟨none, none, some (exampleRef "ResourcePool" "resgroup-1"),
          some (exampleRef "HostSystem" "host-1")⟩⟩]⟩,
    ⟨"2", types.RecommendationReasonCodeXvmotionPlacement,
      [types.BaseClusterAction.PlacementAction
        ⟨none, none, some ⟨none, some (exampleRef "Datastore" "datastore-2"),
          some (exampleRef "ResourcePool" "resgroup-2"),
          some (exampleRef "HostSystem" "host-2")⟩⟩]⟩]⟩

/-- A clone spec used by the worked examples. -/
def exampleCloneSpec : types.VirtualMachineCloneSpec :=
  { Location := ⟨none, none, none, none⟩,
    Config := some ⟨"clone-0", 2, 2048, none, none, none⟩,
    PowerOn := false, Template := false }

/-- A cross-cluster response that reports faults for two resource pools and also carries
a placement info. -/
def exampleFaultyResponse : types.PlaceVmsXClusterResult :=
  { PlacementInfos :=
      [⟨"vm-0", ⟨"1", types.RecommendationReasonCodeXClusterPlacement,
        [types.BaseClusterAction.ClusterClusterInitialPlacementAction
          ⟨exampleRef "HostSystem" "host-1", some (exampleRef "ResourcePool" "resgroup-1"),
            none⟩]⟩⟩],
    Faults :=
      [⟨exampleRef "ResourcePool" "resgroup-7", "vm-0", [⟨"no host"⟩, ⟨"no datastore"⟩]⟩,
       ⟨exampleRef "ResourcePool" "resgroup-8", "vm-0", [⟨"out of memory"⟩]⟩] }

end placement

/-! ## Kubernetes API machinery used by the controller -/

namespace metav1

/-- Type `metav1.Time`, an instant as seconds and nanoseconds since the Go zero time. -/
structure Time where
  sec : Int
  nsec : Nat
  deriving DecidableEq, Repr

/-- Method `(*metav1.Time).IsZero`: true on the nil pointer and on the zero instant. -/
def Time.IsZero (t : Option Time) : Bool :=
  match t with
  | none => true
  | some t => t.sec == 0 && t.nsec == 0

/-- Type `metav1.ObjectMeta`, with the fields the controller reads or writes. -/
structure ObjectMeta where
  Name : String
  Namespace : String
  DeletionTimestamp : Option Time
  Finalizers : List String
  Annotations : List (String × String)
  deriving DecidableEq, Repr

end metav1

namespace cache

/-- Function `cache.MetaNamespaceKeyFunc` on a typed object: `namespace/name`, or `name`
when the namespace is empty. -/
def MetaNamespaceKeyFunc (meta : metav1.ObjectMeta) : Except Error String :=
  if meta.Namespace.length > 0 then Except.ok (meta.Namespace ++ "/" ++ meta.Name)
  else Except.ok meta.Name

end cache

namespace v1alpha1

/-- Type `v1alpha1.VirtualMachineSpec` of `pkg/apis/vmoperator/v1alpha1`. -/
structure VirtualMachineSpec where
  Image : String
  PowerState : String
  deriving DecidableEq, Repr

/-- Type `v1alpha1.VirtualMachineStatus` of `pkg/apis/vmoperator/v1alpha1`. -/
structure VirtualMachineStatus where
  Host : String
  PowerState : String
  Phase : String
  VmIp : String
  deriving DecidableEq, Repr

/-- Type `v1alpha1.VirtualMachine`, the machine record. -/
structure VirtualMachine where
  ObjectMeta : metav1.ObjectMeta
  Spec : VirtualMachineSpec
  Status : VirtualMachineStatus
  deriving DecidableEq, Repr

/-- Type `v1alpha1.VirtualMachineService`, a dependent service record. -/
structure VirtualMachineService where
  ObjectMeta : metav1.ObjectMeta
  deriving DecidableEq, Repr

end v1alpha1

/-! ## `pkg/controller/virtualmachine/controller.go` -/

namespace virtualmachine

/-- Calls the controller issues to its collaborators during one pass. -/
inductive CtlCall where
  | ListVmServices (ns : String)
  | QueueAdd (key : String)
  | ListerGet (ns name : String)
  | GetVirtualMachine (name : String)
  | CreateVirtualMachine (vm : v1alpha1.VirtualMachine)
  | UpdateVirtualMachine (vm : v1alpha1.VirtualMachine)
  | DeleteVirtualMachine (vm : v1alpha1.VirtualMachine)
  | Update (vm : v1alpha1.VirtualMachine)
  | UpdateStatus (vm : v1alpha1.VirtualMachine)
  deriving DecidableEq, Repr

/-- True on the backend lookup `GetVirtualMachine`. -/
def CtlCall.isBackendLookup : CtlCall → Bool
  | CtlCall.GetVirtualMachine _ => true
  | _ => false

/-- True on the backend create `CreateVirtualMachine`. -/
def CtlCall.isBackendCreate : CtlCall → Bool
  | CtlCall.CreateVirtualMachine _ => true
  | _ => false

/-- True on the backend update `UpdateVirtualMachine`. -/
def CtlCall.isBackendUpdate : CtlCall → Bool
  | CtlCall.UpdateVirtualMachine _ => true
  | _ => false

/-- True on the backend delete `DeleteVirtualMachine`. -/
def CtlCall.isBackendDelete : CtlCall → Bool
  | CtlCall.DeleteVirtualMachine _ => true
  | _ => false

/-- True on a write to the store: `vmClientSet.Update` or `vmClientSet.UpdateStatus`. -/
def CtlCall.isStoreWrite : CtlCall → Bool
  | CtlCall.Update _ => true
  | CtlCall.UpdateStatus _ => true
  | _ => false

/-- True on the calls of `postVmServiceEventsToWorkqueue`: listing the dependent services
from the informer cache and enqueueing their keys. -/
def CtlCall.isServiceEvent : CtlCall → Bool
  | CtlCall.ListVmServices _ => true
  | CtlCall.QueueAdd _ => true
  | _ => false

/-- Outcome of one controller function: its Go results, the state of the collaborators
afterwards and the calls it issued, oldest first. -/
structure Pass (σ : Type) (α : Type) where
  ret : α
  state : σ
  calls : List CtlCall

/-- Interface `iface.VirtualMachines`, the VM operations of a provider. -/
structure VirtualMachines (σ : Type) where
  GetVirtualMachine : String → σ → Except Error v1alpha1.VirtualMachine × σ
  CreateVirtualMachine : v1alpha1.VirtualMachine → σ → Except Error v1alpha1.VirtualMachine × σ
  UpdateVirtualMachine : v1alpha1.VirtualMachine → σ → Except Error v1alpha1.VirtualMachine × σ
  DeleteVirtualMachine : v1alpha1.VirtualMachine → σ → Option Error × σ

/-- Interface `iface.VirtualMachineProviderInterface`: `VirtualMachines()` returns the VM
operations and whether they are supported; `none` is `supported = false`. -/
structure VirtualMachineProviderInterface (σ : Type) where
  VirtualMachines : Option (VirtualMachines σ)

/-- Lister `listers.VirtualMachineServiceLister`: `VirtualMachineServices(ns).List(everything)`. -/
structure VirtualMachineServiceLister (σ : Type) where
  List : String → σ → Except Error (List v1alpha1.VirtualMachineService) × σ

/-- Lister `listers.VirtualMachineLister`: `VirtualMachines(ns).Get(name)`. -/
structure VirtualMachineLister (σ : Type) where
  Get : String → String → σ → Except Error v1alpha1.VirtualMachine × σ

/-- Client `vmclientSet.VirtualMachineInterface`, the writes to the store. -/
structure VirtualMachineInterface (σ : Type) where
  Update : v1alpha1.VirtualMachine → σ → Except Error v1alpha1.VirtualMachine × σ
  UpdateStatus : v1alpha1.VirtualMachine → σ → Except Error v1alpha1.VirtualMachine × σ

/-- Type `VirtualMachineControllerImpl`.  `QueueAdd` is
`informers.WorkerQueues["VirtualMachineService"].Queue.Add`; `AddAnnotations` is the
function `pkg.AddAnnotations`, whose source is not part of the embedding. -/
structure VirtualMachineControllerImpl (σ : Type) where
  vmServiceLister : VirtualMachineServiceLister σ
  QueueAdd : String → σ → σ
  vmLister : VirtualMachineLister σ
  vmClientSet : VirtualMachineInterface σ
  vmProvider : VirtualMachineProviderInterface σ
  AddAnnotations : metav1.ObjectMeta → metav1.ObjectMeta

/-- Method `filter`: the list without the entries equal to `strToFilter`. -/
def VirtualMachineControllerImpl.filter (list : List String) (strToFilter : String) :
    List String :=
  list.foldl (fun newList item => if item ≠ strToFilter then newList ++ [item] else newList) []

/-- Method `contains`: whether the list holds `strToSearch`. -/
def VirtualMachineControllerImpl.contains : List String → String → Bool
  | [], _ => false
  | item :: rest, strToSearch =>
    if item = strToSearch then true else VirtualMachineControllerImpl.contains rest strToSearch

/-- Loop of `postVmServiceEventsToWorkqueue` over the listed services. -/
def VirtualMachineControllerImpl.postVmServiceEventsToWorkqueue.loop {σ : Type}
    (c : VirtualMachineControllerImpl σ) :
    List v1alpha1.VirtualMachineService → σ → List CtlCall → σ × List CtlCall
  | [], s, calls => (s, calls)
  | vmService :: rest, s, calls =>
    match cache.MetaNamespaceKeyFunc vmService.ObjectMeta with
    | Except.ok key =>
      VirtualMachineControllerImpl.postVmServiceEventsToWorkqueue.loop c rest (c.QueueAdd key s)
        (calls ++ [CtlCall.QueueAdd key])
    | Except.error _ =>
      VirtualMachineControllerImpl.postVmServiceEventsToWorkqueue.loop c rest s calls

/-- Method `postVmServiceEventsToWorkqueue`. -/
def VirtualMachineControllerImpl.postVmServiceEventsToWorkqueue {σ : Type}
    (c : VirtualMachineControllerImpl σ) (vm : v1alpha1.VirtualMachine) (s : σ) :
    Pass σ (Option Error) :=
  match c.vmServiceLister.List vm.ObjectMeta.Namespace s with
  | (Except.error err, s1) => ⟨some err, s1, [CtlCall.ListVmServices vm.ObjectMeta.Namespace]⟩
  | (Except.ok vmServices, s1) =>
    match VirtualMachineControllerImpl.postVmServiceEventsToWorkqueue.loop c vmServices s1
        [CtlCall.ListVmServices vm.ObjectMeta.Namespace] with
    | (s2, calls) => ⟨none, s2, calls⟩

/-- Method `processVmDeletion`. -/
def VirtualMachineControllerImpl.processVmDeletion {σ : Type}
    (c : VirtualMachineControllerImpl σ) (vmToDelete : v1alpha1.VirtualMachine) (s : σ) :
    Pass σ (Option Error) :=
  match c.vmProvider.VirtualMachines with
  | none =>
    ⟨some (errors.NewMethodNotSupported "vmoperator" "VirtualMachines" "list"), s, []⟩
  | some vmsProvider =>
    match vmsProvider.DeleteVirtualMachine vmToDelete s with
    | (some err, s1) =>
      if errors.IsNotFound (some err) then
        ⟨none, s1, [CtlCall.DeleteVirtualMachine vmToDelete]⟩
      else
        ⟨some err, s1, [CtlCall.DeleteVirtualMachine vmToDelete]⟩
    | (none, s1) => ⟨none, s1, [CtlCall.DeleteVirtualMachine vmToDelete]⟩

/-- Method `processVmCreate`. -/
def VirtualMachineControllerImpl.processVmCreate {σ : Type}
    (c : VirtualMachineControllerImpl σ) (vmsProvider : VirtualMachines σ)
    (vmToCreate : v1alpha1.VirtualMachine) (s : σ) :
    Pass σ (Except Error v1alpha1.VirtualMachine) :=
  match vmsProvider.CreateVirtualMachine vmToCreate s with
  | (Except.error err, s1) => ⟨Except.error err, s1, [CtlCall.CreateVirtualMachine vmToCreate]⟩
  | (Except.ok newVm, s1) =>
    ⟨Except.ok { newVm with ObjectMeta := c.AddAnnotations newVm.ObjectMeta }, s1,
      [CtlCall.CreateVirtualMachine vmToCreate]⟩

/-- Method `processVmUpdate`. -/
def VirtualMachineControllerImpl.processVmUpdate {σ : Type}
    (_c : VirtualMachineControllerImpl σ) (vmsProvider : VirtualMachines σ)
    (vmToUpdate : v1alpha1.VirtualMachine) (s : σ) :
    Pass σ (Except Error v1alpha1.VirtualMachine) :=
  match vmsProvider.UpdateVirtualMachine vmToUpdate s with
  | (r, s1) => ⟨r, s1, [CtlCall.UpdateVirtualMachine vmToUpdate]⟩

/-- End of `processVmCreateOrUpdate`, after the create-or-update switch: an error is
returned as it is, otherwise the new record's status is written to the store. -/
def VirtualMachineControllerImpl.processVmCreateOrUpdate.finish {σ : Type}
    (c : VirtualMachineControllerImpl σ) (r : Pass σ (Except Error v1alpha1.VirtualMachine))
    (calls : List CtlCall) : Pass σ (Except Error v1alpha1.VirtualMachine) :=
  match r.ret with
  | Except.error err => ⟨Except.error err, r.state, calls ++ r.calls⟩
  | Except.ok newVm =>
    match c.vmClientSet.UpdateStatus newVm r.state with
    | (Except.error err, s1) =>
      ⟨Except.error err, s1, calls ++ r.calls ++ [CtlCall.UpdateStatus newVm]⟩
    | (Except.ok _, s1) => ⟨Except.ok newVm, s1, calls ++ r.calls ++ [CtlCall.UpdateStatus newVm]⟩

/-- Method `processVmCreateOrUpdate`. -/
def VirtualMachineControllerImpl.processVmCreateOrUpdate {σ : Type}
    (c : VirtualMachineControllerImpl σ) (vmToUpdate : v1alpha1.VirtualMachine) (s : σ) :
    Pass σ (Except Error v1alpha1.VirtualMachine) :=
  match c.vmProvider.VirtualMachines with
  | none =>
    ⟨Except.error (errors.NewMethodNotSupported "vmoperator" "VirtualMachines" "list"), s, []⟩
  | some vmsProvider =>
    match vmsProvider.GetVirtualMachine vmToUpdate.ObjectMeta.Name s with
    | (Except.error err, s1) =>
      if errors.IsNotFound (some err) then
        VirtualMachineControllerImpl.processVmCreateOrUpdate.finish c
          (c.processVmCreate vmsProvider vmToUpdate s1)
          [CtlCall.GetVirtualMachine vmToUpdate.ObjectMeta.Name]
      else
        ⟨Except.error err, s1, [CtlCall.GetVirtualMachine vmToUpdate.ObjectMeta.Name]⟩
    | (Except.ok _, s1) =>
      VirtualMachineControllerImpl.processVmCreateOrUpdate.finish c
        (c.processVmUpdate vmsProvider vmToUpdate s1)
        [CtlCall.GetVirtualMachine vmToUpdate.ObjectMeta.Name]

/-- Method `Reconcile`.  The result pairs the returned error with the record
`vmToReconcile` points to, as the pass left it. -/
def VirtualMachineControllerImpl.Reconcile {σ : Type}
    (c : VirtualMachineControllerImpl σ) (vmToReconcile : v1alpha1.VirtualMachine) (s : σ) :
    Pass σ (Option Error × v1alpha1.VirtualMachine) :=
  -- `err := c.postVmServiceEventsToWorkqueue(vmToReconcile)`; `err` is not read before
  -- it is shadowed or assigned again
  let post := c.postVmServiceEventsToWorkqueue vmToReconcile s
  if !metav1.Time.IsZero vmToReconcile.ObjectMeta.DeletionTimestamp then
    if !VirtualMachineControllerImpl.contains vmToReconcile.ObjectMeta.Finalizers
        v1alpha1.VirtualMachineFinalizer then
      ⟨(none, vmToReconcile), post.state, post.calls⟩
    else
      let del := c.processVmDeletion vmToReconcile post.state
      match del.ret with
      | some err => ⟨(some err, vmToReconcile), del.state, post.calls ++ del.calls⟩
      | none =>
        let vmStripped : v1alpha1.VirtualMachine :=
          { vmToReconcile with
            ObjectMeta :=
              { vmToReconcile.ObjectMeta with
                Finalizers := VirtualMachineControllerImpl.filter
                  vmToReconcile.ObjectMeta.Finalizers v1alpha1.VirtualMachineFinalizer } }
        match c.vmClientSet.Update vmStripped del.state with
        | (Except.error err, s3) =>
          ⟨(some err, vmStripped), s3, post.calls ++ del.calls ++ [CtlCall.Update vmStripped]⟩
        | (Except.ok _, s3) =>
          ⟨(none, vmStripped), s3, post.calls ++ del.calls ++ [CtlCall.Update vmStripped]⟩
  else
    match c.vmLister.Get vmToReconcile.ObjectMeta.Namespace vmToReconcile.ObjectMeta.Name
        post.state with
    | (Except.error err, s2) =>
      ⟨(some err, vmToReconcile), s2,
        post.calls ++ [CtlCall.ListerGet vmToReconcile.ObjectMeta.Namespace
          vmToReconcile.ObjectMeta.Name]⟩
    | (Except.ok vm, s2) =>
      let r := c.processVmCreateOrUpdate vm s2
      match r.ret with
      | Except.error err =>
        ⟨(some err, vmToReconcile), r.state,
          post.calls ++ [CtlCall.ListerGet vmToReconcile.ObjectMeta.Namespace
            vmToReconcile.ObjectMeta.Name] ++ r.calls⟩
      | Except.ok _ =>
        ⟨(none, vmToReconcile), r.state,
          post.calls ++ [CtlCall.ListerGet vmToReconcile.ObjectMeta.Namespace
            vmToReconcile.ObjectMeta.Name] ++ r.calls⟩

/-! ### A scripted controller for worked examples -/

/-- VM operations of a provider that holds no machine: lookups report not-found and a
delete is answered with `deleteErr`. -/
def scriptedVirtualMachines (deleteErr : Option Error) : VirtualMachines Unit where
  GetVirtualMachine := fun _ s => (Except.error ⟨StatusReason.NotFound, "not found"⟩, s)
  CreateVirtualMachine := fun vm s => (Except.ok vm, s)
  UpdateVirtualMachine := fun vm s => (Except.ok vm, s)
  DeleteVirtualMachine := fun _ s => (deleteErr, s)

/-- A not-found error of the backend. -/
def errNotFound : Error := ⟨StatusReason.NotFound, "vm-0 not found"⟩

/-- A backend fault that is not a not-found error. -/
def errBackend : Error := ⟨StatusReason.Unknown, "connection refused"⟩

/-- A failed write to the store. -/
def errConflict : Error := ⟨StatusReason.Unknown, "update conflict"⟩

/-- A controller whose collaborators hold no state: the provider answers the delete with
`deleteErr` and the store answers the finalizer update with `updateErr`; `supported`
tells whether the provider offers VM operations. -/
def scriptedController (supported : Bool) (deleteErr updateErr : Option Error) :
    VirtualMachineControllerImpl Unit where
  vmServiceLister := ⟨fun _ s => (Except.ok [], s)⟩
  QueueAdd := fun _ s => s
  vmLister := ⟨fun _ _ s => (Except.error ⟨StatusReason.NotFound, "not found"⟩, s)⟩
  vmClientSet :=
    { Update := fun vm s =>
        match updateErr with
        | some e => (Except.error e, s)
        | none => (Except.ok vm, s),
      UpdateStatus := fun vm s => (Except.ok vm, s) }
  vmProvider := ⟨if supported then some (scriptedVirtualMachines deleteErr) else none⟩
  AddAnnotations := fun m => m

/-- A record marked for deletion that still holds the controller's finalizer. -/
def deletedRecord : v1alpha1.VirtualMachine :=
  { ObjectMeta :=
      { Name := "vm-0", Namespace := "default", DeletionTimestamp := some ⟨63700000000, 0⟩,
        Finalizers := ["other.example.com", v1alpha1.VirtualMachineFinalizer],
        Annotations := [] },
    Spec := ⟨"photon", "poweredOn"⟩,
    Status := ⟨"host-1", "poweredOn", "Created", "10.0.0.1"⟩ }

/-- A record marked for deletion from which the controller's finalizer is already gone. -/
def strippedRecord : v1alpha1.VirtualMachine :=
  { deletedRecord with
    ObjectMeta := { deletedRecord.ObjectMeta with Finalizers := ["other.example.com"] } }

end virtualmachine

/-! ## Further controller definitions: call classes, record creation, playback collaborators -/

namespace virtualmachine

/-- True on the status write `vmClientSet.UpdateStatus`. -/
def CtlCall.isStatusWrite : CtlCall → Bool
  | CtlCall.UpdateStatus _ => true
  | _ => false

/-- True on the record write `vmClientSet.Update`, the only call that persists the
finalizer list. -/
def CtlCall.isRecordUpdate : CtlCall → Bool
  | CtlCall.Update _ => true
  | _ => false

/-- True on the record load `vmLister.Get`. -/
def CtlCall.isRecordLoad : CtlCall → Bool
  | CtlCall.ListerGet _ _ => true
  | _ => false

/-- True on any call to the backend provider. -/
def CtlCall.isBackendCall : CtlCall → Bool
  | CtlCall.GetVirtualMachine _ => true
  | CtlCall.CreateVirtualMachine _ => true
  | CtlCall.UpdateVirtualMachine _ => true
  | CtlCall.DeleteVirtualMachine _ => true
  | _ => false

/-- Method `VirtualMachineStrategy.PrepareForCreate` of
`pkg/apis/vmoperator/v1alpha1/virtualmachine_types.go`: the parent strategy is run on the
object, then the controller's finalizer is appended to its finalizer list.  `parent` is
`DefaultStorageStrategy.PrepareForCreate`, a library function. -/
def VirtualMachineStrategy.PrepareForCreate
    (parent : v1alpha1.VirtualMachine → v1alpha1.VirtualMachine)
    (obj : v1alpha1.VirtualMachine) : v1alpha1.VirtualMachine :=
  let o := parent obj
  let finalizers := o.ObjectMeta.Finalizers ++ [v1alpha1.VirtualMachineFinalizer]
  { o with ObjectMeta := { o.ObjectMeta with Finalizers := finalizers } }

/-- Answers of the collaborators during one played-back pass; `none` lets the call succeed. -/
structure Playback where
  listErr : Option Error
  loadErr : Option Error
  lookupErr : Option Error
  createErr : Option Error
  updateErr : Option Error
  deleteErr : Option Error
  recordUpdateErr : Option Error
  statusErr : Option Error
  deriving DecidableEq, Repr

/-- Every call succeeds: the machine exists in the backend. -/
def Playback.healthy : Playback := ⟨none, none, none, none, none, none, none, none⟩

/-- A controller that plays back the given answers; a successful load or lookup returns
`record`, a successful create, update or store write returns its argument. -/
def playbackController (p : Playback) (record : v1alpha1.VirtualMachine) :
    VirtualMachineControllerImpl Unit where
  vmServiceLister :=
    ⟨fun _ s =>
      match p.listErr with
      | some e => (Except.error e, s)
      | none => (Except.ok [], s)⟩
  QueueAdd := fun _ s => s
  vmLister :=
    ⟨fun _ _ s =>
      match p.loadErr with
      | some e => (Except.error e, s)
      | none => (Except.ok record, s)⟩
  vmClientSet :=
    { Update := fun vm s =>
        match p.recordUpdateErr with
        | some e => (Except.error e, s)
        | none => (Except.ok vm, s),
      UpdateStatus := fun vm s =>
        match p.statusErr with
        | some e => (Except.error e, s)
        | none => (Except.ok vm, s) }
  vmProvider :=
    ⟨some
      { GetVirtualMachine := fun _ s =>
          match p.lookupErr with
          | some e => (Except.error e, s)
          | none => (Except.ok record, s),
        CreateVirtualMachine := fun vm s =>
          match p.createErr with
          | some e => (Except.error e, s)
          | none => (Except.ok vm, s),
        UpdateVirtualMachine := fun vm s =>
          match p.updateErr with
          | some e => (Except.error e, s)
          | none => (Except.ok vm, s),
        DeleteVirtualMachine := fun _ s => (p.deleteErr, s) }⟩
  AddAnnotations := fun m => m

/-- A record without deletion marker that holds the controller's finalizer. -/
def liveRecord : v1alpha1.VirtualMachine :=
  { ObjectMeta :=
      { Name := "vm-0", Namespace := "default", DeletionTimestamp := none,
        Finalizers := [v1alpha1.VirtualMachineFinalizer], Annotations := [] },
    Spec := ⟨"photon", "poweredOn"⟩,
    Status := ⟨"host-1", "poweredOn", "Created", "10.0.0.1"⟩ }

/-- A record without deletion marker and without the controller's finalizer. -/
def bareRecord : v1alpha1.VirtualMachine :=
  { liveRecord with ObjectMeta := { liveRecord.ObjectMeta with Finalizers := [] } }

end virtualmachine

/-! ## Reference definitions for drift detection and cross-cluster placement -/

namespace resources

/-- A live configuration without CPU allocation, as the backend returns it for a VM
whose `config.cpuAllocation` is unset. -/
def exampleConfigWithoutCpuAllocation : types.VirtualMachineConfigInfo :=
  { Hardware := ⟨2, 2048⟩, CpuAllocation := none, MemoryAllocation := none }

/-- A live configuration whose CPU allocation carries no reservation. -/
def exampleConfigWithoutCpuReservation : types.VirtualMachineConfigInfo :=
  { Hardware := ⟨2, 2048⟩, CpuAllocation := some ⟨none, some 500⟩, MemoryAllocation := none }

end resources

namespace placement

/-- The recommendation a cross-cluster response action stands for: a cluster initial
placement action with a pool gives that pool together with the action's target host as
it is; an action without pool, or of another kind, gives nothing. -/
def clusterRecommendationOf (a : types.BaseClusterAction) : Option Recommendation :=
  match a with
  | types.BaseClusterAction.ClusterClusterInitialPlacementAction ca =>
    match ca.Pool with
    | some pool => some ⟨pool, some ca.TargetHost⟩
    | none => none
  | _ => none

/-- The recommendations expected for a fault-free cross-cluster response: in response
order, one per action with a pool, over the placement infos that carry the cross-cluster
placement reason code. -/
def expectedClusterRecommendations (resp : types.PlaceVmsXClusterResult) : List Recommendation :=
  ((resp.PlacementInfos.filter
      (fun i => decide (i.Recommendation.Reason =
        types.RecommendationReasonCodeXClusterPlacement))).map
    (fun i => i.Recommendation.Action.filterMap clusterRecommendationOf)).flatten

/-- The unset managed object reference, the zero value of the Go struct. -/
def unsetRef : types.ManagedObjectReference := ⟨"", ""⟩

/-- A fault-free cross-cluster response whose only action has a pool but an unset target
host. -/
def exampleUnsetHostResponse : types.PlaceVmsXClusterResult :=
  { PlacementInfos :=
      [⟨"vm-0", ⟨"1", types.RecommendationReasonCodeXClusterPlacement,
        [types.BaseClusterAction.ClusterClusterInitialPlacementAction
          ⟨unsetRef, some (exampleRef "ResourcePool" "resgroup-1"), none⟩]⟩⟩],
    Faults := [] }

end placement

/-! ## `pkg/controller/virtualmachine/virtualmachine_controller_test.go` -/

/-- A Go `map[string]bool` as the list of its entries, one per key. -/
abbrev GoStringSet := List (String × Bool)

namespace GoStringSet

/-- Go `m[k] = v`: the entry of `k` is replaced or added. -/
def set (m : GoStringSet) (k : String) (v : Bool) : GoStringSet :=
  (k, v) :: m.filter (fun e => decide (e.1 ≠ k))

/-- Go `m[k]`: the value stored for `k`, or false when `k` has no entry. -/
def get (m : GoStringSet) (k : String) : Bool :=
  match m.find? (fun e => decide (e.1 = k)) with
  | some e => e.2
  | none => false

/-- Go `delete(m, k)`. -/
def delete (m : GoStringSet) (k : String) : GoStringSet :=
  m.filter (fun e => decide (e.1 ≠ k))

/-- Go `len(m)`. -/
def len (m : GoStringSet) : Nat := m.length

end GoStringSet

namespace vmoperatorv1alpha1

/-- Type `VirtualMachineVolumes`, a declared volume; `ClaimName` is the claim of its
`PersistentVolumeClaim` pointer. -/
structure VirtualMachineVolumes where
  Name : String
  ClaimName : Option String
  deriving DecidableEq, Repr

/-- Type `VirtualMachineVolumeStatus`, the observed state of one volume. -/
structure VirtualMachineVolumeStatus where
  Name : String
  Attached : Bool
  DiskUuid : String
  Error : String
  deriving DecidableEq, Repr

/-- Type `VirtualMachineSpec`, with the field the consistency check reads. -/
structure VirtualMachineSpec where
  Volumes : List VirtualMachineVolumes
  deriving DecidableEq, Repr

/-- Type `VirtualMachineStatus`, with the field the consistency check reads. -/
structure VirtualMachineStatus where
  Volumes : List VirtualMachineVolumeStatus
  deriving DecidableEq, Repr

/-- Type `VirtualMachine` of the controller test. -/
structure VirtualMachine where
  Spec : VirtualMachineSpec
  Status : VirtualMachineStatus
  deriving DecidableEq, Repr

end vmoperatorv1alpha1

namespace virtualmachine

/-- Function `checkVmVolumeConsistency` of the controller test: the declared volume names
are put into a set, the names of the status entries are deleted from it, and the check
holds when the set ends up empty. -/
def checkVmVolumeConsistency (vm : vmoperatorv1alpha1.VirtualMachine) : Bool :=
  let set : GoStringSet := []
  let set := vm.Spec.Volumes.foldl (fun set volume => GoStringSet.set set volume.Name true) set
  let set := vm.Status.Volumes.foldl
    (fun set volume =>
      if GoStringSet.get set volume.Name then GoStringSet.delete set volume.Name else set) set
  GoStringSet.len set == 0

/-- The machine of the controller test once its three volumes are reported. -/
def exampleConvergedVm : vmoperatorv1alpha1.VirtualMachine :=
  { Spec := ⟨[⟨"fake-volume-1", some "fake-pvc-1"⟩, ⟨"fake-volume-2", some "fake-pvc-2"⟩,
      ⟨"fake-volume-3", some "fake-pvc-3"⟩]⟩,
    Status := ⟨[⟨"fake-volume-2", true, "uuid-2", ""⟩, ⟨"fake-volume-1", true, "uuid-1", ""⟩,
      ⟨"fake-volume-3", false, "", "pending"⟩]⟩ }

end virtualmachine

/-! ## The Session Cache

The repository declares the cache operations in `pkg/vmprovider/interface.go`
(`ClearSessionsAndClient`, `DeleteNamespaceSessionInCache`); their implementation is not
among the embedded sources, so the cache below follows the specification of the Session
Cache. -/

namespace sessioncache

/-- Modelled from the spec: a Session, a live authenticated connection to the backend
scoped to one tenant.  The session manager that creates Sessions is not among the
sources; a Session instance is identified by the tenant it serves and by the ordinal of
the connection establishment that created it. -/
structure Session where
  tenant : String
  ordinal : Nat
  deriving DecidableEq, Repr

/-- Modelled from the spec: the Session Cache, whose implementation (the provider's
session map) is not among the sources.  It owns zero or more live Sessions keyed by
tenant, and has established `established` connections so far. -/
structure SessionCache where
  sessions : List (String × Session)
  established : Nat
  deriving DecidableEq, Repr

/-- Modelled from the spec: the cache at process start, which is missing from the sources
with the rest of the cache: no Session, no connection established yet. -/
def SessionCache.empty : SessionCache := ⟨[], 0⟩

/-- Modelled from the spec: the cached Session of a tenant, if any; the session map is not
among the sources. -/
def SessionCache.cached (c : SessionCache) (tenant : String) : Option Session :=
  match c.sessions.find? (fun e => decide (e.1 = tenant)) with
  | some e => some e.2
  | none => none

/-- Modelled from the spec: `Get(tenant)`, missing from the sources, returns a live Session
for the tenant, creating one if none is cached; it fails only if establishing a new
connection fails.  `connect` tells whether a new connection can be established. -/
def Get (c : SessionCache) (tenant : String) (connect : Bool) :
    Except Error Session × SessionCache :=
  match c.cached tenant with
  | some sess => (Except.ok sess, c)
  | none =>
    if connect then
      (Except.ok ⟨tenant, c.established⟩,
        ⟨(tenant, ⟨tenant, c.established⟩) :: c.sessions, c.established + 1⟩)
    else
      (Except.error (errors.New "failed to establish a connection"), c)

/-- Modelled from the spec: `Invalidate(tenant)`, the missing implementation of
`DeleteNamespaceSessionInCache`, drops and closes the cached Session of one tenant. -/
def Invalidate (c : SessionCache) (tenant : String) : SessionCache :=
  ⟨c.sessions.filter (fun e => decide (e.1 ≠ tenant)), c.established⟩

/-- Modelled from the spec: `InvalidateAll()`, the missing implementation of
`ClearSessionsAndClient`, drops and closes every cached Session. -/
def InvalidateAll (c : SessionCache) : SessionCache := ⟨[], c.established⟩

/-- An operation on the Session Cache. -/
inductive Op where
  | Get (tenant : String) (connect : Bool)
  | Invalidate (tenant : String)
  | InvalidateAll
  deriving DecidableEq, Repr

/-- One operation: the cache afterwards and the Session handed out, with its tenant. -/
def step (c : SessionCache) (op : Op) : SessionCache × List (String × Session) :=
  match op with
  | Op.Get tenant connect =>
    match Get c tenant connect with
    | (Except.ok sess, c1) => (c1, [(tenant, sess)])
    | (Except.error _, c1) => (c1, [])
  | Op.Invalidate tenant => (Invalidate c tenant, [])
  | Op.InvalidateAll => (InvalidateAll c, [])

/-- A sequence of operations: the cache afterwards and the Sessions handed out, oldest
first, each with the tenant it was handed out for. -/
def run : List Op → SessionCache → SessionCache × List (String × Session)
  | [], c => (c, [])
  | op :: rest, c =>
    ((run rest (step c op).1).1, (step c op).2 ++ (run rest (step c op).1).2)

/-- Every cached Session was created by a connection established earlier. -/
def Bounded (c : SessionCache) : Prop := ∀ e ∈ c.sessions, e.2.ordinal < c.established

/-- The cache holds no Session for the tenant. -/
def Absent (tenant : String) (c : SessionCache) : Prop := ∀ e ∈ c.sessions, e.1 ≠ tenant

end sessioncache

/-! ## `resources/vm.go`: guest address, and reference definitions for the drift check -/

namespace resources

/-- True on a wait for a backend task. -/
def VcCall.isWaitForResult : VcCall → Bool
  | VcCall.WaitForResult _ => true
  | _ => false

/-- The error `&find.NotFoundError{}` of govmomi, with its zero kind and path. -/
def findNotFoundError : Error := ⟨StatusReason.Unknown, " '' not found"⟩

/-- Method `(*VirtualMachine).IpAddress` of `resources/vm.go`; the Go results are the
address and the error. -/
def VirtualMachine.IpAddress {σ : Type} (vm : VirtualMachine σ) (s : σ) :
    Exec σ VcCall (String × Option Error) :=
  match vm.vcVirtualMachine.PowerState s with
  | (Except.error err, s1) => ⟨some ("", some err), s1, [VcCall.PowerState]⟩
  | (Except.ok ps, s1) =>
    if ps = types.VirtualMachinePowerStatePoweredOff then
      ⟨some ("", none), s1, [VcCall.PowerState]⟩
    else
      match vm.vcVirtualMachine.Properties ["guest.ipAddress"] s1 with
      | (Except.error err, s2) =>
        ⟨some ("", some err), s2, [VcCall.PowerState, VcCall.Properties ["guest.ipAddress"]]⟩
      | (Except.ok o, s2) =>
        match o.Guest with
        | none =>
          ⟨some ("", some findNotFoundError), s2,
            [VcCall.PowerState, VcCall.Properties ["guest.ipAddress"]]⟩
        | some guest =>
          ⟨some (guest.IpAddress, none), s2,
            [VcCall.PowerState, VcCall.Properties ["guest.ipAddress"]]⟩

/-- A value of the desired spec matches the live value when the spec leaves it
unspecified or specifies the live value. -/
def specifiedValueMatches (desired : Option Int) (live : Int) : Bool :=
  match desired with
  | none => true
  | some d => decide (d = live)

/-- The reference definition of the drift check for a live configuration whose CPU
allocation carries the reservation `cpuReservation` and the limit `cpuLimit` and whose
memory allocation carries `memReservation` and `memLimit`: the CPU count and the memory
size are equal, and each allocation value the desired spec specifies equals the live one. -/
def referenceCompare (live : types.VirtualMachineConfigInfo)
    (cpuReservation cpuLimit memReservation memLimit : Int)
    (desired : types.VirtualMachineConfigSpec) : Bool :=
  decide (desired.NumCPUs = live.Hardware.NumCPU) &&
  decide (desired.MemoryMB = live.Hardware.MemoryMB) &&
  specifiedValueMatches (desired.CpuAllocation.bind (fun a => a.Reservation)) cpuReservation &&
  specifiedValueMatches (desired.CpuAllocation.bind (fun a => a.Limit)) cpuLimit &&
  specifiedValueMatches (desired.MemoryAllocation.bind (fun a => a.Reservation)) memReservation &&
  specifiedValueMatches (desired.MemoryAllocation.bind (fun a => a.Limit)) memLimit

end resources

/-! ## `pkg/controller/infracluster/infracluster_controller.go` -/

namespace infracluster

/-- Type `types.NamespacedName`. -/
structure NamespacedName where
  Namespace : String
  Name : String
  deriving DecidableEq, Repr

/-- Type `reconcile.Request`. -/
structure Request where
  NamespacedName : NamespacedName
  deriving DecidableEq, Repr

/-- Type `reconcile.Result`. -/
structure Result where
  Requeue : Bool
  RequeueAfter : Nat
  deriving DecidableEq, Repr

/-- Type `corev1.ConfigMap`. -/
structure ConfigMap where
  Name : String
  Namespace : String
  Data : List (String × String)
  deriving DecidableEq, Repr

/-- Calls the infrastructure reconciler issues to its collaborators. -/
inductive InfraCall where
  | Get (key : NamespacedName)
  | UpdateVmOpSACredSecret
  | UpdateVcPNID (instance_ : ConfigMap)
  deriving DecidableEq, Repr

/-- The provider methods the infrastructure reconciler calls. -/
structure VirtualMachineProviderInterface (σ : Type) where
  UpdateVmOpSACredSecret : σ → σ
  UpdateVcPNID : ConfigMap → σ → Option Error × σ

/-- Type `ReconcileInfraClusterProvider`; `Get` is the embedded `client.Client.Get` of a
ConfigMap. -/
structure ReconcileInfraClusterProvider (σ : Type) where
  Get : NamespacedName → σ → Except Error ConfigMap × σ
  vmProvider : VirtualMachineProviderInterface σ

/-- Values of other packages the reconciler reads, whose sources are not part of the
embedding: the result of `lib.GetVmOpNamespaceFromEnv()` and the constant
`vsphere.VmOpSecretName`. -/
structure Globals where
  GetVmOpNamespaceFromEnv : Except Error String
  VmOpSecretName : String

/-- Outcome of one function of the infrastructure reconciler. -/
structure Pass (σ : Type) (α : Type) where
  ret : α
  state : σ
  calls : List InfraCall

/-- Function `isVmOpServiceAccountCredSecret`. -/
def isVmOpServiceAccountCredSecret (g : Globals) (secretName secretNamespace : String) : Bool :=
  match g.GetVmOpNamespaceFromEnv with
  | Except.error _ => false
  | Except.ok vmOpNamespace =>
    decide (vmOpNamespace = secretNamespace) && decide (secretName = g.VmOpSecretName)

/-- Method `reconcileVcPNID`. -/
def ReconcileInfraClusterProvider.reconcileVcPNID {σ : Type}
    (r : ReconcileInfraClusterProvider σ) (request : Request) (s : σ) : Pass σ (Option Error) :=
  match r.Get request.NamespacedName s with
  | (Except.error err, s1) =>
    if errors.IsNotFound (some err) then
      ⟨none, s1, [InfraCall.Get request.NamespacedName]⟩
    else
      ⟨some err, s1, [InfraCall.Get request.NamespacedName]⟩
  | (Except.ok instance_, s1) =>
    match r.vmProvider.UpdateVcPNID instance_ s1 with
    | (err, s2) =>
      ⟨err, s2, [InfraCall.Get request.NamespacedName, InfraCall.UpdateVcPNID instance_]⟩

/-- Method `Reconcile` of the infrastructure reconciler. -/
def ReconcileInfraClusterProvider.Reconcile {σ : Type}
    (r : ReconcileInfraClusterProvider σ) (g : Globals) (request : Request) (s : σ) :
    Pass σ (Result × Option Error) :=
  if isVmOpServiceAccountCredSecret g request.NamespacedName.Name
      request.NamespacedName.Namespace then
    ⟨(⟨false, 0⟩, none), r.vmProvider.UpdateVmOpSACredSecret s,
      [InfraCall.UpdateVmOpSACredSecret]⟩
  else
    match r.reconcileVcPNID request s with
    | ⟨err, s1, calls⟩ => ⟨(⟨false, 0⟩, err), s1, calls⟩

end infracluster

/-! ## `api/v1alpha1/virtualmachine_conversion.go`

The conversion functions translate between the two generations of the resource schema.
The declarations of the package `api/v1alpha2` are not among the embedded sources; its
types are given with the fields the conversion functions read and write. -/

namespace intstr

/-- Type `intstr.IntOrString`; `Kind` is the Go field `Type`. -/
structure IntOrString where
  Kind : Int
  IntVal : Int
  StrVal : String
  deriving DecidableEq, Repr

end intstr

namespace api.v1alpha2

/-- Modelled from the spec: type `v1alpha2.TCPSocketAction`, whose declaration is missing
from the sources; its fields are those the conversion reads and writes. -/
structure TCPSocketAction where
  Port : intstr.IntOrString
  Host : String
  deriving DecidableEq, Repr

/-- Modelled from the spec: type `v1alpha2.GuestHeartbeatAction`, whose declaration is
missing from the sources; `ThresholdStatus` is a Go string type. -/
structure GuestHeartbeatAction where
  ThresholdStatus : String
  deriving DecidableEq, Repr

/-- Modelled from the spec: type `v1alpha2.GuestInfoAction`, an element of the `GuestInfo`
list, whose declaration is missing from the sources. -/
structure GuestInfoAction where
  Key : String
  Value : String
  deriving DecidableEq, Repr

/-- Modelled from the spec: type `v1alpha2.VirtualMachineReadinessProbeSpec`, whose
declaration is missing from the sources; its fields are those the conversion and its
test read and write. -/
structure VirtualMachineReadinessProbeSpec where
  TCPSocket : Option TCPSocketAction
  GuestHeartbeat : Option GuestHeartbeatAction
  GuestInfo : List GuestInfoAction
  TimeoutSeconds : Int
  PeriodSeconds : Int
  deriving DecidableEq, Repr

/-- Modelled from the spec: type `v1alpha2.VirtualMachineNetworkInterfaceIPAddrStatus`,
whose declaration is missing from the sources. -/
structure VirtualMachineNetworkInterfaceIPAddrStatus where
  Address : String
  deriving DecidableEq, Repr

/-- Modelled from the spec: type `v1alpha2.VirtualMachineNetworkInterfaceIPStatus`, whose
declaration is missing from the sources. -/
structure VirtualMachineNetworkInterfaceIPStatus where
  Addresses : List VirtualMachineNetworkInterfaceIPAddrStatus
  MACAddr : String
  deriving DecidableEq, Repr

/-- Modelled from the spec: type `v1alpha2.VirtualMachineNetworkInterfaceStatus`, whose
declaration is missing from the sources. -/
structure VirtualMachineNetworkInterfaceStatus where
  IP : VirtualMachineNetworkInterfaceIPStatus
  deriving DecidableEq, Repr

/-- Modelled from the spec: type `v1alpha2.VirtualMachineNetworkStatus`, whose declaration
is missing from the sources; its fields are those the conversion reads and writes. -/
structure VirtualMachineNetworkStatus where
  Interfaces : List VirtualMachineNetworkInterfaceStatus
  PrimaryIP4 : String
  PrimaryIP6 : String
  deriving DecidableEq, Repr

/-- Modelled from the spec: type `v1alpha2.VirtualMachineVolumeProvisioningOptions`, whose
declaration is missing from the sources; both fields are `*bool`. -/
structure VirtualMachineVolumeProvisioningOptions where
  ThinProvision : Option Bool
  EagerZero : Option Bool
  deriving DecidableEq, Repr

end api.v1alpha2

namespace api.v1alpha1

/-- Type `v1alpha1.TCPSocketAction`. -/
structure TCPSocketAction where
  Port : intstr.IntOrString
  Host : String
  deriving DecidableEq, Repr

/-- Type `v1alpha1.GuestHeartbeatAction`; `ThresholdStatus` is a Go string type. -/
structure GuestHeartbeatAction where
  ThresholdStatus : String
  deriving DecidableEq, Repr

/-- Type `v1alpha1.Probe`; the two seconds fields are `int32`. -/
structure Probe where
  TCPSocket : Option TCPSocketAction
  GuestHeartbeat : Option GuestHeartbeatAction
  TimeoutSeconds : Int
  PeriodSeconds : Int
  deriving DecidableEq, Repr

/-- Type `v1alpha1.NetworkInterfaceStatus`. -/
structure NetworkInterfaceStatus where
  Connected : Bool
  MacAddress : String
  IpAddresses : List String
  deriving DecidableEq, Repr

/-- Type `v1alpha1.VirtualMachineVolumeProvisioningOptions`; both fields are `*bool`. -/
structure VirtualMachineVolumeProvisioningOptions where
  ThinProvisioned : Option Bool
  EagerZeroed : Option Bool
  deriving DecidableEq, Repr

/-- Function `convert_v1alpha1_Probe_To_v1alpha2_ReadinessProbeSpec`. -/
def convert_v1alpha1_Probe_To_v1alpha2_ReadinessProbeSpec (in_ : Option Probe) :
    v1alpha2.VirtualMachineReadinessProbeSpec :=
  let out : v1alpha2.VirtualMachineReadinessProbeSpec := ⟨none, none, [], 0, 0⟩
  match in_ with
  | none => out
  | some p =>
    let out := { out with TimeoutSeconds := p.TimeoutSeconds }
    let out := { out with PeriodSeconds := p.PeriodSeconds }
    let out :=
      match p.TCPSocket with
      | some tcp => { out with TCPSocket := some ⟨tcp.Port, tcp.Host⟩ }
      | none => out
    let out :=
      match p.GuestHeartbeat with
      | some hb => { out with GuestHeartbeat := some ⟨hb.ThresholdStatus⟩ }
      | none => out
    out

/-- Function `convert_v1alpha2_ReadinessProbeSpec_To_v1alpha1_Probe`; the result is a Go
pointer.  `apiequality.Semantic.DeepEqual` with the zero spec is equality with it. -/
def convert_v1alpha2_ReadinessProbeSpec_To_v1alpha1_Probe
    (in_ : v1alpha2.VirtualMachineReadinessProbeSpec) : Option Probe :=
  if in_ = ⟨none, none, [], 0, 0⟩ then none
  else
    let out : Probe := ⟨none, none, in_.TimeoutSeconds, in_.PeriodSeconds⟩
    let out :=
      match in_.TCPSocket with
      | some tcp => { out with TCPSocket := some ⟨tcp.Port, tcp.Host⟩ }
      | none => out
    let out :=
      match in_.GuestHeartbeat with
      | some hb => { out with GuestHeartbeat := some ⟨hb.ThresholdStatus⟩ }
      | none => out
    some out

/-- Closure `ipAddrsToAddrStatus` of `convert_v1alpha1_Network_To_v1alpha2_NetworkStatus`. -/
def ipAddrsToAddrStatus (ipAddr : List String) :
    List v1alpha2.VirtualMachineNetworkInterfaceIPAddrStatus :=
  ipAddr.foldl (fun statuses ip => statuses ++ [⟨ip⟩]) []

/-- Function `convert_v1alpha1_Network_To_v1alpha2_NetworkStatus`; the result is a Go
pointer.  `isIPv4 vmIP` is the Go test `net.ParseIP(vmIP).To4() != nil`. -/
def convert_v1alpha1_Network_To_v1alpha2_NetworkStatus (isIPv4 : String → Bool)
    (vmIP : String) (in_ : List NetworkInterfaceStatus) :
    Option v1alpha2.VirtualMachineNetworkStatus :=
  if vmIP = "" ∧ in_.length = 0 then none
  else
    let out : v1alpha2.VirtualMachineNetworkStatus := ⟨[], "", ""⟩
    let out := if isIPv4 vmIP then { out with PrimaryIP4 := vmIP }
      else { out with PrimaryIP6 := vmIP }
    let out := in_.foldl
      (fun out inI =>
        { out with
          Interfaces := out.Interfaces ++
            [⟨⟨ipAddrsToAddrStatus inI.IpAddresses, inI.MacAddress⟩⟩] }) out
    some out

/-- Closure `addrStatusToIPAddrs` of `convert_v1alpha2_NetworkStatus_To_v1alpha1_Network`. -/
def addrStatusToIPAddrs
    (addrStatus : List v1alpha2.VirtualMachineNetworkInterfaceIPAddrStatus) : List String :=
  addrStatus.foldl (fun ipAddrs a => ipAddrs ++ [a.Address]) []

/-- Function `convert_v1alpha2_NetworkStatus_To_v1alpha1_Network`.  A nil and an empty Go
slice are both the empty list: the conversion functions only take their length and
range over them. -/
def convert_v1alpha2_NetworkStatus_To_v1alpha1_Network
    (in_ : Option v1alpha2.VirtualMachineNetworkStatus) :
    String × List NetworkInterfaceStatus :=
  match in_ with
  | none => ("", [])
  | some st =>
    let vmIP := st.PrimaryIP4
    let vmIP := if vmIP = "" then st.PrimaryIP6 else vmIP
    let out := st.Interfaces.foldl
      (fun out i => out ++ [⟨true, i.IP.MACAddr, addrStatusToIPAddrs i.IP.Addresses⟩]) []
    (vmIP, out)

/-- Outcome of a conversion function that works on two pointers: the value its input
pointer and its output pointer hold afterwards, and the returned error. -/
structure Converted (α β : Type) where
  input : α
  output : β
  err : Option Error

/-- Function
`Convert_v1alpha1_VirtualMachineVolumeProvisioningOptions_To_v1alpha2_VirtualMachineVolumeProvisioningOptions`.
`autoConvert` is the generated function of the same name with prefix `autoConvert_`,
whose source is not part of the embedding. -/
def Convert_v1alpha1_VirtualMachineVolumeProvisioningOptions_To_v1alpha2_VirtualMachineVolumeProvisioningOptions
    (autoConvert : VirtualMachineVolumeProvisioningOptions →
      v1alpha2.VirtualMachineVolumeProvisioningOptions →
      Converted VirtualMachineVolumeProvisioningOptions
        v1alpha2.VirtualMachineVolumeProvisioningOptions)
    (in_ : VirtualMachineVolumeProvisioningOptions)
    (out : v1alpha2.VirtualMachineVolumeProvisioningOptions) :
    Converted VirtualMachineVolumeProvisioningOptions
      v1alpha2.VirtualMachineVolumeProvisioningOptions :=
  let in_ := { in_ with ThinProvisioned := out.ThinProvision }
  let in_ := { in_ with EagerZeroed := out.EagerZero }
  autoConvert in_ out

/-- Function
`Convert_v1alpha2_VirtualMachineVolumeProvisioningOptions_To_v1alpha1_VirtualMachineVolumeProvisioningOptions`.
`autoConvert` is the generated function of the same name with prefix `autoConvert_`,
whose source is not part of the embedding. -/
def Convert_v1alpha2_VirtualMachineVolumeProvisioningOptions_To_v1alpha1_VirtualMachineVolumeProvisioningOptions
    (autoConvert : v1alpha2.VirtualMachineVolumeProvisioningOptions →
      VirtualMachineVolumeProvisioningOptions →
      Converted v1alpha2.VirtualMachineVolumeProvisioningOptions
        VirtualMachineVolumeProvisioningOptions)
    (in_ : v1alpha2.VirtualMachineVolumeProvisioningOptions)
    (out : VirtualMachineVolumeProvisioningOptions) :
    Converted v1alpha2.VirtualMachineVolumeProvisioningOptions
      VirtualMachineVolumeProvisioningOptions :=
  let out := { out with ThinProvisioned := in_.ThinProvision }
  let out := { out with EagerZeroed := in_.EagerZero }
  autoConvert in_ out

/-- A generated conversion that copies nothing: the generator copies the fields whose
names agree in both types, and the two provisioning option types share no field name. -/
def autoConvertNothing {α β : Type} (in_ : α) (out : β) : Converted α β := ⟨in_, out, none⟩

/-- The Go zero value of the v1alpha1 probe. -/
def zeroProbe : Probe := ⟨none, none, 0, 0⟩

/-- The fields of a character list between its dots. -/
def dotFields : List Char → List (List Char)
  | [] => [[]]
  | c :: cs =>
    if c = '.' then [] :: dotFields cs
    else
      match dotFields cs with
      | [] => [[c]]
      | p :: ps => (c :: p) :: ps

/-- A recogniser of dotted IPv4 literals for the worked examples: four dot-separated
non-empty fields of the digits `0` to `9`. -/
def exampleIsIPv4 (s : String) : Bool :=
  let parts := dotFields s.data
  parts.length == 4 &&
    parts.all (fun p => !p.isEmpty && p.all (fun c => decide (c ∈ "0123456789".data)))

end api.v1alpha1

/-! # Theorems -/

namespace resources

/-- After a successful reconfigure no allocation check of `CompareVmConfig` fires. -/
theorem allocationDiffers_applyAllocation (live spec : Option types.ResourceAllocationInfo) :
    allocationDiffers (applyAllocation live spec) spec (fun a => a.Reservation) = some false ∧
    allocationDiffers (applyAllocation live spec) spec (fun a => a.Limit) = some false := by
  cases spec with
  | none => simp [allocationDiffers]
  | some sa =>
    rcases sa with ⟨r, l⟩
    cases r <;> cases l <;> simp [allocationDiffers, applyAllocation]

/-- A configuration produced by applying a spec compares equal to that spec. -/
theorem CompareVmConfig_applySpec (name : String) (live : types.VirtualMachineConfigInfo)
    (spec : types.VirtualMachineConfigSpec) :
    CompareVmConfig name (some (applySpec live spec)) (some spec) = some true := by
  simp [CompareVmConfig, applySpec, allocationDiffers_applyAllocation]

/-- A successful `Reconfigure` on the reference backend leaves a configuration that
compares equal to the spec, and does not touch the power state. -/
theorem sim_Reconfigure_success (f : SimFaults) (live : SimState)
    (spec : types.VirtualMachineConfigSpec)
    (h : ((simVm f).Reconfigure (some spec) live).result = some none) :
    CompareVmConfig (simVm f).Name (some ((simVm f).Reconfigure (some spec) live).state.config)
      (some spec) = some true ∧
    ((simVm f).Reconfigure (some spec) live).state.powerState = live.powerState := by
  unfold VirtualMachine.Reconfigure at h ⊢
  simp only [simVm, simBackend] at h ⊢
  cases hp : f.Properties with
  | some e => simp [hp] at h
  | none =>
    simp only [hp] at h ⊢
    cases hc : CompareVmConfig "vm-0" (some live.config) (some spec) with
    | none => simp [hc] at h
    | some b =>
      cases b with
      | true => simp [hc]
      | false =>
        simp only [hc] at h ⊢
        cases hr : f.Reconfigure with
        | some e => simp [hr] at h
        | none =>
          simp only [hr] at h ⊢
          cases hfit : fitsInt32 spec.MemoryMB with
          | false => simp [hfit] at h
          | true =>
            simp only [hfit, if_true] at h ⊢
            cases ht : f.ReconfigureTask with
            | some e => simp [ht] at h
            | none => simp [ht, CompareVmConfig_applySpec]


/-- A successful `SetPowerState` on the reference backend leaves the desired power
state, and does not touch the configuration. -/
theorem sim_SetPowerState_success (f : SimFaults) (s : SimState) (desiredPowerState : String)
    (hd : desiredPowerState = v1alpha1.VirtualMachinePoweredOn ∨
      desiredPowerState = v1alpha1.VirtualMachinePoweredOff)
    (h : ((simVm f).SetPowerState desiredPowerState s).result = some none) :
    ((simVm f).SetPowerState desiredPowerState s).state.powerState = desiredPowerState ∧
    ((simVm f).SetPowerState desiredPowerState s).state.config = s.config := by
  unfold VirtualMachine.SetPowerState at h ⊢
  simp only [simVm, simBackend] at h ⊢
  cases hp : f.PowerState with
  | some e => simp [hp] at h
  | none =>
    simp only [hp] at h ⊢
    by_cases heq : s.powerState = desiredPowerState
    · simp [heq]
    · simp only [if_neg heq] at h ⊢
      have hne : v1alpha1.VirtualMachinePoweredOff ≠ v1alpha1.VirtualMachinePoweredOn := by
        decide
      have hst : simPowerTask ≠ simReconfigureTask := by decide
      rcases hd with hd | hd
      · subst hd
        simp only [if_true] at h ⊢
        cases hon : f.PowerOn with
        | some e => simp [hon] at h
        | none =>
          simp only [hon] at h ⊢
          cases ht : f.PowerTask with
          | some e => simp [ht, hst] at h
          | none =>
            simp [ht, hst, types.VirtualMachinePowerStatePoweredOn,
              v1alpha1.VirtualMachinePoweredOn]
      · subst hd
        simp only [if_neg hne, if_true] at h ⊢
        cases hoff : f.PowerOff with
        | some e => simp [hoff] at h
        | none =>
          simp only [hoff] at h ⊢
          cases ht : f.PowerTask with
          | some e => simp [ht, hst] at h
          | none =>
            simp [ht, hst, types.VirtualMachinePowerStatePoweredOff,
              v1alpha1.VirtualMachinePoweredOff]

/-- On a converged configuration `Reconfigure` submits nothing and changes nothing. -/
theorem sim_Reconfigure_converged (f : SimFaults) (s : SimState)
    (spec : types.VirtualMachineConfigSpec)
    (h : CompareVmConfig (simVm f).Name (some s.config) (some spec) = some true) :
    ((simVm f).Reconfigure (some spec) s).calls.countP VcCall.isReconfigure = 0 ∧
    ((simVm f).Reconfigure (some spec) s).state = s ∧
    (f.Properties = none → ((simVm f).Reconfigure (some spec) s).result = some none) := by
  unfold VirtualMachine.Reconfigure
  simp only [simVm, simBackend] at h ⊢
  cases hp : f.Properties with
  | some e => simp [VcCall.isReconfigure]
  | none => simp [h, VcCall.isReconfigure]

/-- On a converged power state `SetPowerState` submits nothing and changes nothing. -/
theorem sim_SetPowerState_converged (f : SimFaults) (s : SimState) (desiredPowerState : String)
    (h : s.powerState = desiredPowerState) :
    ((simVm f).SetPowerState desiredPowerState s).calls.countP VcCall.isPowerOn = 0 ∧
    ((simVm f).SetPowerState desiredPowerState s).calls.countP VcCall.isPowerOff = 0 ∧
    ((simVm f).SetPowerState desiredPowerState s).state = s ∧
    (f.PowerState = none → ((simVm f).SetPowerState desiredPowerState s).result = some none) := by
  unfold VirtualMachine.SetPowerState
  simp only [simVm, simBackend]
  cases hp : f.PowerState with
  | some e => simp [VcCall.isPowerOn, VcCall.isPowerOff]
  | none => simp [h, VcCall.isPowerOn, VcCall.isPowerOff]

/-- C1: when the live configuration read from the backend compares equal to the desired
spec (`CompareVmConfig` returns true), `Reconfigure` returns the nil error, submits no
reconfigure call (its only backend call is the property read) and leaves the backend in
the state the read left it. -/
theorem Reconfigure_submits_nothing_when_config_matches {σ : Type} (vm : VirtualMachine σ)
    (spec : types.VirtualMachineConfigSpec) (s s1 : σ) (o : mo.VirtualMachine)
    (hread : vm.vcVirtualMachine.Properties ["config"] s = (Except.ok o, s1))
    (hcmp : CompareVmConfig vm.Name o.Config (some spec) = some true) :
    (vm.Reconfigure (some spec) s).result = some none ∧
    (vm.Reconfigure (some spec) s).calls.countP VcCall.isReconfigure = 0 ∧
    (vm.Reconfigure (some spec) s).calls = [VcCall.Properties ["config"]] ∧
    (vm.Reconfigure (some spec) s).state = s1 := by
  simp [VirtualMachine.Reconfigure, hread, hcmp, VcCall.isReconfigure]

/-- Witness of C1: a powered-off VM whose live configuration matches `exampleSpec`. -/
theorem Reconfigure_submits_nothing_when_config_matches_witness :
    (simVm SimFaults.none).vcVirtualMachine.Properties ["config"]
        ⟨exampleMatchingConfig, "poweredOff"⟩ =
      (Except.ok ⟨some exampleMatchingConfig, none⟩, ⟨exampleMatchingConfig, "poweredOff"⟩) ∧
    CompareVmConfig (simVm SimFaults.none).Name
        (mo.VirtualMachine.mk (some exampleMatchingConfig) none).Config
        (some exampleSpec) = some true ∧
    ((simVm SimFaults.none).Reconfigure (some exampleSpec)
        ⟨exampleMatchingConfig, "poweredOff"⟩).result = some none ∧
    ((simVm SimFaults.none).Reconfigure (some exampleSpec)
        ⟨exampleMatchingConfig, "poweredOff"⟩).calls.countP VcCall.isReconfigure = 0 ∧
    ((simVm SimFaults.none).Reconfigure (some exampleSpec)
        ⟨exampleMatchingConfig, "poweredOff"⟩).calls = [VcCall.Properties ["config"]] ∧
    ((simVm SimFaults.none).Reconfigure (some exampleSpec)
        ⟨exampleMatchingConfig, "poweredOff"⟩).state = ⟨exampleMatchingConfig, "poweredOff"⟩ :=
  ⟨rfl, by decide,
    Reconfigure_submits_nothing_when_config_matches (simVm SimFaults.none) exampleSpec
      ⟨exampleMatchingConfig, "poweredOff"⟩ ⟨exampleMatchingConfig, "poweredOff"⟩
      ⟨some exampleMatchingConfig, none⟩ rfl (by decide)⟩

/-- C3: idempotence of the update path over the reference backend (a successful
reconfigure sets every field named in the submitted spec, a successful power call sets
the power state).  For every live state, desired spec and desired power state in
poweredOn or poweredOff, after a first pass in which `Reconfigure` and then
`SetPowerState` both returned the nil error, a second pass with the same desired state
submits no reconfigure call and no power call and leaves the backend state identical,
whatever faults the backend injects in the second pass; without a read fault the second
pass succeeds; and `CompareVmConfig (applySpec live spec) spec` is true. -/
theorem update_path_is_idempotent (f1 f2 : SimFaults) (live : SimState)
    (spec : types.VirtualMachineConfigSpec) (desiredPowerState : String)
    (hd : desiredPowerState = v1alpha1.VirtualMachinePoweredOn ∨
      desiredPowerState = v1alpha1.VirtualMachinePoweredOff)
    (hfirst : ((simVm f1).Reconfigure (some spec) live).result = some none)
    (hpower : ((simVm f1).SetPowerState desiredPowerState
      ((simVm f1).Reconfigure (some spec) live).state).result = some none) :
    ((simVm f2).Reconfigure (some spec)
      (simUpdatePass f1 spec desiredPowerState live)).calls.countP VcCall.isReconfigure = 0 ∧
    ((simVm f2).Reconfigure (some spec) (simUpdatePass f1 spec desiredPowerState live)).state =
      simUpdatePass f1 spec desiredPowerState live ∧
    ((simVm f2).SetPowerState desiredPowerState
      (simUpdatePass f1 spec desiredPowerState live)).calls.countP VcCall.isPowerOn = 0 ∧
    ((simVm f2).SetPowerState desiredPowerState
      (simUpdatePass f1 spec desiredPowerState live)).calls.countP VcCall.isPowerOff = 0 ∧
    simUpdatePass f2 spec desiredPowerState (simUpdatePass f1 spec desiredPowerState live) =
      simUpdatePass f1 spec desiredPowerState live ∧
    (f2.Properties = none → ((simVm f2).Reconfigure (some spec)
      (simUpdatePass f1 spec desiredPowerState live)).result = some none) ∧
    (f2.PowerState = none → ((simVm f2).SetPowerState desiredPowerState
      (simUpdatePass f1 spec desiredPowerState live)).result = some none) ∧
    CompareVmConfig (simVm f2).Name (some (applySpec live.config spec)) (some spec) =
      some true := by
  have h1 := sim_Reconfigure_success f1 live spec hfirst
  have h2 := sim_SetPowerState_success f1 _ desiredPowerState hd hpower
  have hcfg : CompareVmConfig (simVm f2).Name
      (some (simUpdatePass f1 spec desiredPowerState live).config) (some spec) = some true := by
    unfold simUpdatePass
    rw [h2.2]
    exact h1.1
  have h3 := sim_Reconfigure_converged f2 (simUpdatePass f1 spec desiredPowerState live) spec hcfg
  have h4 := sim_SetPowerState_converged f2 (simUpdatePass f1 spec desiredPowerState live)
    desiredPowerState h2.1
  refine ⟨h3.1, h3.2.1, h4.1, h4.2.1, ?_, h3.2.2, h4.2.2.2, CompareVmConfig_applySpec _ _ _⟩
  have h5 : simUpdatePass f2 spec desiredPowerState
      (simUpdatePass f1 spec desiredPowerState live) =
      ((simVm f2).SetPowerState desiredPowerState
        ((simVm f2).Reconfigure (some spec)
          (simUpdatePass f1 spec desiredPowerState live)).state).state := rfl
  rw [h5, h3.2.1, h4.2.2.1]

/-- Witness of C3: a powered-off VM with 1024 MB converged to `exampleSpec`, powered on. -/
theorem update_path_is_idempotent_witness :
    ("poweredOn" = v1alpha1.VirtualMachinePoweredOn ∨
      "poweredOn" = v1alpha1.VirtualMachinePoweredOff) ∧
    ((simVm SimFaults.none).Reconfigure (some exampleSpec)
      ⟨exampleDriftedConfig, "poweredOff"⟩).result = some none ∧
    ((simVm SimFaults.none).SetPowerState "poweredOn"
      ((simVm SimFaults.none).Reconfigure (some exampleSpec)
        ⟨exampleDriftedConfig, "poweredOff"⟩).state).result = some none ∧
    ((simVm SimFaults.none).Reconfigure (some exampleSpec)
      (simUpdatePass SimFaults.none exampleSpec "poweredOn"
        ⟨exampleDriftedConfig, "poweredOff"⟩)).calls.countP VcCall.isReconfigure = 0 ∧
    simUpdatePass SimFaults.none exampleSpec "poweredOn"
      (simUpdatePass SimFaults.none exampleSpec "poweredOn"
        ⟨exampleDriftedConfig, "poweredOff"⟩) =
      simUpdatePass SimFaults.none exampleSpec "poweredOn"
        ⟨exampleDriftedConfig, "poweredOff"⟩ :=
  ⟨Or.inl rfl, by decide, by decide,
    (update_path_is_idempotent SimFaults.none SimFaults.none
      ⟨exampleDriftedConfig, "poweredOff"⟩ exampleSpec "poweredOn" (Or.inl rfl)
      (by decide) (by decide)).1,
    (update_path_is_idempotent SimFaults.none SimFaults.none
      ⟨exampleDriftedConfig, "poweredOff"⟩ exampleSpec "poweredOn" (Or.inl rfl)
      (by decide) (by decide)).2.2.2.2.1⟩

end resources

/-- Every string occurs in itself. -/
theorem occursIn_refl (t : String) : occursIn t t := ⟨"", "", by simp⟩

/-- Occurrence survives a longer left context. -/
theorem occursIn_append_left (t s p : String) (h : occursIn t s) : occursIn t (p ++ s) := by
  obtain ⟨pre, post, rfl⟩ := h
  exact ⟨p ++ pre, post, by simp [String.append_assoc]⟩

/-- Occurrence survives a longer right context. -/
theorem occursIn_append_right (t s p : String) (h : occursIn t s) : occursIn t (s ++ p) := by
  obtain ⟨pre, post, rfl⟩ := h
  exact ⟨pre, post ++ p, by simp [String.append_assoc]⟩

/-- Occurrence is transitive. -/
theorem occursIn_trans (a b c : String) (h1 : occursIn a b) (h2 : occursIn b c) :
    occursIn a c := by
  obtain ⟨pre, post, rfl⟩ := h1
  obtain ⟨pre2, post2, rfl⟩ := h2
  exact ⟨pre2 ++ pre, post ++ post2, by simp [String.append_assoc]⟩

/-- Every joined element occurs in the result of `strings.Join`. -/
theorem occursIn_stringsJoin (l : List String) (sep m : String) (hm : m ∈ l) :
    occursIn m (stringsJoin l sep) := by
  induction l with
  | nil => simp at hm
  | cons a rest ih =>
    cases rest with
    | nil =>
      simp at hm
      subst hm
      exact occursIn_refl _
    | cons b rest2 =>
      rw [stringsJoin]
      rcases List.mem_cons.1 hm with h | h
      · subst h
        exact ⟨"", sep ++ stringsJoin (b :: rest2) sep, by simp [String.append_assoc]⟩
      · exact occursIn_append_left _ _ _ (ih h)

/-- A Go loop that appends one element per iteration builds the mapped list. -/
theorem foldl_append_singleton {α β : Type} (g : α → β) (l : List α) (acc : List β) :
    l.foldl (fun msgs f => msgs ++ [g f]) acc = acc ++ l.map g := by
  induction l generalizing acc with
  | nil => simp
  | cons a rest ih => simp [ih]

namespace placement

/-- The inner loop body of `PlaceVMForCreate` appends the usable recommendation of the action, if any. -/
theorem PlaceVMForCreate_action_eq (acc : List Recommendation) (a : types.BaseClusterAction) :
    PlaceVMForCreate.action acc a = acc ++ (usableRecommendation a).toList := by
  cases a with
  | PlacementAction pa =>
    rcases pa with ⟨vm, th, rs⟩
    cases rs with
    | none => simp [PlaceVMForCreate.action, usableRecommendation, relocateSpecToRecommendation]
    | some rs =>
      rcases rs with ⟨fo, ds, po, ho⟩
      cases po <;> cases ho <;>
        simp [PlaceVMForCreate.action, usableRecommendation, relocateSpecToRecommendation]
  | ClusterClusterInitialPlacementAction ca => simp [PlaceVMForCreate.action, usableRecommendation]
  | ClusterAction t => simp [PlaceVMForCreate.action, usableRecommendation]

/-- The inner loop of `PlaceVMForCreate` appends the usable recommendations of the actions. -/
theorem PlaceVMForCreate_actions_foldl (acc : List Recommendation)
    (l : List types.BaseClusterAction) :
    l.foldl PlaceVMForCreate.action acc = acc ++ l.filterMap usableRecommendation := by
  induction l generalizing acc with
  | nil => simp
  | cons a rest ih =>
    rw [List.foldl_cons, ih, PlaceVMForCreate_action_eq]
    cases h : usableRecommendation a <;> simp [List.filterMap_cons, h]

/-- The outer loop of `PlaceVMForCreate` appends the expected recommendations of the response. -/
theorem PlaceVMForCreate_recommendations_foldl (acc : List Recommendation)
    (l : List types.ClusterRecommendation) :
    l.foldl PlaceVMForCreate.recommendation acc = acc ++ expectedRecommendations ⟨l⟩ := by
  induction l generalizing acc with
  | nil => simp [expectedRecommendations]
  | cons r rest ih =>
    rw [List.foldl_cons, ih]
    by_cases hr : r.Reason = types.RecommendationReasonCodeXvmotionPlacement
    · simp [PlaceVMForCreate.recommendation, hr, expectedRecommendations,
        PlaceVMForCreate_actions_foldl]
    · simp [PlaceVMForCreate.recommendation, hr, expectedRecommendations]

/-- An action is usable exactly when it is a placement action whose relocate spec holds the pool and the host of the recommendation. -/
theorem usableRecommendation_eq_some (a : types.BaseClusterAction) (rec : Recommendation) :
    usableRecommendation a = some rec ↔
      ∃ pa rs host, a = types.BaseClusterAction.PlacementAction pa ∧ pa.RelocateSpec = some rs ∧
        rs.Pool = some rec.PoolMoRef ∧ rs.Host = some host ∧ rec.HostMoRef = some host := by
  cases a with
  | PlacementAction pa =>
    rcases pa with ⟨vm, th, rs⟩
    cases rs with
    | none => simp [usableRecommendation]
    | some rs =>
      rcases rs with ⟨fo, ds, po, ho⟩
      rcases rec with ⟨rp, rh⟩
      cases po <;> cases ho <;> simp [usableRecommendation]
      intro _
      exact eq_comm
  | ClusterClusterInitialPlacementAction ca => simp [usableRecommendation]
  | ClusterAction t => simp [usableRecommendation]

/-- Membership in the expected recommendations, spelled out on the response. -/
theorem mem_expectedRecommendations (resp : types.PlacementResult) (rec : Recommendation) :
    rec ∈ expectedRecommendations resp ↔
      ∃ r ∈ resp.Recommendations, r.Reason = types.RecommendationReasonCodeXvmotionPlacement ∧
        ∃ pa rs host, types.BaseClusterAction.PlacementAction pa ∈ r.Action ∧
          pa.RelocateSpec = some rs ∧ rs.Pool = some rec.PoolMoRef ∧ rs.Host = some host ∧
          rec.HostMoRef = some host := by
  simp only [expectedRecommendations, List.mem_flatten, List.mem_map, List.mem_filter,
    decide_eq_true_eq]
  constructor
  · rintro ⟨l, ⟨r, ⟨hr, hreason⟩, rfl⟩, hmem⟩
    rw [List.mem_filterMap] at hmem
    obtain ⟨a, ha, hu⟩ := hmem
    obtain ⟨pa, rs, host, rfl, h1, h2, h3, h4⟩ := (usableRecommendation_eq_some a rec).1 hu
    exact ⟨r, hr, hreason, pa, rs, host, ha, h1, h2, h3, h4⟩
  · rintro ⟨r, hr, hreason, pa, rs, host, ha, h1, h2, h3, h4⟩
    refine ⟨_, ⟨r, ⟨hr, hreason⟩, rfl⟩, ?_⟩
    rw [List.mem_filterMap]
    exact ⟨_, ha, (usableRecommendation_eq_some _ rec).2 ⟨pa, rs, host, rfl, h1, h2, h3, h4⟩⟩

/-- The check of `placement.CheckPlacementRelocateSpec` selects the usable relocate specs. -/
theorem CheckPlacementRelocateSpec_usable (pa : types.PlacementAction) :
    usableRelocateSpec (types.BaseClusterAction.PlacementAction pa) =
      if CheckPlacementRelocateSpec pa.RelocateSpec then pa.RelocateSpec else none := by
  rcases pa with ⟨vm, th, rs⟩
  cases rs with
  | none => simp [usableRelocateSpec, CheckPlacementRelocateSpec]
  | some rs =>
    rcases rs with ⟨fo, ds, po, ho⟩
    cases ds <;> cases po <;> cases ho <;> simp [usableRelocateSpec, CheckPlacementRelocateSpec]

/-- The check of `pool.CheckPlacementRelocateSpec` selects the usable relocate specs. -/
theorem pool_CheckPlacementRelocateSpec_usable (pa : types.PlacementAction) :
    usableRelocateSpec (types.BaseClusterAction.PlacementAction pa) =
      if pool.CheckPlacementRelocateSpec pa.RelocateSpec then pa.RelocateSpec else none := by
  rcases pa with ⟨vm, th, rs⟩
  cases rs with
  | none => simp [usableRelocateSpec, pool.CheckPlacementRelocateSpec]
  | some rs =>
    rcases rs with ⟨fo, ds, po, ho⟩
    cases ds <;> cases po <;> cases ho <;>
      simp [usableRelocateSpec, pool.CheckPlacementRelocateSpec]

/-- The inner loop of `placement.ParseRelocateVMResponse` returns the first usable relocate spec. -/
theorem ParseRelocateVMResponse_actions_eq (l : List types.BaseClusterAction) :
    ParseRelocateVMResponse.actions l = (l.filterMap usableRelocateSpec).head? := by
  induction l with
  | nil => rfl
  | cons a rest ih =>
    cases a with
    | PlacementAction pa =>
      rw [ParseRelocateVMResponse.actions, List.filterMap_cons, CheckPlacementRelocateSpec_usable]
      by_cases hc : CheckPlacementRelocateSpec pa.RelocateSpec = true
      · cases hrs : pa.RelocateSpec with
        | none => simp [hrs, CheckPlacementRelocateSpec] at hc
        | some rs => rw [hrs] at hc; simp [hc]
      · simp [hc, ih]
    | ClusterClusterInitialPlacementAction ca =>
      simp [ParseRelocateVMResponse.actions, usableRelocateSpec, ih]
    | ClusterAction t => simp [ParseRelocateVMResponse.actions, usableRelocateSpec, ih]

/-- The inner loop of `pool.ParsePlaceVMResponse` returns the first usable relocate spec. -/
theorem pool_ParsePlaceVMResponse_actions_eq (l : List types.BaseClusterAction) :
    pool.ParsePlaceVMResponse.actions l = (l.filterMap usableRelocateSpec).head? := by
  induction l with
  | nil => rfl
  | cons a rest ih =>
    cases a with
    | PlacementAction pa =>
      rw [pool.ParsePlaceVMResponse.actions, List.filterMap_cons,
        pool_CheckPlacementRelocateSpec_usable]
      by_cases hc : pool.CheckPlacementRelocateSpec pa.RelocateSpec = true
      · cases hrs : pa.RelocateSpec with
        | none => simp [hrs, pool.CheckPlacementRelocateSpec] at hc
        | some rs => rw [hrs] at hc; simp [hc]
      · simp [hc, ih]
    | ClusterClusterInitialPlacementAction ca =>
      simp [pool.ParsePlaceVMResponse.actions, usableRelocateSpec, ih]
    | ClusterAction t => simp [pool.ParsePlaceVMResponse.actions, usableRelocateSpec, ih]

/-- Function `placement.ParseRelocateVMResponse` returns the first usable relocate spec of the response. -/
theorem ParseRelocateVMResponse_eq (res : types.PlacementResult) :
    ParseRelocateVMResponse res = (usableRelocateSpecs res).head? := by
  rcases res with ⟨l⟩
  simp only [ParseRelocateVMResponse]
  induction l with
  | nil => rfl
  | cons r rest ih =>
    by_cases hr : r.Reason = types.RecommendationReasonCodeXvmotionPlacement
    · simp only [ParseRelocateVMResponse.recommendations, if_pos hr,
        ParseRelocateVMResponse_actions_eq, ih]
      cases h : (r.Action.filterMap usableRelocateSpec) with
      | nil => simp [usableRelocateSpecs, hr, h]
      | cons x xs => simp [usableRelocateSpecs, hr, h]
    · simp only [ParseRelocateVMResponse.recommendations, if_neg hr, ih]
      simp [usableRelocateSpecs, hr]

/-- Function `pool.ParsePlaceVMResponse` returns the first usable relocate spec of the response. -/
theorem pool_ParsePlaceVMResponse_eq (res : types.PlacementResult) :
    pool.ParsePlaceVMResponse res = (usableRelocateSpecs res).head? := by
  rcases res with ⟨l⟩
  simp only [pool.ParsePlaceVMResponse]
  induction l with
  | nil => rfl
  | cons r rest ih =>
    by_cases hr : r.Reason = types.RecommendationReasonCodeXvmotionPlacement
    · simp only [pool.ParsePlaceVMResponse.recommendations, if_pos hr,
        pool_ParsePlaceVMResponse_actions_eq, ih]
      cases h : (r.Action.filterMap usableRelocateSpec) with
      | nil => simp [usableRelocateSpecs, hr, h]
      | cons x xs => simp [usableRelocateSpecs, hr, h]
    · simp only [pool.ParsePlaceVMResponse.recommendations, if_neg hr, ih]
      simp [usableRelocateSpecs, hr]

/-- C4: for every backend placement response, `PlaceVMForCreate` returns without error
exactly the expected recommendations: in response order, one (pool, host) pair for each
placement action of a recommendation with the placement reason code whose relocate spec is
present with both a pool and a host; a recommendation is returned only if such an action
exists.  In particular a response with one pool-only and one pool-and-host recommendation
yields exactly the one recommendation carrying both references. -/
theorem PlaceVMForCreate_returns_usable (cluster : object.ClusterComputeResource)
    (configSpec : Option types.VirtualMachineConfigSpec) (resp : types.PlacementResult)
    (hresp : cluster.PlaceVm ⟨types.PlacementSpecPlacementTypeCreate, configSpec, none, none,
      "", none⟩ = Except.ok resp) :
    PlaceVMForCreate cluster configSpec = (expectedRecommendations resp, none) ∧
    (∀ rec : Recommendation, rec ∈ (PlaceVMForCreate cluster configSpec).1 ↔
      ∃ r ∈ resp.Recommendations, r.Reason = types.RecommendationReasonCodeXvmotionPlacement ∧
        ∃ pa rs host, types.BaseClusterAction.PlacementAction pa ∈ r.Action ∧
          pa.RelocateSpec = some rs ∧ rs.Pool = some rec.PoolMoRef ∧ rs.Host = some host ∧
          rec.HostMoRef = some host) ∧
    (∀ pool1 pool2 host : types.ManagedObjectReference,
      resp = poolOnlyAndHostQualified pool1 pool2 host →
      PlaceVMForCreate cluster configSpec = ([⟨pool2, some host⟩], none)) := by
  have h : PlaceVMForCreate cluster configSpec = (expectedRecommendations resp, none) := by
    simp [PlaceVMForCreate, hresp, PlaceVMForCreate_recommendations_foldl]
  refine ⟨h, ?_, ?_⟩
  · intro rec
    rw [h]
    exact mem_expectedRecommendations resp rec
  · intro pool1 pool2 host hr
    rw [h, hr]
    simp [expectedRecommendations, poolOnlyAndHostQualified, usableRecommendation]

/-- Witness of C4: the pool-only and pool-and-host response. -/
theorem PlaceVMForCreate_returns_usable_witness :
    (object.ClusterComputeResource.mk (fun _ => Except.ok (poolOnlyAndHostQualified
        (exampleRef "ResourcePool" "resgroup-1") (exampleRef "ResourcePool" "resgroup-2")
        (exampleRef "HostSystem" "host-2")))).PlaceVm
      ⟨types.PlacementSpecPlacementTypeCreate, some resources.exampleSpec, none, none, "", none⟩ =
      Except.ok (poolOnlyAndHostQualified
        (exampleRef "ResourcePool" "resgroup-1") (exampleRef "ResourcePool" "resgroup-2")
        (exampleRef "HostSystem" "host-2")) ∧
    PlaceVMForCreate (object.ClusterComputeResource.mk (fun _ => Except.ok
        (poolOnlyAndHostQualified
          (exampleRef "ResourcePool" "resgroup-1") (exampleRef "ResourcePool" "resgroup-2")
          (exampleRef "HostSystem" "host-2")))) (some resources.exampleSpec) =
      ([⟨exampleRef "ResourcePool" "resgroup-2", some (exampleRef "HostSystem" "host-2")⟩],
        none) :=
  ⟨rfl,
    (PlaceVMForCreate_returns_usable _ (some resources.exampleSpec) _ rfl).2.2
      (exampleRef "ResourcePool" "resgroup-1") (exampleRef "ResourcePool" "resgroup-2")
      (exampleRef "HostSystem" "host-2") rfl⟩

/-- C5: for every backend response to `ClusterPlaceVMForCreate` that reports at least one
per-resource-pool fault, the result is an error and the nil recommendation list, whatever
placement infos the response carries, and the one error message names every faulted
resource pool together with its joined fault messages (and so each fault message).  When
the response reports no faults, no error is returned. -/
theorem ClusterPlaceVMForCreate_faults_abort (vcClient : object.RootFolder)
    (resourcePoolsMoRefs : List types.ManagedObjectReference)
    (configSpec : types.VirtualMachineConfigSpec) (resp : types.PlaceVmsXClusterResult)
    (hresp : vcClient.PlaceVmsXCluster
      ⟨resourcePoolsMoRefs, [⟨{ configSpec with Files := some ⟨""⟩ }⟩]⟩ = Except.ok resp) :
    (resp.Faults ≠ [] →
      ∃ err, ClusterPlaceVMForCreate vcClient resourcePoolsMoRefs (some configSpec) =
          some ([], some err) ∧
        ∀ f ∈ resp.Faults,
          occursIn ("ResourcePool " ++ f.ResourcePool.Value ++ " faults: " ++
            stringsJoin (f.Faults.map (fun ff => ff.LocalizedMessage)) ", ") err.msg ∧
          ∀ ff ∈ f.Faults, occursIn ff.LocalizedMessage err.msg) ∧
    (resp.Faults = [] →
      ∃ recs, ClusterPlaceVMForCreate vcClient resourcePoolsMoRefs (some configSpec) =
        some (recs, none)) := by
  constructor
  · intro hne
    have hlen : resp.Faults.length ≠ 0 := by
      simpa [List.length_eq_zero] using hne
    refine ⟨errors.New ("PlaceVmsXCluster faults: " ++ fmtStringSlice
      (resp.Faults.foldl (fun msgs f => msgs ++ [ClusterPlaceVMForCreate.faultMsg f]) [])),
      by simp only [ClusterPlaceVMForCreate, hresp, if_pos hlen], ?_⟩
    intro f hf
    have hseg : occursIn (ClusterPlaceVMForCreate.faultMsg f)
        (errors.New ("PlaceVmsXCluster faults: " ++ fmtStringSlice
          (resp.Faults.foldl (fun msgs f => msgs ++ [ClusterPlaceVMForCreate.faultMsg f]) []))).msg := by
      rw [foldl_append_singleton]
      simp only [errors.New, fmtStringSlice, List.nil_append]
      apply occursIn_append_left
      apply occursIn_append_right
      apply occursIn_append_left
      exact occursIn_stringsJoin _ _ _ (List.mem_map_of_mem _ hf)
    have hmsg : ClusterPlaceVMForCreate.faultMsg f =
        "ResourcePool " ++ f.ResourcePool.Value ++ " faults: " ++
          stringsJoin (f.Faults.map (fun ff => ff.LocalizedMessage)) ", " := by
      simp [ClusterPlaceVMForCreate.faultMsg, foldl_append_singleton]
    rw [hmsg] at hseg
    refine ⟨hseg, ?_⟩
    intro ff hff
    refine occursIn_trans _ _ _ ?_ hseg
    apply occursIn_append_left
    exact occursIn_stringsJoin _ _ _ (List.mem_map_of_mem (fun ff => ff.LocalizedMessage) hff)
  · intro he
    exact ⟨resp.PlacementInfos.foldl ClusterPlaceVMForCreate.info [],
      by simp [ClusterPlaceVMForCreate, hresp, he]⟩


/-- Witness of C5: a response with two faulted pools and a placement info. -/
theorem ClusterPlaceVMForCreate_faults_abort_witness :
    (object.RootFolder.mk (fun _ => Except.ok exampleFaultyResponse)).PlaceVmsXCluster
      ⟨[exampleRef "ResourcePool" "resgroup-7"],
        [⟨{ resources.exampleSpec with Files := some ⟨""⟩ }⟩]⟩ =
      Except.ok exampleFaultyResponse ∧
    exampleFaultyResponse.Faults ≠ [] ∧
    ∃ err, ClusterPlaceVMForCreate (object.RootFolder.mk (fun _ => Except.ok exampleFaultyResponse))
        [exampleRef "ResourcePool" "resgroup-7"] (some resources.exampleSpec) =
          some ([], some err) ∧
      ∀ f ∈ exampleFaultyResponse.Faults,
        occursIn ("ResourcePool " ++ f.ResourcePool.Value ++ " faults: " ++
          stringsJoin (f.Faults.map (fun ff => ff.LocalizedMessage)) ", ") err.msg ∧
        ∀ ff ∈ f.Faults, occursIn ff.LocalizedMessage err.msg :=
  ⟨rfl, by decide,
    (ClusterPlaceVMForCreate_faults_abort
      (object.RootFolder.mk (fun _ => Except.ok exampleFaultyResponse))
      [exampleRef "ResourcePool" "resgroup-7"] resources.exampleSpec exampleFaultyResponse
      rfl).1 (by decide)⟩

/-- C6: when no usable placement remains the clone placement fails instead of guessing.
For every backend placement response, `pool.placeVM`, `pool.CloneVMRelocateSpec` and
`placement.CloneVMRelocateSpec` return the error "no valid placement action" (and no
relocate spec) if and only if no action of a recommendation with the placement reason code
carries a relocate spec with host, resource pool and datastore all present; otherwise they
return, without error, the first such relocate spec in response order. -/
theorem clone_placement_fails_iff_nothing_usable (cluster : object.ClusterComputeResource)
    (placementSpec : types.PlacementSpec) (vmRef : types.ManagedObjectReference)
    (cloneSpec : types.VirtualMachineCloneSpec) (config : types.VirtualMachineConfigSpec)
    (res : types.PlacementResult)
    (hresp : cluster.PlaceVm placementSpec = Except.ok res)
    (hconfig : cloneSpec.Config = some config)
    (hclone : cluster.PlaceVm ⟨types.PlacementSpecPlacementTypeClone, none, some cloneSpec,
      some cloneSpec.Location, config.Name, some vmRef⟩ = Except.ok res) :
    ((pool.placeVM cluster placementSpec).2 = some (errors.New "no valid placement action") ↔
      usableRelocateSpecs res = []) ∧
    (usableRelocateSpecs res = [] →
      pool.placeVM cluster placementSpec =
        (none, some (errors.New "no valid placement action")) ∧
      pool.CloneVMRelocateSpec cluster vmRef cloneSpec =
        some (none, some (errors.New "no valid placement action")) ∧
      CloneVMRelocateSpec cluster vmRef cloneSpec =
        some (none, some (errors.New "no valid placement action"))) ∧
    (∀ rs rest, usableRelocateSpecs res = rs :: rest →
      pool.placeVM cluster placementSpec = (some rs, none) ∧
      pool.CloneVMRelocateSpec cluster vmRef cloneSpec = some (some rs, none) ∧
      CloneVMRelocateSpec cluster vmRef cloneSpec = some (some rs, none)) ∧
    (pool.CloneVMRelocateSpec cluster vmRef cloneSpec =
        some (none, some (errors.New "no valid placement action")) ↔
      usableRelocateSpecs res = []) ∧
    (CloneVMRelocateSpec cluster vmRef cloneSpec =
        some (none, some (errors.New "no valid placement action")) ↔
      usableRelocateSpecs res = []) := by
  have hp : pool.ParsePlaceVMResponse res = (usableRelocateSpecs res).head? :=
    pool_ParsePlaceVMResponse_eq res
  have hq : ParseRelocateVMResponse res = (usableRelocateSpecs res).head? :=
    ParseRelocateVMResponse_eq res
  cases hu : usableRelocateSpecs res with
  | nil =>
    rw [hu] at hp hq
    simp [pool.placeVM, pool.CloneVMRelocateSpec, CloneVMRelocateSpec, hresp, hconfig, hclone,
      hp, hq]
  | cons rs rest =>
    rw [hu] at hp hq
    simp [pool.placeVM, pool.CloneVMRelocateSpec, CloneVMRelocateSpec, hresp, hconfig, hclone,
      hp, hq]

/-- Witness of C6: the first recommendation lacks a datastore, the second is returned. -/
theorem clone_placement_fails_iff_nothing_usable_witness :
    (object.ClusterComputeResource.mk (fun _ => Except.ok exampleCloneResponse)).PlaceVm
      ⟨types.PlacementSpecPlacementTypeClone, none, none, none, "clone-0", none⟩ =
      Except.ok exampleCloneResponse ∧
    exampleCloneSpec.Config = some ⟨"clone-0", 2, 2048, none, none, none⟩ ∧
    pool.CloneVMRelocateSpec
      (object.ClusterComputeResource.mk (fun _ => Except.ok exampleCloneResponse))
      (exampleRef "VirtualMachine" "vm-1") exampleCloneSpec =
      some (some ⟨none, some (exampleRef "Datastore" "datastore-2"),
        some (exampleRef "ResourcePool" "resgroup-2"),
        some (exampleRef "HostSystem" "host-2")⟩, none) :=
  ⟨rfl, rfl,
    ((clone_placement_fails_iff_nothing_usable
      (object.ClusterComputeResource.mk (fun _ => Except.ok exampleCloneResponse))
      ⟨types.PlacementSpecPlacementTypeClone, none, none, none, "clone-0", none⟩
      (exampleRef "VirtualMachine" "vm-1") exampleCloneSpec
      ⟨"clone-0", 2, 2048, none, none, none⟩ exampleCloneResponse rfl rfl rfl).2.2.1
      _ [] (by decide)).2.1⟩

end placement

namespace virtualmachine

/-- Method `filter` keeps, in order, the entries different from the token. -/
theorem filter_eq (l : List String) (t : String) :
    VirtualMachineControllerImpl.filter l t = l.filter (fun item => decide (item ≠ t)) := by
  have h : ∀ (acc : List String),
      l.foldl (fun newList item => if item ≠ t then newList ++ [item] else newList) acc =
        acc ++ l.filter (fun item => decide (item ≠ t)) := by
    induction l with
    | nil => simp
    | cons a rest ih =>
      intro acc
      rw [List.foldl_cons, ih]
      by_cases ha : a = t
      · simp [ha]
      · simp [ha]
  simpa [VirtualMachineControllerImpl.filter] using h []

/-- Method `contains` decides membership. -/
theorem contains_eq (l : List String) (t : String) :
    VirtualMachineControllerImpl.contains l t = decide (t ∈ l) := by
  induction l with
  | nil => simp [VirtualMachineControllerImpl.contains]
  | cons a rest ih =>
    by_cases ha : a = t
    · simp [VirtualMachineControllerImpl.contains, ha]
    · have ha2 : ¬ t = a := fun h => ha h.symm
      simp [VirtualMachineControllerImpl.contains, ha, ha2, ih]

/-- After `filter` the token is gone. -/
theorem contains_filter (l : List String) (t : String) :
    VirtualMachineControllerImpl.contains (VirtualMachineControllerImpl.filter l t) t = false := by
  rw [contains_eq, filter_eq]
  simp [List.mem_filter]

/-- The loop of `postVmServiceEventsToWorkqueue` only enqueues. -/
theorem post_loop_calls {σ : Type} (c : VirtualMachineControllerImpl σ)
    (l : List v1alpha1.VirtualMachineService) (s : σ) (calls : List CtlCall)
    (h : ∀ x ∈ calls, x.isServiceEvent = true) :
    ∀ x ∈ (VirtualMachineControllerImpl.postVmServiceEventsToWorkqueue.loop c l s calls).2,
      x.isServiceEvent = true := by
  induction l generalizing s calls with
  | nil => simpa [VirtualMachineControllerImpl.postVmServiceEventsToWorkqueue.loop] using h
  | cons a rest ih =>
    rw [VirtualMachineControllerImpl.postVmServiceEventsToWorkqueue.loop]
    cases hk : cache.MetaNamespaceKeyFunc a.ObjectMeta with
    | error e => exact ih s calls h
    | ok key =>
      apply ih
      intro x hx
      rcases List.mem_append.1 hx with hx | hx
      · exact h x hx
      · simp at hx
        subst hx
        rfl

/-- Method `postVmServiceEventsToWorkqueue` only lists the dependent services and enqueues
their keys. -/
theorem post_calls {σ : Type} (c : VirtualMachineControllerImpl σ)
    (vm : v1alpha1.VirtualMachine) (s : σ) :
    ∀ x ∈ (c.postVmServiceEventsToWorkqueue vm s).calls, x.isServiceEvent = true := by
  unfold VirtualMachineControllerImpl.postVmServiceEventsToWorkqueue
  rcases hl : c.vmServiceLister.List vm.ObjectMeta.Namespace s with ⟨r, s1⟩
  cases r with
  | error e =>
    intro x hx
    simp at hx
    subst hx
    rfl
  | ok svcs =>
    simp only
    apply post_loop_calls
    intro x hx
    simp at hx
    subst hx
    rfl

/-- A list of service-event calls holds no call picked by a predicate that rejects them. -/
theorem countP_service_events (p : CtlCall → Bool) (l : List CtlCall)
    (hp : ∀ x, x.isServiceEvent = true → p x = false)
    (h : ∀ x ∈ l, x.isServiceEvent = true) : l.countP p = 0 := by
  rw [List.countP_eq_zero]
  intro x hx
  simp [hp x (h x hx)]


/-- C7: for every record with the deletion marker set and the controller's finalizer
present, if the provider supports VM operations and the backend delete succeeds or fails
with not-found, and the store update succeeds, then `Reconcile` returns the nil error, the
record it leaves is the input with the finalizer token filtered out (the token is no longer
contained), and the pass issues exactly one store write, the `Update` of that record. -/
theorem Reconcile_strips_finalizer_after_delete {σ : Type} (c : VirtualMachineControllerImpl σ)
    (vm stored : v1alpha1.VirtualMachine) (s s2 s3 : σ) (vmsProvider : VirtualMachines σ)
    (deleteErr : Option Error)
    (hmarker : metav1.Time.IsZero vm.ObjectMeta.DeletionTimestamp = false)
    (hfinalizer : VirtualMachineControllerImpl.contains vm.ObjectMeta.Finalizers
      v1alpha1.VirtualMachineFinalizer = true)
    (hprovider : c.vmProvider.VirtualMachines = some vmsProvider)
    (hdelete : vmsProvider.DeleteVirtualMachine vm (c.postVmServiceEventsToWorkqueue vm s).state =
      (deleteErr, s2))
    (hbenign : deleteErr = none ∨ errors.IsNotFound deleteErr = true)
    (hupdate : c.vmClientSet.Update
      { vm with ObjectMeta := { vm.ObjectMeta with
          Finalizers := VirtualMachineControllerImpl.filter vm.ObjectMeta.Finalizers
            v1alpha1.VirtualMachineFinalizer } } s2 = (Except.ok stored, s3)) :
    (c.Reconcile vm s).ret.1 = none ∧
    (c.Reconcile vm s).ret.2 =
      { vm with ObjectMeta := { vm.ObjectMeta with
          Finalizers := VirtualMachineControllerImpl.filter vm.ObjectMeta.Finalizers
            v1alpha1.VirtualMachineFinalizer } } ∧
    VirtualMachineControllerImpl.contains (c.Reconcile vm s).ret.2.ObjectMeta.Finalizers
      v1alpha1.VirtualMachineFinalizer = false ∧
    (c.Reconcile vm s).calls.countP CtlCall.isStoreWrite = 1 ∧
    CtlCall.Update (c.Reconcile vm s).ret.2 ∈ (c.Reconcile vm s).calls ∧
    (c.Reconcile vm s).state = s3 := by
  have hpost := countP_service_events CtlCall.isStoreWrite _
    (by intro x hx; cases x <;> simp_all [CtlCall.isServiceEvent, CtlCall.isStoreWrite])
    (post_calls c vm s)
  have hdel : (c.processVmDeletion vm (c.postVmServiceEventsToWorkqueue vm s).state) =
      ⟨none, s2, [CtlCall.DeleteVirtualMachine vm]⟩ := by
    unfold VirtualMachineControllerImpl.processVmDeletion
    rw [hprovider]
    simp only [hdelete]
    rcases hbenign with h | h
    · subst h; rfl
    · cases deleteErr with
      | none => rfl
      | some e => simp [h]
  simp only [VirtualMachineControllerImpl.Reconcile, hmarker, hfinalizer, hdel, hupdate,
    Bool.not_false, Bool.not_true, if_true, Bool.false_eq_true, if_false]
  refine ⟨trivial, trivial, contains_filter _ _, ?_, ?_, trivial⟩
  · simp [List.countP_append, hpost, CtlCall.isStoreWrite]
  · simp

/-- Witness of C7: the backend reports not-found for a record that holds the finalizer. -/
theorem Reconcile_strips_finalizer_after_delete_witness :
    metav1.Time.IsZero deletedRecord.ObjectMeta.DeletionTimestamp = false ∧
    VirtualMachineControllerImpl.contains deletedRecord.ObjectMeta.Finalizers
      v1alpha1.VirtualMachineFinalizer = true ∧
    (errors.IsNotFound (some errNotFound) = true) ∧
    ((scriptedController true (some errNotFound) none).Reconcile deletedRecord ()).ret.1 = none ∧
    VirtualMachineControllerImpl.contains
      ((scriptedController true (some errNotFound) none).Reconcile
        deletedRecord ()).ret.2.ObjectMeta.Finalizers v1alpha1.VirtualMachineFinalizer = false ∧
    ((scriptedController true (some errNotFound) none).Reconcile
      deletedRecord ()).calls.countP CtlCall.isStoreWrite = 1 :=
  ⟨by decide, by decide, by decide,
    (Reconcile_strips_finalizer_after_delete (scriptedController true (some errNotFound) none)
      deletedRecord strippedRecord () () () (scriptedVirtualMachines (some errNotFound))
      (some errNotFound) (by decide) (by decide) rfl rfl (Or.inr (by decide)) rfl).1,
    (Reconcile_strips_finalizer_after_delete (scriptedController true (some errNotFound) none)
      deletedRecord strippedRecord () () () (scriptedVirtualMachines (some errNotFound))
      (some errNotFound) (by decide) (by decide) rfl rfl (Or.inr (by decide)) rfl).2.2.1,
    (Reconcile_strips_finalizer_after_delete (scriptedController true (some errNotFound) none)
      deletedRecord strippedRecord () () () (scriptedVirtualMachines (some errNotFound))
      (some errNotFound) (by decide) (by decide) rfl rfl (Or.inr (by decide)) rfl).2.2.2.1⟩

/-- C8: teardown is gated on confirmed backend deletion.  For every record with the
deletion marker set and the finalizer present: if the provider does not support VM
operations `Reconcile` returns the method-not-supported error, and if the backend delete
fails with an error other than not-found `Reconcile` returns that error; in both cases it
issues no store write and leaves the record, finalizer list included, unchanged. -/
theorem Reconcile_keeps_finalizer_when_delete_fails {σ : Type}
    (c : VirtualMachineControllerImpl σ) (vm : v1alpha1.VirtualMachine) (s : σ)
    (hmarker : metav1.Time.IsZero vm.ObjectMeta.DeletionTimestamp = false)
    (hfinalizer : VirtualMachineControllerImpl.contains vm.ObjectMeta.Finalizers
      v1alpha1.VirtualMachineFinalizer = true) :
    (c.vmProvider.VirtualMachines = none →
      (c.Reconcile vm s).ret.1 =
        some (errors.NewMethodNotSupported "vmoperator" "VirtualMachines" "list") ∧
      (c.Reconcile vm s).ret.2 = vm ∧
      (c.Reconcile vm s).calls.countP CtlCall.isStoreWrite = 0 ∧
      (c.Reconcile vm s).calls.countP CtlCall.isBackendDelete = 0) ∧
    (∀ (vmsProvider : VirtualMachines σ) (err : Error) (s2 : σ),
      c.vmProvider.VirtualMachines = some vmsProvider →
      vmsProvider.DeleteVirtualMachine vm (c.postVmServiceEventsToWorkqueue vm s).state =
        (some err, s2) →
      errors.IsNotFound (some err) = false →
      (c.Reconcile vm s).ret.1 = some err ∧
      (c.Reconcile vm s).ret.2 = vm ∧
      (c.Reconcile vm s).calls.countP CtlCall.isStoreWrite = 0 ∧
      (c.Reconcile vm s).state = s2) := by
  have hpost := countP_service_events CtlCall.isStoreWrite _
    (by intro x hx; cases x <;> simp_all [CtlCall.isServiceEvent, CtlCall.isStoreWrite])
    (post_calls c vm s)
  have hpost2 := countP_service_events CtlCall.isBackendDelete _
    (by intro x hx; cases x <;> simp_all [CtlCall.isServiceEvent, CtlCall.isBackendDelete])
    (post_calls c vm s)
  constructor
  · intro hnone
    have hdel : (c.processVmDeletion vm (c.postVmServiceEventsToWorkqueue vm s).state) =
        ⟨some (errors.NewMethodNotSupported "vmoperator" "VirtualMachines" "list"),
          (c.postVmServiceEventsToWorkqueue vm s).state, []⟩ := by
      unfold VirtualMachineControllerImpl.processVmDeletion
      rw [hnone]
    simp only [VirtualMachineControllerImpl.Reconcile, hmarker, hfinalizer, hdel,
      Bool.not_false, Bool.not_true, if_true, Bool.false_eq_true, if_false]
    simp [hpost, hpost2]
  · intro vmsProvider err s2 hprovider hdelete hnf
    have hdel : (c.processVmDeletion vm (c.postVmServiceEventsToWorkqueue vm s).state) =
        ⟨some err, s2, [CtlCall.DeleteVirtualMachine vm]⟩ := by
      unfold VirtualMachineControllerImpl.processVmDeletion
      rw [hprovider]
      simp only [hdelete, hnf, Bool.false_eq_true, if_false]
    simp only [VirtualMachineControllerImpl.Reconcile, hmarker, hfinalizer, hdel,
      Bool.not_false, Bool.not_true, if_true, Bool.false_eq_true, if_false]
    simp [List.countP_append, hpost, CtlCall.isStoreWrite]


/-- Witness of C8: the backend refuses the delete with a connection fault. -/
theorem Reconcile_keeps_finalizer_when_delete_fails_witness :
    metav1.Time.IsZero deletedRecord.ObjectMeta.DeletionTimestamp = false ∧
    VirtualMachineControllerImpl.contains deletedRecord.ObjectMeta.Finalizers
      v1alpha1.VirtualMachineFinalizer = true ∧
    errors.IsNotFound (some errBackend) = false ∧
    ((scriptedController true (some errBackend) none).Reconcile deletedRecord ()).ret.1 =
      some errBackend ∧
    ((scriptedController true (some errBackend) none).Reconcile deletedRecord ()).ret.2 =
      deletedRecord ∧
    ((scriptedController true (some errBackend) none).Reconcile
      deletedRecord ()).calls.countP CtlCall.isStoreWrite = 0 ∧
    ((scriptedController true (some errBackend) none).Reconcile deletedRecord ()).state = () :=
  ⟨by decide, by decide, by decide,
    (Reconcile_keeps_finalizer_when_delete_fails (scriptedController true (some errBackend) none)
      deletedRecord () (by decide) (by decide)).2 (scriptedVirtualMachines (some errBackend))
      errBackend () rfl rfl (by decide)⟩

/-- Calls of a pass on a record marked for deletion. -/
theorem Reconcile_deletion_calls {σ : Type} (c : VirtualMachineControllerImpl σ)
    (vm : v1alpha1.VirtualMachine) (s : σ)
    (hmarker : metav1.Time.IsZero vm.ObjectMeta.DeletionTimestamp = false) :
    ∀ x ∈ (c.Reconcile vm s).calls,
      x.isServiceEvent = true ∨ x.isBackendDelete = true ∨ x.isStoreWrite = true := by
  have hpost := post_calls c vm s
  intro x hx
  simp only [VirtualMachineControllerImpl.Reconcile, hmarker, Bool.not_false, if_true] at hx
  by_cases hfin : VirtualMachineControllerImpl.contains vm.ObjectMeta.Finalizers
      v1alpha1.VirtualMachineFinalizer = true
  · simp only [hfin, Bool.not_true, Bool.false_eq_true, if_false] at hx
    have hdelcalls : ∀ y ∈ (c.processVmDeletion vm
        (c.postVmServiceEventsToWorkqueue vm s).state).calls, y.isBackendDelete = true := by
      unfold VirtualMachineControllerImpl.processVmDeletion
      cases hp : c.vmProvider.VirtualMachines with
      | none => simp
      | some vms =>
        simp only
        rcases hd : vms.DeleteVirtualMachine vm (c.postVmServiceEventsToWorkqueue vm s).state
          with ⟨e, s2⟩
        cases e with
        | none => simp [CtlCall.isBackendDelete]
        | some e =>
          simp only
          split <;> simp [CtlCall.isBackendDelete]
    cases hret : (c.processVmDeletion vm (c.postVmServiceEventsToWorkqueue vm s).state).ret with
    | some e =>
      simp only [hret] at hx
      rcases List.mem_append.1 hx with h | h
      · exact Or.inl (hpost x h)
      · exact Or.inr (Or.inl (hdelcalls x h))
    | none =>
      simp only [hret] at hx
      split at hx
      all_goals
        simp only [List.mem_append, List.mem_singleton] at hx
        rcases hx with (h | h) | h
        · exact Or.inl (hpost x h)
        · exact Or.inr (Or.inl (hdelcalls x h))
        · subst h
          exact Or.inr (Or.inr rfl)
  · simp only [hfin, Bool.not_false, if_true] at hx
    exact Or.inl (hpost x hx)

/-- C9 (amended): for every record whose deletion marker is set and for every behaviour of
the backend and the store, a `Reconcile` pass issues no backend lookup, create or update
call; and when the backend object is absent (the provider's delete reports not-found) and
the store accepts the finalizer update, the pass returns the nil error and the record it
leaves no longer holds the finalizer token. -/
theorem Reconcile_deletion_never_creates {σ : Type} (c : VirtualMachineControllerImpl σ)
    (vm : v1alpha1.VirtualMachine) (s : σ)
    (hmarker : metav1.Time.IsZero vm.ObjectMeta.DeletionTimestamp = false) :
    (c.Reconcile vm s).calls.countP CtlCall.isBackendLookup = 0 ∧
    (c.Reconcile vm s).calls.countP CtlCall.isBackendCreate = 0 ∧
    (c.Reconcile vm s).calls.countP CtlCall.isBackendUpdate = 0 ∧
    (∀ (vmsProvider : VirtualMachines σ) (err : Error) (s2 s3 : σ)
      (stored : v1alpha1.VirtualMachine),
      c.vmProvider.VirtualMachines = some vmsProvider →
      vmsProvider.DeleteVirtualMachine vm (c.postVmServiceEventsToWorkqueue vm s).state =
        (some err, s2) →
      errors.IsNotFound (some err) = true →
      c.vmClientSet.Update
        { vm with ObjectMeta := { vm.ObjectMeta with
            Finalizers := VirtualMachineControllerImpl.filter vm.ObjectMeta.Finalizers
              v1alpha1.VirtualMachineFinalizer } } s2 = (Except.ok stored, s3) →
      (c.Reconcile vm s).ret.1 = none ∧
      VirtualMachineControllerImpl.contains (c.Reconcile vm s).ret.2.ObjectMeta.Finalizers
        v1alpha1.VirtualMachineFinalizer = false) := by
  have hcalls := Reconcile_deletion_calls c vm s hmarker
  refine ⟨?_, ?_, ?_, ?_⟩
  · rw [List.countP_eq_zero]
    intro x hx
    rcases hcalls x hx with h | h | h <;> cases x <;>
      simp_all [CtlCall.isServiceEvent, CtlCall.isBackendDelete, CtlCall.isStoreWrite,
        CtlCall.isBackendLookup]
  · rw [List.countP_eq_zero]
    intro x hx
    rcases hcalls x hx with h | h | h <;> cases x <;>
      simp_all [CtlCall.isServiceEvent, CtlCall.isBackendDelete, CtlCall.isStoreWrite,
        CtlCall.isBackendCreate]
  · rw [List.countP_eq_zero]
    intro x hx
    rcases hcalls x hx with h | h | h <;> cases x <;>
      simp_all [CtlCall.isServiceEvent, CtlCall.isBackendDelete, CtlCall.isStoreWrite,
        CtlCall.isBackendUpdate]
  · intro vmsProvider err s2 s3 stored hprovider hdelete hnf hupdate
    cases hfinalizer : VirtualMachineControllerImpl.contains vm.ObjectMeta.Finalizers
        v1alpha1.VirtualMachineFinalizer with
    | false =>
      simp only [VirtualMachineControllerImpl.Reconcile, hmarker, hfinalizer, Bool.not_false,
        if_true]
      exact ⟨trivial, trivial⟩
    | true =>
      have hdel : (c.processVmDeletion vm (c.postVmServiceEventsToWorkqueue vm s).state) =
          ⟨none, s2, [CtlCall.DeleteVirtualMachine vm]⟩ := by
        unfold VirtualMachineControllerImpl.processVmDeletion
        rw [hprovider]
        simp only [hdelete, hnf, if_true]
      simp only [VirtualMachineControllerImpl.Reconcile, hmarker, hfinalizer, hdel, hupdate,
        Bool.not_false, Bool.not_true, if_true, Bool.false_eq_true, if_false]
      exact ⟨trivial, contains_filter _ _⟩

/-- Witness of C9 (amended): the backend object is absent and the store accepts the update. -/
theorem Reconcile_deletion_never_creates_witness :
    metav1.Time.IsZero deletedRecord.ObjectMeta.DeletionTimestamp = false ∧
    ((scriptedController true (some errNotFound) none).Reconcile
      deletedRecord ()).calls.countP CtlCall.isBackendLookup = 0 ∧
    ((scriptedController true (some errNotFound) none).Reconcile
      deletedRecord ()).calls.countP CtlCall.isBackendCreate = 0 ∧
    ((scriptedController true (some errNotFound) none).Reconcile deletedRecord ()).ret.1 = none :=
  ⟨by decide,
    (Reconcile_deletion_never_creates (scriptedController true (some errNotFound) none)
      deletedRecord () (by decide)).1,
    (Reconcile_deletion_never_creates (scriptedController true (some errNotFound) none)
      deletedRecord () (by decide)).2.1,
    ((Reconcile_deletion_never_creates (scriptedController true (some errNotFound) none)
      deletedRecord () (by decide)).2.2.2 (scriptedVirtualMachines (some errNotFound))
      errNotFound () () strippedRecord rfl rfl (by decide) rfl).1⟩

/-- Counterexample to C9 as stated: the deletion marker is set, the backend object is absent
(the delete reports not-found), but the store refuses the finalizer update; the pass
returns the store error instead of completing successfully. -/
theorem Reconcile_absent_backend_store_failure :
    metav1.Time.IsZero deletedRecord.ObjectMeta.DeletionTimestamp = false ∧
    (scriptedVirtualMachines (some errNotFound)).DeleteVirtualMachine deletedRecord () =
      (some errNotFound, ()) ∧
    errors.IsNotFound (some errNotFound) = true ∧
    ((scriptedController true (some errNotFound) (some errConflict)).Reconcile
      deletedRecord ()).ret.1 = some errConflict ∧
    ((scriptedController true (some errNotFound) (some errConflict)).Reconcile
      deletedRecord ()).ret.1 ≠ none := by
  refine ⟨by decide, rfl, by decide, by decide, by decide⟩

/-- C10: for every record with the deletion marker set and the controller's finalizer
token absent, `Reconcile` returns the nil error with the record unchanged, and issues no
backend delete, create, update or lookup call and no store write: its only calls are those
of the service-event posting at the start of every pass (listing the dependent services
and enqueueing their keys), and it leaves the collaborators in the state that posting left
them. -/
theorem Reconcile_noop_without_finalizer {σ : Type} (c : VirtualMachineControllerImpl σ)
    (vm : v1alpha1.VirtualMachine) (s : σ)
    (hmarker : metav1.Time.IsZero vm.ObjectMeta.DeletionTimestamp = false)
    (hfinalizer : VirtualMachineControllerImpl.contains vm.ObjectMeta.Finalizers
      v1alpha1.VirtualMachineFinalizer = false) :
    (c.Reconcile vm s).ret = (none, vm) ∧
    (c.Reconcile vm s).calls.countP CtlCall.isBackendDelete = 0 ∧
    (c.Reconcile vm s).calls.countP CtlCall.isBackendCreate = 0 ∧
    (c.Reconcile vm s).calls.countP CtlCall.isBackendUpdate = 0 ∧
    (c.Reconcile vm s).calls.countP CtlCall.isBackendLookup = 0 ∧
    (c.Reconcile vm s).calls.countP CtlCall.isStoreWrite = 0 ∧
    (∀ x ∈ (c.Reconcile vm s).calls, x.isServiceEvent = true) ∧
    (c.Reconcile vm s).state = (c.postVmServiceEventsToWorkqueue vm s).state := by
  have hpost := post_calls c vm s
  have hr : c.Reconcile vm s = ⟨(none, vm), (c.postVmServiceEventsToWorkqueue vm s).state,
      (c.postVmServiceEventsToWorkqueue vm s).calls⟩ := by
    simp only [VirtualMachineControllerImpl.Reconcile, hmarker, hfinalizer, Bool.not_false,
      if_true]
  rw [hr]
  refine ⟨rfl, ?_, ?_, ?_, ?_, ?_, hpost, rfl⟩ <;>
    · apply countP_service_events _ _ _ hpost
      intro x hx
      cases x <;> simp_all [CtlCall.isServiceEvent, CtlCall.isBackendDelete,
        CtlCall.isBackendCreate, CtlCall.isBackendUpdate, CtlCall.isBackendLookup,
        CtlCall.isStoreWrite]

/-- Witness of C10: a record marked for deletion whose finalizer is already gone. -/
theorem Reconcile_noop_without_finalizer_witness :
    metav1.Time.IsZero strippedRecord.ObjectMeta.DeletionTimestamp = false ∧
    VirtualMachineControllerImpl.contains strippedRecord.ObjectMeta.Finalizers
      v1alpha1.VirtualMachineFinalizer = false ∧
    ((scriptedController true none none).Reconcile strippedRecord ()).ret =
      (none, strippedRecord) ∧
    ((scriptedController true none none).Reconcile
      strippedRecord ()).calls.countP CtlCall.isBackendDelete = 0 ∧
    ((scriptedController true none none).Reconcile
      strippedRecord ()).calls.countP CtlCall.isStoreWrite = 0 :=
  ⟨by decide, by decide,
    (Reconcile_noop_without_finalizer (scriptedController true none none) strippedRecord ()
      (by decide) (by decide)).1,
    (Reconcile_noop_without_finalizer (scriptedController true none none) strippedRecord ()
      (by decide) (by decide)).2.1,
    (Reconcile_noop_without_finalizer (scriptedController true none none) strippedRecord ()
      (by decide) (by decide)).2.2.2.2.2.1⟩

end virtualmachine

namespace virtualmachine

/-- Method `processVmUpdate` is the provider's update, traced. -/
theorem processVmUpdate_eq {σ : Type} (c : VirtualMachineControllerImpl σ)
    (vms : VirtualMachines σ) (vm : v1alpha1.VirtualMachine) (s s1 : σ)
    (r : Except Error v1alpha1.VirtualMachine) (h : vms.UpdateVirtualMachine vm s = (r, s1)) :
    c.processVmUpdate vms vm s = ⟨r, s1, [CtlCall.UpdateVirtualMachine vm]⟩ := by
  unfold VirtualMachineControllerImpl.processVmUpdate
  rw [h]

/-- Method `processVmCreate` on a failed create. -/
theorem processVmCreate_error {σ : Type} (c : VirtualMachineControllerImpl σ)
    (vms : VirtualMachines σ) (vm : v1alpha1.VirtualMachine) (s s1 : σ) (err : Error)
    (h : vms.CreateVirtualMachine vm s = (Except.error err, s1)) :
    c.processVmCreate vms vm s = ⟨Except.error err, s1, [CtlCall.CreateVirtualMachine vm]⟩ := by
  unfold VirtualMachineControllerImpl.processVmCreate
  rw [h]

/-- Method `processVmCreate` on a successful create: the new record gets its annotations. -/
theorem processVmCreate_ok {σ : Type} (c : VirtualMachineControllerImpl σ)
    (vms : VirtualMachines σ) (vm newVm : v1alpha1.VirtualMachine) (s s1 : σ)
    (h : vms.CreateVirtualMachine vm s = (Except.ok newVm, s1)) :
    c.processVmCreate vms vm s =
      ⟨Except.ok { newVm with ObjectMeta := c.AddAnnotations newVm.ObjectMeta }, s1,
        [CtlCall.CreateVirtualMachine vm]⟩ := by
  unfold VirtualMachineControllerImpl.processVmCreate
  rw [h]

/-- The end of `processVmCreateOrUpdate` after a failed create or update: no status write. -/
theorem finish_error {σ : Type} (c : VirtualMachineControllerImpl σ) (err : Error) (s : σ)
    (done calls : List CtlCall) :
    VirtualMachineControllerImpl.processVmCreateOrUpdate.finish c ⟨Except.error err, s, done⟩
      calls = ⟨Except.error err, s, calls ++ done⟩ := rfl

/-- The end of `processVmCreateOrUpdate` after a successful create or update: one status
write, whose error is returned. -/
theorem finish_ok {σ : Type} (c : VirtualMachineControllerImpl σ)
    (newVm : v1alpha1.VirtualMachine) (s : σ) (done calls : List CtlCall) :
    ∃ (r : Except Error v1alpha1.VirtualMachine) (s1 : σ),
      VirtualMachineControllerImpl.processVmCreateOrUpdate.finish c ⟨Except.ok newVm, s, done⟩
        calls = ⟨r, s1, calls ++ done ++ [CtlCall.UpdateStatus newVm]⟩ ∧
      ((∃ stored, c.vmClientSet.UpdateStatus newVm s = (Except.ok stored, s1) ∧
          r = Except.ok newVm) ∨
        (∃ err, c.vmClientSet.UpdateStatus newVm s = (Except.error err, s1) ∧
          r = Except.error err)) := by
  simp only [VirtualMachineControllerImpl.processVmCreateOrUpdate.finish]
  rcases hs : c.vmClientSet.UpdateStatus newVm s with ⟨r, s1⟩
  cases r with
  | error e => exact ⟨Except.error e, s1, rfl, Or.inr ⟨e, rfl, rfl⟩⟩
  | ok stored => exact ⟨Except.ok newVm, s1, rfl, Or.inl ⟨stored, rfl, rfl⟩⟩

/-- Shape of `processVmCreateOrUpdate` by the outcome of the lookup and of the create or
update that follows it. -/
theorem processVmCreateOrUpdate_shape {σ : Type} (c : VirtualMachineControllerImpl σ)
    (vm : v1alpha1.VirtualMachine) (s : σ) (vms : VirtualMachines σ)
    (hprovider : c.vmProvider.VirtualMachines = some vms) :
    (∀ (err : Error) (s1 : σ),
      vms.GetVirtualMachine vm.ObjectMeta.Name s = (Except.error err, s1) →
      errors.IsNotFound (some err) = false →
      c.processVmCreateOrUpdate vm s =
        ⟨Except.error err, s1, [CtlCall.GetVirtualMachine vm.ObjectMeta.Name]⟩) ∧
    (∀ (err cerr : Error) (s1 s2 : σ),
      vms.GetVirtualMachine vm.ObjectMeta.Name s = (Except.error err, s1) →
      errors.IsNotFound (some err) = true →
      vms.CreateVirtualMachine vm s1 = (Except.error cerr, s2) →
      c.processVmCreateOrUpdate vm s =
        ⟨Except.error cerr, s2, [CtlCall.GetVirtualMachine vm.ObjectMeta.Name,
          CtlCall.CreateVirtualMachine vm]⟩) ∧
    (∀ (err : Error) (newVm : v1alpha1.VirtualMachine) (s1 s2 : σ),
      vms.GetVirtualMachine vm.ObjectMeta.Name s = (Except.error err, s1) →
      errors.IsNotFound (some err) = true →
      vms.CreateVirtualMachine vm s1 = (Except.ok newVm, s2) →
      ∃ (r : Except Error v1alpha1.VirtualMachine) (s3 : σ),
        c.processVmCreateOrUpdate vm s =
          ⟨r, s3, [CtlCall.GetVirtualMachine vm.ObjectMeta.Name,
            CtlCall.CreateVirtualMachine vm,
            CtlCall.UpdateStatus { newVm with ObjectMeta := c.AddAnnotations newVm.ObjectMeta }]⟩ ∧
        ((∃ stored, c.vmClientSet.UpdateStatus
              { newVm with ObjectMeta := c.AddAnnotations newVm.ObjectMeta } s2 =
                (Except.ok stored, s3) ∧
            r = Except.ok { newVm with ObjectMeta := c.AddAnnotations newVm.ObjectMeta }) ∨
          (∃ e, c.vmClientSet.UpdateStatus
              { newVm with ObjectMeta := c.AddAnnotations newVm.ObjectMeta } s2 =
                (Except.error e, s3) ∧ r = Except.error e))) ∧
    (∀ (found : v1alpha1.VirtualMachine) (uerr : Error) (s1 s2 : σ),
      vms.GetVirtualMachine vm.ObjectMeta.Name s = (Except.ok found, s1) →
      vms.UpdateVirtualMachine vm s1 = (Except.error uerr, s2) →
      c.processVmCreateOrUpdate vm s =
        ⟨Except.error uerr, s2, [CtlCall.GetVirtualMachine vm.ObjectMeta.Name,
          CtlCall.UpdateVirtualMachine vm]⟩) ∧
    (∀ (found newVm : v1alpha1.VirtualMachine) (s1 s2 : σ),
      vms.GetVirtualMachine vm.ObjectMeta.Name s = (Except.ok found, s1) →
      vms.UpdateVirtualMachine vm s1 = (Except.ok newVm, s2) →
      ∃ (r : Except Error v1alpha1.VirtualMachine) (s3 : σ),
        c.processVmCreateOrUpdate vm s =
          ⟨r, s3, [CtlCall.GetVirtualMachine vm.ObjectMeta.Name,
            CtlCall.UpdateVirtualMachine vm, CtlCall.UpdateStatus newVm]⟩ ∧
        ((∃ stored, c.vmClientSet.UpdateStatus newVm s2 = (Except.ok stored, s3) ∧
            r = Except.ok newVm) ∨
          (∃ e, c.vmClientSet.UpdateStatus newVm s2 = (Except.error e, s3) ∧
            r = Except.error e))) := by
  refine ⟨?_, ?_, ?_, ?_, ?_⟩
  · intro err s1 hget hnf
    simp only [VirtualMachineControllerImpl.processVmCreateOrUpdate, hprovider, hget, hnf,
      Bool.false_eq_true, if_false]
  · intro err cerr s1 s2 hget hnf hcreate
    simp only [VirtualMachineControllerImpl.processVmCreateOrUpdate, hprovider, hget, hnf,
      if_true, processVmCreate_error c vms vm s1 s2 cerr hcreate, finish_error]
    rfl
  · intro err newVm s1 s2 hget hnf hcreate
    simp only [VirtualMachineControllerImpl.processVmCreateOrUpdate, hprovider, hget, hnf,
      if_true, processVmCreate_ok c vms vm newVm s1 s2 hcreate]
    obtain ⟨r, s3, h1, h2⟩ := finish_ok c
      { newVm with ObjectMeta := c.AddAnnotations newVm.ObjectMeta } s2
      [CtlCall.CreateVirtualMachine vm] [CtlCall.GetVirtualMachine vm.ObjectMeta.Name]
    exact ⟨r, s3, h1, h2⟩
  · intro found uerr s1 s2 hget hupdate
    simp only [VirtualMachineControllerImpl.processVmCreateOrUpdate, hprovider, hget,
      processVmUpdate_eq c vms vm s1 s2 _ hupdate, finish_error]
    rfl
  · intro found newVm s1 s2 hget hupdate
    simp only [VirtualMachineControllerImpl.processVmCreateOrUpdate, hprovider, hget,
      processVmUpdate_eq c vms vm s1 s2 _ hupdate]
    obtain ⟨r, s3, h1, h2⟩ := finish_ok c newVm s2
      [CtlCall.UpdateVirtualMachine vm] [CtlCall.GetVirtualMachine vm.ObjectMeta.Name]
    exact ⟨r, s3, h1, h2⟩

end virtualmachine

namespace virtualmachine

/-- Shape of a `Reconcile` pass on a record without deletion marker. -/
theorem Reconcile_live_shape {σ : Type} (c : VirtualMachineControllerImpl σ)
    (vmToReconcile : v1alpha1.VirtualMachine) (s : σ)
    (hmarker : metav1.Time.IsZero vmToReconcile.ObjectMeta.DeletionTimestamp = true) :
    (∀ (err : Error) (s2 : σ),
      c.vmLister.Get vmToReconcile.ObjectMeta.Namespace vmToReconcile.ObjectMeta.Name
        (c.postVmServiceEventsToWorkqueue vmToReconcile s).state = (Except.error err, s2) →
      c.Reconcile vmToReconcile s =
        ⟨(some err, vmToReconcile), s2,
          (c.postVmServiceEventsToWorkqueue vmToReconcile s).calls ++
            [CtlCall.ListerGet vmToReconcile.ObjectMeta.Namespace
              vmToReconcile.ObjectMeta.Name]⟩) ∧
    (∀ (vm : v1alpha1.VirtualMachine) (s2 : σ),
      c.vmLister.Get vmToReconcile.ObjectMeta.Namespace vmToReconcile.ObjectMeta.Name
        (c.postVmServiceEventsToWorkqueue vmToReconcile s).state = (Except.ok vm, s2) →
      (c.Reconcile vmToReconcile s).ret.2 = vmToReconcile ∧
      (c.Reconcile vmToReconcile s).state = (c.processVmCreateOrUpdate vm s2).state ∧
      (c.Reconcile vmToReconcile s).calls =
        (c.postVmServiceEventsToWorkqueue vmToReconcile s).calls ++
          [CtlCall.ListerGet vmToReconcile.ObjectMeta.Namespace
            vmToReconcile.ObjectMeta.Name] ++ (c.processVmCreateOrUpdate vm s2).calls ∧
      (∀ e, (c.processVmCreateOrUpdate vm s2).ret = Except.error e →
        (c.Reconcile vmToReconcile s).ret.1 = some e) ∧
      (∀ newVm, (c.processVmCreateOrUpdate vm s2).ret = Except.ok newVm →
        (c.Reconcile vmToReconcile s).ret.1 = none)) := by
  constructor
  · intro err s2 hload
    simp only [VirtualMachineControllerImpl.Reconcile, hmarker, Bool.not_true,
      Bool.false_eq_true, if_false, hload]
  · intro vm s2 hload
    simp only [VirtualMachineControllerImpl.Reconcile, hmarker, Bool.not_true,
      Bool.false_eq_true, if_false, hload]
    cases hr : (c.processVmCreateOrUpdate vm s2).ret with
    | error e => simp
    | ok newVm => simp

end virtualmachine

namespace virtualmachine

/-- A service-event call is no store write. -/
theorem serviceEvent_not_storeWrite (x : CtlCall) (h : x.isServiceEvent = true) :
    x.isStoreWrite = false := by
  cases x <;> simp_all [CtlCall.isServiceEvent, CtlCall.isStoreWrite]

/-- A service-event call is no record update. -/
theorem serviceEvent_not_recordUpdate (x : CtlCall) (h : x.isServiceEvent = true) :
    x.isRecordUpdate = false := by
  cases x <;> simp_all [CtlCall.isServiceEvent, CtlCall.isRecordUpdate]

/-- A service-event call is no backend call. -/
theorem serviceEvent_not_backendCall (x : CtlCall) (h : x.isServiceEvent = true) :
    x.isBackendCall = false := by
  cases x <;> simp_all [CtlCall.isServiceEvent, CtlCall.isBackendCall]

/-- Calls of `processVmCreateOrUpdate`: backend lookup, create and update, and the status
write. -/
theorem processVmCreateOrUpdate_calls {σ : Type} (c : VirtualMachineControllerImpl σ)
    (vm : v1alpha1.VirtualMachine) (s : σ) :
    ∀ x ∈ (c.processVmCreateOrUpdate vm s).calls,
      x.isBackendLookup = true ∨ x.isBackendCreate = true ∨ x.isBackendUpdate = true ∨
        x.isStatusWrite = true := by
  cases hp : c.vmProvider.VirtualMachines with
  | none =>
    intro x hx
    simp [VirtualMachineControllerImpl.processVmCreateOrUpdate, hp] at hx
  | some vms =>
    obtain ⟨hother, hcfail, hcok, hufail, huok⟩ := processVmCreateOrUpdate_shape c vm s vms hp
    rcases hg : vms.GetVirtualMachine vm.ObjectMeta.Name s with ⟨r, s1⟩
    cases r with
    | error err =>
      cases hnf : errors.IsNotFound (some err) with
      | false =>
        rw [hother err s1 hg hnf]
        intro x hx
        simp at hx
        subst hx
        simp [CtlCall.isBackendLookup]
      | true =>
        rcases hc : vms.CreateVirtualMachine vm s1 with ⟨rc, s2⟩
        cases rc with
        | error cerr =>
          rw [hcfail err cerr s1 s2 hg hnf hc]
          intro x hx
          simp at hx
          rcases hx with h | h <;> subst h <;>
            simp [CtlCall.isBackendLookup, CtlCall.isBackendCreate]
        | ok newVm =>
          obtain ⟨r, s3, heq, _⟩ := hcok err newVm s1 s2 hg hnf hc
          rw [heq]
          intro x hx
          simp at hx
          rcases hx with h | h | h <;> subst h <;>
            simp [CtlCall.isBackendLookup, CtlCall.isBackendCreate, CtlCall.isStatusWrite]
    | ok found =>
      rcases hu : vms.UpdateVirtualMachine vm s1 with ⟨ru, s2⟩
      cases ru with
      | error uerr =>
        rw [hufail found uerr s1 s2 hg hu]
        intro x hx
        simp at hx
        rcases hx with h | h <;> subst h <;>
          simp [CtlCall.isBackendLookup, CtlCall.isBackendUpdate]
      | ok newVm =>
        obtain ⟨r, s3, heq, _⟩ := huok found newVm s1 s2 hg hu
        rw [heq]
        intro x hx
        simp at hx
        rcases hx with h | h | h <;> subst h <;>
          simp [CtlCall.isBackendLookup, CtlCall.isBackendUpdate, CtlCall.isStatusWrite]

/-- C12 (defect of the code): the error of listing the dependent services at the start of
the pass is dropped.  With a service lister that fails, `postVmServiceEventsToWorkqueue`
returns the error, yet `Reconcile` returns nil, both on a record without deletion marker
whose other calls all succeed and on a record marked for deletion without finalizer. -/
theorem Reconcile_drops_service_listing_error :
    ((playbackController { Playback.healthy with listErr := some errBackend }
        liveRecord).postVmServiceEventsToWorkqueue liveRecord ()).ret = some errBackend ∧
    ((playbackController { Playback.healthy with listErr := some errBackend }
        liveRecord).Reconcile liveRecord ()).ret.1 = none ∧
    ((playbackController { Playback.healthy with listErr := some errBackend }
        liveRecord).Reconcile liveRecord ()).calls =
      [CtlCall.ListVmServices "default", CtlCall.ListerGet "default" "vm-0",
        CtlCall.GetVirtualMachine "vm-0", CtlCall.UpdateVirtualMachine liveRecord,
        CtlCall.UpdateStatus liveRecord] ∧
    ((playbackController { Playback.healthy with listErr := some errBackend }
        strippedRecord).Reconcile strippedRecord ()).ret.1 = none := by
  refine ⟨by decide, by decide, by decide, by decide⟩

end virtualmachine

namespace virtualmachine

/-- C14 (amended): when the load of the record from the store fails, with not-found or any
other error, a `Reconcile` pass on a record without deletion marker returns that error,
issues no backend call and no store write, and leaves the record unchanged. -/
theorem Reconcile_returns_load_error {σ : Type} (c : VirtualMachineControllerImpl σ)
    (vmToReconcile : v1alpha1.VirtualMachine) (s s2 : σ) (err : Error)
    (hmarker : metav1.Time.IsZero vmToReconcile.ObjectMeta.DeletionTimestamp = true)
    (hload : c.vmLister.Get vmToReconcile.ObjectMeta.Namespace vmToReconcile.ObjectMeta.Name
      (c.postVmServiceEventsToWorkqueue vmToReconcile s).state = (Except.error err, s2)) :
    (c.Reconcile vmToReconcile s).ret = (some err, vmToReconcile) ∧
    (c.Reconcile vmToReconcile s).calls.countP CtlCall.isBackendCall = 0 ∧
    (c.Reconcile vmToReconcile s).calls.countP CtlCall.isStoreWrite = 0 ∧
    (c.Reconcile vmToReconcile s).state = s2 := by
  have hpost := countP_service_events CtlCall.isStoreWrite _ serviceEvent_not_storeWrite
    (post_calls c vmToReconcile s)
  have hpost2 := countP_service_events CtlCall.isBackendCall _ serviceEvent_not_backendCall
    (post_calls c vmToReconcile s)
  rw [(Reconcile_live_shape c vmToReconcile s hmarker).1 err s2 hload]
  simp [List.countP_append, hpost, hpost2, CtlCall.isStoreWrite, CtlCall.isBackendCall]

/-- Witness of C14 (amended): the store reports not-found for the record. -/
theorem Reconcile_returns_load_error_witness :
    metav1.Time.IsZero liveRecord.ObjectMeta.DeletionTimestamp = true ∧
    (playbackController { Playback.healthy with loadErr := some errNotFound }
      liveRecord).vmLister.Get "default" "vm-0" () = (Except.error errNotFound, ()) ∧
    ((playbackController { Playback.healthy with loadErr := some errNotFound }
      liveRecord).Reconcile liveRecord ()).ret = (some errNotFound, liveRecord) ∧
    ((playbackController { Playback.healthy with loadErr := some errNotFound }
      liveRecord).Reconcile liveRecord ()).calls.countP CtlCall.isBackendCall = 0 :=
  ⟨by decide, rfl,
    (Reconcile_returns_load_error
      (playbackController { Playback.healthy with loadErr := some errNotFound } liveRecord)
      liveRecord () () errNotFound (by decide) rfl).1,
    (Reconcile_returns_load_error
      (playbackController { Playback.healthy with loadErr := some errNotFound } liveRecord)
      liveRecord () () errNotFound (by decide) rfl).2.1⟩

/-- Counterexample to C14 as stated: the record is not found in the store when `Reconcile`
loads it, and the pass returns the not-found error instead of success. -/
theorem Reconcile_record_not_found_is_an_error :
    (playbackController { Playback.healthy with loadErr := some errNotFound }
      liveRecord).vmLister.Get liveRecord.ObjectMeta.Namespace liveRecord.ObjectMeta.Name () =
      (Except.error errNotFound, ()) ∧
    errors.IsNotFound (some errNotFound) = true ∧
    ((playbackController { Playback.healthy with loadErr := some errNotFound }
      liveRecord).Reconcile liveRecord ()).ret.1 = some errNotFound ∧
    ((playbackController { Playback.healthy with loadErr := some errNotFound }
      liveRecord).Reconcile liveRecord ()).ret.1 ≠ none := by
  refine ⟨rfl, by decide, by decide, by decide⟩

/-- After `PrepareForCreate` the list holds the token. -/
theorem contains_append_self (l : List String) (t : String) :
    VirtualMachineControllerImpl.contains (l ++ [t]) t = true := by
  rw [contains_eq]
  simp

/-- C15 (amended): the controller's finalizer token is added when the record is created:
`VirtualMachineStrategy.PrepareForCreate` appends it to the finalizer list, so the created
record holds the token.  A `Reconcile` pass on a record without deletion marker does not
add the token and does not persist the record: it leaves the record, finalizer list
included, unchanged and issues no store `Update`, whether or not the token is present. -/
theorem Reconcile_never_adds_finalizer {σ : Type} (c : VirtualMachineControllerImpl σ)
    (vmToReconcile : v1alpha1.VirtualMachine) (s : σ)
    (hmarker : metav1.Time.IsZero vmToReconcile.ObjectMeta.DeletionTimestamp = true) :
    (c.Reconcile vmToReconcile s).ret.2 = vmToReconcile ∧
    (c.Reconcile vmToReconcile s).calls.countP CtlCall.isRecordUpdate = 0 ∧
    (∀ (parent : v1alpha1.VirtualMachine → v1alpha1.VirtualMachine)
      (obj : v1alpha1.VirtualMachine),
      (VirtualMachineStrategy.PrepareForCreate parent obj).ObjectMeta.Finalizers =
        (parent obj).ObjectMeta.Finalizers ++ [v1alpha1.VirtualMachineFinalizer] ∧
      VirtualMachineControllerImpl.contains
        (VirtualMachineStrategy.PrepareForCreate parent obj).ObjectMeta.Finalizers
        v1alpha1.VirtualMachineFinalizer = true) := by
  have hpost := countP_service_events CtlCall.isRecordUpdate _ serviceEvent_not_recordUpdate
    (post_calls c vmToReconcile s)
  have hlast : ∀ parent obj,
      (VirtualMachineStrategy.PrepareForCreate parent obj).ObjectMeta.Finalizers =
        (parent obj).ObjectMeta.Finalizers ++ [v1alpha1.VirtualMachineFinalizer] ∧
      VirtualMachineControllerImpl.contains
        (VirtualMachineStrategy.PrepareForCreate parent obj).ObjectMeta.Finalizers
        v1alpha1.VirtualMachineFinalizer = true := by
    intro parent obj
    exact ⟨rfl, contains_append_self _ _⟩
  rcases hl : c.vmLister.Get vmToReconcile.ObjectMeta.Namespace vmToReconcile.ObjectMeta.Name
    (c.postVmServiceEventsToWorkqueue vmToReconcile s).state with ⟨r, s2⟩
  cases r with
  | error err =>
    rw [(Reconcile_live_shape c vmToReconcile s hmarker).1 err s2 hl]
    refine ⟨rfl, ?_, hlast⟩
    simp [List.countP_append, hpost, CtlCall.isRecordUpdate]
  | ok vm =>
    obtain ⟨hrec, _, hcalls, _, _⟩ := (Reconcile_live_shape c vmToReconcile s hmarker).2 vm s2 hl
    refine ⟨hrec, ?_, hlast⟩
    rw [hcalls]
    have hproc : (c.processVmCreateOrUpdate vm s2).calls.countP CtlCall.isRecordUpdate = 0 := by
      rw [List.countP_eq_zero]
      intro x hx
      rcases processVmCreateOrUpdate_calls c vm s2 x hx with h | h | h | h <;> cases x <;>
        simp_all [CtlCall.isBackendLookup, CtlCall.isBackendCreate, CtlCall.isBackendUpdate,
          CtlCall.isStatusWrite, CtlCall.isRecordUpdate]
    simp [List.countP_append, hpost, hproc, CtlCall.isRecordUpdate]

/-- Witness of C15 (amended): a record without deletion marker and without the token. -/
theorem Reconcile_never_adds_finalizer_witness :
    metav1.Time.IsZero bareRecord.ObjectMeta.DeletionTimestamp = true ∧
    ((playbackController Playback.healthy bareRecord).Reconcile bareRecord ()).ret.2 =
      bareRecord ∧
    ((playbackController Playback.healthy bareRecord).Reconcile bareRecord ()).calls.countP
      CtlCall.isRecordUpdate = 0 :=
  ⟨by decide,
    (Reconcile_never_adds_finalizer (playbackController Playback.healthy bareRecord) bareRecord
      () (by decide)).1,
    (Reconcile_never_adds_finalizer (playbackController Playback.healthy bareRecord) bareRecord
      () (by decide)).2.1⟩

/-- Counterexample to C15 as stated: a record without deletion marker and without the token
is reconciled against a healthy backend and store; the pass queries the backend without
having persisted the record, and afterwards the token is still absent. -/
theorem Reconcile_leaves_token_absent :
    metav1.Time.IsZero bareRecord.ObjectMeta.DeletionTimestamp = true ∧
    VirtualMachineControllerImpl.contains bareRecord.ObjectMeta.Finalizers
      v1alpha1.VirtualMachineFinalizer = false ∧
    ((playbackController Playback.healthy bareRecord).Reconcile bareRecord ()).calls =
      [CtlCall.ListVmServices "default", CtlCall.ListerGet "default" "vm-0",
        CtlCall.GetVirtualMachine "vm-0", CtlCall.UpdateVirtualMachine bareRecord,
        CtlCall.UpdateStatus bareRecord] ∧
    ((playbackController Playback.healthy bareRecord).Reconcile bareRecord ()).ret.1 = none ∧
    VirtualMachineControllerImpl.contains
      ((playbackController Playback.healthy bareRecord).Reconcile
        bareRecord ()).ret.2.ObjectMeta.Finalizers v1alpha1.VirtualMachineFinalizer = false := by
  refine ⟨by decide, by decide, by decide, by decide, by decide⟩

end virtualmachine

namespace resources

/-- C18 (defect of the code): the drift check dereferences the live allocation without a
nil check.  For a live configuration without CPU allocation, or whose CPU allocation has
no reservation, and a desired spec that names a CPU reservation, `CompareVmConfig`
panics, and so does `Reconfigure` after its property read. -/
theorem CompareVmConfig_panics_on_missing_live_allocation :
    CompareVmConfig "vm-0" (some exampleConfigWithoutCpuAllocation) (some exampleSpec) = none ∧
    CompareVmConfig "vm-0" (some exampleConfigWithoutCpuReservation) (some exampleSpec) = none ∧
    ((simVm SimFaults.none).Reconfigure (some exampleSpec)
      ⟨exampleConfigWithoutCpuAllocation, "poweredOff"⟩).result = none ∧
    ((simVm SimFaults.none).Reconfigure (some exampleSpec)
      ⟨exampleConfigWithoutCpuAllocation, "poweredOff"⟩).calls =
      [VcCall.Properties ["config"]] := by
  refine ⟨by decide, by decide, by decide, by decide⟩

end resources

namespace placement

/-- The inner loop body of `ClusterPlaceVMForCreate` appends the recommendation of the
action, if any. -/
theorem ClusterPlaceVMForCreate_action_eq (acc : List Recommendation)
    (a : types.BaseClusterAction) :
    ClusterPlaceVMForCreate.action acc a = acc ++ (clusterRecommendationOf a).toList := by
  cases a with
  | PlacementAction pa => simp [ClusterPlaceVMForCreate.action, clusterRecommendationOf]
  | ClusterClusterInitialPlacementAction ca =>
    rcases ca with ⟨th, po, cs⟩
    cases po <;>
      simp [ClusterPlaceVMForCreate.action, clusterRecommendationOf,
        clusterPlacementActionToRecommendation]
  | ClusterAction t => simp [ClusterPlaceVMForCreate.action, clusterRecommendationOf]

/-- The inner loop of `ClusterPlaceVMForCreate` appends the recommendations of the actions. -/
theorem ClusterPlaceVMForCreate_actions_foldl (acc : List Recommendation)
    (l : List types.BaseClusterAction) :
    l.foldl ClusterPlaceVMForCreate.action acc = acc ++ l.filterMap clusterRecommendationOf := by
  induction l generalizing acc with
  | nil => simp
  | cons a rest ih =>
    rw [List.foldl_cons, ih, ClusterPlaceVMForCreate_action_eq]
    cases h : clusterRecommendationOf a <;> simp [List.filterMap_cons, h]

/-- The outer loop of `ClusterPlaceVMForCreate` appends the expected recommendations. -/
theorem ClusterPlaceVMForCreate_infos_foldl (acc : List Recommendation)
    (l : List types.PlaceVmsXClusterResultPlacementInfo) (faults) :
    l.foldl ClusterPlaceVMForCreate.info acc =
      acc ++ expectedClusterRecommendations ⟨l, faults⟩ := by
  induction l generalizing acc with
  | nil => simp [expectedClusterRecommendations]
  | cons i rest ih =>
    rw [List.foldl_cons, ih]
    by_cases hr : i.Recommendation.Reason = types.RecommendationReasonCodeXClusterPlacement
    · simp [ClusterPlaceVMForCreate.info, hr, expectedClusterRecommendations,
        ClusterPlaceVMForCreate_actions_foldl]
    · simp [ClusterPlaceVMForCreate.info, hr, expectedClusterRecommendations]

/-- Membership in the expected cross-cluster recommendations, spelled out on the response. -/
theorem mem_expectedClusterRecommendations (resp : types.PlaceVmsXClusterResult)
    (rec : Recommendation) :
    rec ∈ expectedClusterRecommendations resp ↔
      ∃ i ∈ resp.PlacementInfos,
        i.Recommendation.Reason = types.RecommendationReasonCodeXClusterPlacement ∧
        ∃ ca, types.BaseClusterAction.ClusterClusterInitialPlacementAction ca ∈
            i.Recommendation.Action ∧
          ca.Pool = some rec.PoolMoRef ∧ rec.HostMoRef = some ca.TargetHost := by
  have hrec : ∀ a, clusterRecommendationOf a = some rec ↔
      ∃ ca, a = types.BaseClusterAction.ClusterClusterInitialPlacementAction ca ∧
        ca.Pool = some rec.PoolMoRef ∧ rec.HostMoRef = some ca.TargetHost := by
    intro a
    cases a with
    | PlacementAction pa => simp [clusterRecommendationOf]
    | ClusterClusterInitialPlacementAction ca =>
      rcases ca with ⟨th, po, cs⟩
      rcases rec with ⟨rp, rh⟩
      cases po with
      | none => simp [clusterRecommendationOf]
      | some p =>
        simp [clusterRecommendationOf]
        intro _
        exact eq_comm
    | ClusterAction t => simp [clusterRecommendationOf]
  simp only [expectedClusterRecommendations, List.mem_flatten, List.mem_map, List.mem_filter,
    decide_eq_true_eq]
  constructor
  · rintro ⟨l, ⟨i, ⟨hi, hreason⟩, rfl⟩, hmem⟩
    rw [List.mem_filterMap] at hmem
    obtain ⟨a, ha, hu⟩ := hmem
    obtain ⟨ca, rfl, h1, h2⟩ := (hrec a).1 hu
    exact ⟨i, hi, hreason, ca, ha, h1, h2⟩
  · rintro ⟨i, hi, hreason, ca, ha, h1, h2⟩
    refine ⟨_, ⟨i, ⟨hi, hreason⟩, rfl⟩, ?_⟩
    rw [List.mem_filterMap]
    exact ⟨_, ha, (hrec _).2 ⟨ca, rfl, h1, h2⟩⟩

/-- C17 (amended): for every fault-free backend response `ClusterPlaceVMForCreate` returns
without error, in response order, one recommendation per cluster placement action that has
a pool, over the placement infos with the cross-cluster placement reason code.  Every
returned recommendation carries a pool reference and a non-nil host reference, the host
being the action's `TargetHost` as it is (also the unset, zero-value reference); actions
without pool and infos with another reason code are discarded. -/
theorem ClusterPlaceVMForCreate_keeps_actions_with_pool (vcClient : object.RootFolder)
    (resourcePoolsMoRefs : List types.ManagedObjectReference)
    (configSpec : types.VirtualMachineConfigSpec) (resp : types.PlaceVmsXClusterResult)
    (hresp : vcClient.PlaceVmsXCluster
      ⟨resourcePoolsMoRefs, [⟨{ configSpec with Files := some ⟨""⟩ }⟩]⟩ = Except.ok resp)
    (hfaults : resp.Faults = []) :
    ClusterPlaceVMForCreate vcClient resourcePoolsMoRefs (some configSpec) =
      some (expectedClusterRecommendations resp, none) ∧
    (∀ rec ∈ expectedClusterRecommendations resp, rec.HostMoRef.isSome = true) ∧
    (∀ rec : Recommendation, rec ∈ expectedClusterRecommendations resp ↔
      ∃ i ∈ resp.PlacementInfos,
        i.Recommendation.Reason = types.RecommendationReasonCodeXClusterPlacement ∧
        ∃ ca, types.BaseClusterAction.ClusterClusterInitialPlacementAction ca ∈
            i.Recommendation.Action ∧
          ca.Pool = some rec.PoolMoRef ∧ rec.HostMoRef = some ca.TargetHost) := by
  refine ⟨?_, ?_, mem_expectedClusterRecommendations resp⟩
  · rcases resp with ⟨infos, faults⟩
    simp only at hfaults
    subst hfaults
    simp [ClusterPlaceVMForCreate, hresp, ClusterPlaceVMForCreate_infos_foldl [] infos []]
  · intro rec hrec
    obtain ⟨i, _, _, ca, _, _, h⟩ := (mem_expectedClusterRecommendations resp rec).1 hrec
    simp [h]

/-- Witness of C17 (amended): the response with a pool and an unset target host. -/
theorem ClusterPlaceVMForCreate_keeps_actions_with_pool_witness :
    (object.RootFolder.mk (fun _ => Except.ok exampleUnsetHostResponse)).PlaceVmsXCluster
      ⟨[exampleRef "ResourcePool" "resgroup-1"],
        [⟨{ resources.exampleSpec with Files := some ⟨""⟩ }⟩]⟩ =
      Except.ok exampleUnsetHostResponse ∧
    exampleUnsetHostResponse.Faults = [] ∧
    ClusterPlaceVMForCreate (object.RootFolder.mk (fun _ => Except.ok exampleUnsetHostResponse))
      [exampleRef "ResourcePool" "resgroup-1"] (some resources.exampleSpec) =
      some (expectedClusterRecommendations exampleUnsetHostResponse, none) :=
  ⟨rfl, rfl,
    (ClusterPlaceVMForCreate_keeps_actions_with_pool
      (object.RootFolder.mk (fun _ => Except.ok exampleUnsetHostResponse))
      [exampleRef "ResourcePool" "resgroup-1"] resources.exampleSpec exampleUnsetHostResponse
      rfl rfl).1⟩

/-- Counterexample to C17 as stated: a fault-free response whose only action has a pool but
an unset target host; the action is not discarded, the returned recommendation carries
the unset host reference. -/
theorem ClusterPlaceVMForCreate_keeps_unset_host :
    exampleUnsetHostResponse.Faults = [] ∧
    ClusterPlaceVMForCreate (object.RootFolder.mk (fun _ => Except.ok exampleUnsetHostResponse))
      [exampleRef "ResourcePool" "resgroup-1"] (some resources.exampleSpec) =
      some ([⟨exampleRef "ResourcePool" "resgroup-1", some unsetRef⟩], none) ∧
    unsetRef = ⟨"", ""⟩ := by
  refine ⟨rfl, by decide, rfl⟩

end placement

namespace virtualmachine

/-- Keys of the set built by the first loop of `checkVmVolumeConsistency`, and its values. -/
theorem declared_set_keys (vols : List vmoperatorv1alpha1.VirtualMachineVolumes)
    (acc : GoStringSet) (hacc : ∀ e ∈ acc, e.2 = true) :
    (∀ k, k ∈ (vols.foldl (fun set volume => GoStringSet.set set volume.Name true) acc).map
        Prod.fst ↔ k ∈ acc.map Prod.fst ∨ k ∈ vols.map (fun v => v.Name)) ∧
    (∀ e ∈ vols.foldl (fun set volume => GoStringSet.set set volume.Name true) acc,
      e.2 = true) := by
  induction vols generalizing acc with
  | nil => simpa using hacc
  | cons v rest ih =>
    have hacc2 : ∀ e ∈ GoStringSet.set acc v.Name true, e.2 = true := by
      intro e he
      simp only [GoStringSet.set, List.mem_cons, List.mem_filter] at he
      rcases he with h | h
      · rw [h]
      · exact hacc e h.1
    obtain ⟨h1, h2⟩ := ih (GoStringSet.set acc v.Name true) hacc2
    refine ⟨?_, h2⟩
    intro k
    rw [List.foldl_cons, h1 k]
    simp only [GoStringSet.set, List.map_cons, List.mem_cons, List.mem_map, List.mem_filter,
      decide_eq_true_eq, ne_eq]
    constructor
    · rintro (h | h)
      · rcases h with h | ⟨e, ⟨he, _⟩, hk⟩
        · exact Or.inr (Or.inl h)
        · exact Or.inl ⟨e, he, hk⟩
      · exact Or.inr (Or.inr h)
    · rintro (⟨e, he, hk⟩ | h | h)
      · by_cases hkv : k = v.Name
        · exact Or.inl (Or.inl hkv)
        · exact Or.inl (Or.inr ⟨e, ⟨he, by rw [hk]; exact hkv⟩, hk⟩)
      · exact Or.inl (Or.inl h)
      · exact Or.inr h

/-- On a set whose values are all true, the loop body of the second loop deletes the key. -/
theorem status_step_eq_delete (m : GoStringSet) (k : String) (hm : ∀ e ∈ m, e.2 = true) :
    (if GoStringSet.get m k then GoStringSet.delete m k else m) = GoStringSet.delete m k := by
  by_cases hg : GoStringSet.get m k = true
  · simp [hg]
  · simp only [hg, Bool.false_eq_true, if_false]
    symm
    simp only [GoStringSet.delete]
    rw [List.filter_eq_self]
    intro e he
    simp only [decide_eq_true_eq, ne_eq]
    intro hk
    apply hg
    simp only [GoStringSet.get]
    cases hf : m.find? (fun e => decide (e.1 = k)) with
    | none =>
      rw [List.find?_eq_none] at hf
      exact absurd (by simpa using hk) (hf e he)
    | some e2 => exact hm e2 (List.mem_of_find?_eq_some hf)

/-- The second loop of `checkVmVolumeConsistency` removes the entries named by a status. -/
theorem status_loop_eq_filter (st : List vmoperatorv1alpha1.VirtualMachineVolumeStatus)
    (m : GoStringSet) (hm : ∀ e ∈ m, e.2 = true) :
    st.foldl (fun set volume =>
        if GoStringSet.get set volume.Name then GoStringSet.delete set volume.Name else set) m =
      m.filter (fun e => decide (e.1 ∉ st.map (fun v => v.Name))) := by
  induction st generalizing m with
  | nil => simp
  | cons v rest ih =>
    rw [List.foldl_cons, status_step_eq_delete m v.Name hm]
    have hm2 : ∀ e ∈ GoStringSet.delete m v.Name, e.2 = true := by
      intro e he
      exact hm e (List.mem_filter.1 he).1
    rw [ih _ hm2]
    simp only [GoStringSet.delete, List.filter_filter]
    congr 1
    funext e
    simp only [List.map_cons, List.mem_cons, not_or, Bool.decide_and, ne_eq]
    rw [Bool.and_comm]

/-- The check holds exactly when every declared volume name occurs among the status
entries. -/
theorem checkVmVolumeConsistency_iff (vm : vmoperatorv1alpha1.VirtualMachine) :
    checkVmVolumeConsistency vm = true ↔
      ∀ v ∈ vm.Spec.Volumes, v.Name ∈ vm.Status.Volumes.map (fun st => st.Name) := by
  obtain ⟨hkeys, hvals⟩ := declared_set_keys vm.Spec.Volumes [] (by simp)
  simp only [checkVmVolumeConsistency, GoStringSet.len]
  rw [status_loop_eq_filter _ _ hvals]
  simp only [beq_iff_eq, List.length_eq_zero, List.filter_eq_nil_iff, decide_eq_true_eq,
    not_not]
  constructor
  · intro h v hv
    have hk := (hkeys v.Name).2 (Or.inr (List.mem_map_of_mem _ hv))
    obtain ⟨e, he, hek⟩ := List.mem_map.1 hk
    have := h e he
    rwa [hek] at this
  · intro h e he
    have hk := (hkeys e.1).1 (List.mem_map_of_mem _ he)
    simp only [List.map_nil, List.not_mem_nil, false_or] at hk
    obtain ⟨v, hv, hvk⟩ := List.mem_map.1 hk
    rw [← hvk]
    exact h v hv

end virtualmachine

namespace virtualmachine

/-- C19: the convergence check of the controller test establishes the volume-status
invariant.  `checkVmVolumeConsistency` returns true if and only if every declared volume
name occurs among the status entries; and for a machine whose declared volume names are
pairwise distinct, if the number of status entries equals the number of declared volumes
and the check returns true, then the status names are a rearrangement of the declared
names: every declared name has exactly one status entry (no duplicates) and every status
entry belongs to a declared volume (no orphans). -/
theorem checkVmVolumeConsistency_establishes_invariant
    (vm : vmoperatorv1alpha1.VirtualMachine) :
    (checkVmVolumeConsistency vm = true ↔
      ∀ v ∈ vm.Spec.Volumes, v.Name ∈ vm.Status.Volumes.map (fun st => st.Name)) ∧
    ((vm.Spec.Volumes.map (fun v => v.Name)).Nodup →
      vm.Status.Volumes.length = vm.Spec.Volumes.length →
      checkVmVolumeConsistency vm = true →
      (vm.Spec.Volumes.map (fun v => v.Name)).Perm
        (vm.Status.Volumes.map (fun st => st.Name)) ∧
      (vm.Status.Volumes.map (fun st => st.Name)).Nodup ∧
      (∀ st ∈ vm.Status.Volumes, st.Name ∈ vm.Spec.Volumes.map (fun v => v.Name)) ∧
      (∀ v ∈ vm.Spec.Volumes,
        (vm.Status.Volumes.map (fun st => st.Name)).count v.Name = 1)) := by
  refine ⟨checkVmVolumeConsistency_iff vm, ?_⟩
  intro hnodup hlen hcheck
  have hall := (checkVmVolumeConsistency_iff vm).1 hcheck
  have hsub : vm.Spec.Volumes.map (fun v => v.Name) ⊆
      vm.Status.Volumes.map (fun st => st.Name) := by
    intro k hk
    obtain ⟨v, hv, rfl⟩ := List.mem_map.1 hk
    exact hall v hv
  have hperm : (vm.Spec.Volumes.map (fun v => v.Name)).Perm
      (vm.Status.Volumes.map (fun st => st.Name)) :=
    (List.subperm_of_subset hnodup hsub).perm_of_length_le (by simp [hlen])
  have hnd : (vm.Status.Volumes.map (fun st => st.Name)).Nodup := hperm.nodup_iff.1 hnodup
  refine ⟨hperm, hnd, ?_, ?_⟩
  · intro st hst
    exact hperm.mem_iff.2 (List.mem_map_of_mem _ hst)
  · intro v hv
    exact List.count_eq_one_of_mem hnd (hall v hv)

/-- Witness of C19: the machine of the controller test with its three volumes reported. -/
theorem checkVmVolumeConsistency_establishes_invariant_witness :
    (exampleConvergedVm.Spec.Volumes.map (fun v => v.Name)).Nodup ∧
    exampleConvergedVm.Status.Volumes.length = exampleConvergedVm.Spec.Volumes.length ∧
    checkVmVolumeConsistency exampleConvergedVm = true ∧
    (exampleConvergedVm.Spec.Volumes.map (fun v => v.Name)).Perm
      (exampleConvergedVm.Status.Volumes.map (fun st => st.Name)) :=
  ⟨by decide, rfl, by decide,
    ((checkVmVolumeConsistency_establishes_invariant exampleConvergedVm).2 (by decide) rfl
      (by decide)).1⟩

end virtualmachine

namespace sessioncache

/-- Running two sequences one after the other. -/
theorem run_append (a b : List Op) (c : SessionCache) :
    run (a ++ b) c = ((run b (run a c).1).1, (run a c).2 ++ (run b (run a c).1).2) := by
  induction a generalizing c with
  | nil => simp [run]
  | cons op rest ih => simp [run, ih, List.append_assoc]

/-- A tenant without cached entry has no cached Session. -/
theorem cached_of_absent (tenant : String) (c : SessionCache) (h : Absent tenant c) :
    c.cached tenant = none := by
  unfold SessionCache.cached
  cases hf : c.sessions.find? (fun e => decide (e.1 = tenant)) with
  | none => rfl
  | some e =>
    have hmem := List.mem_of_find?_eq_some hf
    have hp := List.find?_some hf
    simp only [decide_eq_true_eq] at hp
    exact absurd hp (h e hmem)

/-- One operation keeps the cache bounded, never lowers the connection count, and hands
out only Sessions created earlier. -/
theorem step_bounded (c : SessionCache) (op : Op) (hb : Bounded c) :
    Bounded (step c op).1 ∧ c.established ≤ (step c op).1.established ∧
    ∀ e ∈ (step c op).2, e.2.ordinal < (step c op).1.established := by
  cases op with
  | Get tenant connect =>
    simp only [step, Get]
    cases hc : c.cached tenant with
    | some sess =>
      simp only
      refine ⟨hb, le_refl _, ?_⟩
      intro e he
      simp only [List.mem_singleton] at he
      subst he
      unfold SessionCache.cached at hc
      cases hf : c.sessions.find? (fun e => decide (e.1 = tenant)) with
      | none => simp [hf] at hc
      | some e2 =>
        simp only [hf, Option.some.injEq] at hc
        subst hc
        exact hb e2 (List.mem_of_find?_eq_some hf)
    | none =>
      cases connect with
      | false =>
        simp only [Bool.false_eq_true, if_false]
        exact ⟨hb, le_refl _, by simp⟩
      | true =>
        simp only [if_true]
        refine ⟨?_, Nat.le_succ _, ?_⟩
        · intro e he
          simp only [List.mem_cons] at he
          rcases he with h | h
          · subst h
            exact Nat.lt_succ_self _
          · exact Nat.lt_succ_of_lt (hb e h)
        · intro e he
          simp only [List.mem_singleton] at he
          subst he
          exact Nat.lt_succ_self _
  | Invalidate tenant =>
    simp only [step, Invalidate]
    refine ⟨?_, le_refl _, by simp⟩
    intro e he
    exact hb e (List.mem_filter.1 he).1
  | InvalidateAll =>
    simp only [step, InvalidateAll]
    exact ⟨by intro e he; simp at he, le_refl _, by simp⟩

/-- A sequence of operations keeps the cache bounded and hands out only Sessions created
before its end. -/
theorem run_bounded (ops : List Op) (c : SessionCache) (hb : Bounded c) :
    Bounded (run ops c).1 ∧ c.established ≤ (run ops c).1.established ∧
    ∀ e ∈ (run ops c).2, e.2.ordinal < (run ops c).1.established := by
  induction ops generalizing c with
  | nil => exact ⟨hb, le_refl _, by simp [run]⟩
  | cons op rest ih =>
    obtain ⟨h1, h2, h3⟩ := step_bounded c op hb
    obtain ⟨k1, k2, k3⟩ := ih (step c op).1 h1
    refine ⟨k1, le_trans h2 k2, ?_⟩
    intro e he
    simp only [run, List.mem_append] at he
    rcases he with h | h
    · exact lt_of_lt_of_le (h3 e h) k2
    · exact k3 e h

/-- Operations that establish no connection for the tenant leave it without Session. -/
theorem run_absent (tenant : String) (ops : List Op) (c : SessionCache)
    (hops : ∀ op ∈ ops, op ≠ Op.Get tenant true) (ha : Absent tenant c) :
    Absent tenant (run ops c).1 := by
  induction ops generalizing c with
  | nil => exact ha
  | cons op rest ih =>
    simp only [run]
    apply ih _ (fun o ho => hops o (List.mem_cons_of_mem _ ho))
    cases op with
    | Get t connect =>
      simp only [step, Get]
      cases hc : c.cached t with
      | some sess => exact ha
      | none =>
        cases connect with
        | false => exact ha
        | true =>
          simp only [if_true]
          intro e he
          simp only [List.mem_cons] at he
          rcases he with h | h
          · subst h
            intro ht
            simp only at ht
            exact hops (Op.Get t true) (List.mem_cons_self _ _) (by rw [ht])
          · exact ha e h
    | Invalidate t =>
      intro e he
      exact ha e (List.mem_filter.1 he).1
    | InvalidateAll =>
      intro e he
      simp [step, InvalidateAll] at he

/-- C20: Session invalidation.  For every tenant and every sequence of Session Cache
operations from process start, after `Invalidate(tenant)` or `InvalidateAll()`, possibly
followed by operations that establish no connection for the tenant, a `Get(tenant)` that
returns a Session returns one that differs from every Session handed out before for that
tenant; it is a newly created Session, which the cache then holds. -/
theorem Get_after_invalidation_is_fresh (tenant : String) (before between : List Op)
    (invalidation : Op) (connect : Bool) (sess : Session)
    (hinv : invalidation = Op.Invalidate tenant ∨ invalidation = Op.InvalidateAll)
    (hbetween : ∀ op ∈ between, op ≠ Op.Get tenant true)
    (hget : (Get (run (before ++ [invalidation] ++ between) SessionCache.empty).1 tenant
      connect).1 = Except.ok sess) :
    (∀ old, (tenant, old) ∈ (run (before ++ [invalidation] ++ between) SessionCache.empty).2 →
      sess ≠ old) ∧
    sess.ordinal = (run (before ++ [invalidation] ++ between) SessionCache.empty).1.established ∧
    (Get (run (before ++ [invalidation] ++ between) SessionCache.empty).1 tenant
      connect).2.cached tenant = some sess := by
  have hempty : Bounded SessionCache.empty := by
    intro e he
    simp [SessionCache.empty] at he
  obtain ⟨_, _, hlog⟩ := run_bounded (before ++ [invalidation] ++ between) SessionCache.empty
    hempty
  have habsent : Absent tenant
      (run (before ++ [invalidation] ++ between) SessionCache.empty).1 := by
    rw [run_append]
    apply run_absent tenant between _ hbetween
    rw [run_append]
    simp only [run]
    rcases hinv with h | h
    · subst h
      intro e he
      simp only [step, Invalidate, List.mem_filter, decide_eq_true_eq] at he
      exact he.2
    · subst h
      intro e he
      simp [step, InvalidateAll] at he
  have hnone := cached_of_absent tenant _ habsent
  simp only [Get, hnone] at hget ⊢
  cases connect with
  | false => simp at hget
  | true =>
    simp only [if_true, Except.ok.injEq] at hget ⊢
    subst hget
    refine ⟨?_, rfl, ?_⟩
    · intro old hold heq
      have := hlog (tenant, old) hold
      rw [← heq] at this
      exact lt_irrefl _ this
    · simp [SessionCache.cached]

/-- Witness of C20: a Session is handed out, the tenant is invalidated, another tenant is
served, and the next `Get` hands out a new Session. -/
theorem Get_after_invalidation_is_fresh_witness :
    (Op.Invalidate "tenant-a" = Op.Invalidate "tenant-a" ∨
      Op.Invalidate "tenant-a" = Op.InvalidateAll) ∧
    (Get (run ([Op.Get "tenant-a" true, Op.Get "tenant-a" true] ++ [Op.Invalidate "tenant-a"] ++
      [Op.Get "tenant-b" true]) SessionCache.empty).1 "tenant-a" true).1 =
      Except.ok ⟨"tenant-a", 2⟩ ∧
    (run ([Op.Get "tenant-a" true, Op.Get "tenant-a" true] ++ [Op.Invalidate "tenant-a"] ++
      [Op.Get "tenant-b" true]) SessionCache.empty).2 =
      [("tenant-a", ⟨"tenant-a", 0⟩), ("tenant-a", ⟨"tenant-a", 0⟩),
        ("tenant-b", ⟨"tenant-b", 1⟩)] ∧
    (∀ old, ("tenant-a", old) ∈ (run ([Op.Get "tenant-a" true, Op.Get "tenant-a" true] ++
        [Op.Invalidate "tenant-a"] ++ [Op.Get "tenant-b" true]) SessionCache.empty).2 →
      (⟨"tenant-a", 2⟩ : Session) ≠ old) :=
  ⟨Or.inl rfl, rfl, by decide,
    (Get_after_invalidation_is_fresh "tenant-a" [Op.Get "tenant-a" true, Op.Get "tenant-a" true]
      [Op.Get "tenant-b" true] (Op.Invalidate "tenant-a") true ⟨"tenant-a", 2⟩ (Or.inl rfl)
      (by decide) rfl).1⟩

end sessioncache

namespace infracluster

end infracluster

namespace resources

/-- C23 (defect of the code): for a powered-off VM `IpAddress` returns the empty address
with the nil error, a successful result, although its documentation promises an error
when the VM is not powered on. -/
theorem IpAddress_powered_off_is_not_an_error :
    (simVm SimFaults.none).vcVirtualMachine.PowerState ⟨exampleMatchingConfig, "poweredOff"⟩ =
      (Except.ok "poweredOff", ⟨exampleMatchingConfig, "poweredOff"⟩) ∧
    ((simVm SimFaults.none).IpAddress ⟨exampleMatchingConfig, "poweredOff"⟩).result =
      some ("", none) ∧
    ((simVm SimFaults.none).IpAddress ⟨exampleMatchingConfig, "poweredOff"⟩).calls =
      [VcCall.PowerState] := by
  refine ⟨rfl, by decide, by decide⟩

/-- The allocation check against a live allocation that carries the value. -/
theorem allocationDiffers_of_live (live desired : Option types.ResourceAllocationInfo)
    (f : types.ResourceAllocationInfo → Option Int) (a : types.ResourceAllocationInfo)
    (v : Int) (hl : live = some a) (hv : f a = some v) :
    allocationDiffers live desired f =
      some (!specifiedValueMatches (desired.bind f) v) := by
  subst hl
  cases desired with
  | none => simp [allocationDiffers, specifiedValueMatches]
  | some d =>
    cases hd : f d with
    | none => simp [allocationDiffers, specifiedValueMatches, hd]
    | some dv =>
      simp only [allocationDiffers, hd, hv, Option.bind, specifiedValueMatches]
      by_cases h : dv = v
      · simp [h]
      · have h2 : ¬ v = dv := fun e => h e.symm
        simp [h, h2]

/-- C26: `CompareVmConfig` equals its reference definition.  For every live configuration
whose CPU and memory allocations carry a reservation and a limit, and every desired spec,
it returns (without panic) true if and only if the desired CPU count equals the live one,
the desired memory size equals the live one, and each of the four values CPU reservation,
CPU limit, memory reservation and memory limit that the desired spec specifies equals the
live value; a value the desired spec leaves unspecified imposes no condition. -/
theorem CompareVmConfig_eq_reference (name : String) (live : types.VirtualMachineConfigInfo)
    (desired : types.VirtualMachineConfigSpec) (cpuReservation cpuLimit : Int)
    (memReservation memLimit : Int)
    (hcpu : live.CpuAllocation = some ⟨some cpuReservation, some cpuLimit⟩)
    (hmem : live.MemoryAllocation = some ⟨some memReservation, some memLimit⟩) :
    CompareVmConfig name (some live) (some desired) =
      some (referenceCompare live cpuReservation cpuLimit memReservation memLimit desired) ∧
    (CompareVmConfig name (some live) (some desired) = some true ↔
      desired.NumCPUs = live.Hardware.NumCPU ∧
      desired.MemoryMB = live.Hardware.MemoryMB ∧
      (∀ a v, desired.CpuAllocation = some a → a.Reservation = some v → v = cpuReservation) ∧
      (∀ a v, desired.CpuAllocation = some a → a.Limit = some v → v = cpuLimit) ∧
      (∀ a v, desired.MemoryAllocation = some a → a.Reservation = some v →
        v = memReservation) ∧
      (∀ a v, desired.MemoryAllocation = some a → a.Limit = some v → v = memLimit)) := by
  have hmatch : ∀ (alloc : Option types.ResourceAllocationInfo)
      (f : types.ResourceAllocationInfo → Option Int) (live : Int),
      specifiedValueMatches (alloc.bind f) live = true ↔
        ∀ a v, alloc = some a → f a = some v → v = live := by
    intro alloc f lv
    cases alloc with
    | none => simp [specifiedValueMatches]
    | some a =>
      cases hf : f a with
      | none =>
        simp only [Option.bind, specifiedValueMatches, hf, true_iff]
        intro a1 v ha hv
        cases ha
        rw [hf] at hv
        cases hv
      | some v =>
        simp only [Option.bind, specifiedValueMatches, hf, decide_eq_true_eq]
        constructor
        · intro h a1 v1 ha hv
          cases ha
          rw [hf] at hv
          cases hv
          exact h
        · intro h
          exact h a v rfl hf
  have h1 := allocationDiffers_of_live live.CpuAllocation desired.CpuAllocation
    (fun a => a.Reservation) _ cpuReservation hcpu rfl
  have h2 := allocationDiffers_of_live live.CpuAllocation desired.CpuAllocation
    (fun a => a.Limit) _ cpuLimit hcpu rfl
  have h3 := allocationDiffers_of_live live.MemoryAllocation desired.MemoryAllocation
    (fun a => a.Reservation) _ memReservation hmem rfl
  have h4 := allocationDiffers_of_live live.MemoryAllocation desired.MemoryAllocation
    (fun a => a.Limit) _ memLimit hmem rfl
  have heq : CompareVmConfig name (some live) (some desired) =
      some (referenceCompare live cpuReservation cpuLimit memReservation memLimit desired) := by
    simp only [CompareVmConfig, h1, h2, h3, h4, referenceCompare]
    by_cases hc : desired.NumCPUs = live.Hardware.NumCPU <;>
      by_cases hm : desired.MemoryMB = live.Hardware.MemoryMB <;>
      cases specifiedValueMatches (desired.CpuAllocation.bind fun a => a.Reservation)
        cpuReservation <;>
      cases specifiedValueMatches (desired.CpuAllocation.bind fun a => a.Limit) cpuLimit <;>
      cases specifiedValueMatches (desired.MemoryAllocation.bind fun a => a.Reservation)
        memReservation <;>
      cases specifiedValueMatches (desired.MemoryAllocation.bind fun a => a.Limit) memLimit <;>
      simp [hc, hm]
  refine ⟨heq, ?_⟩
  rw [heq]
  simp only [Option.some.injEq, referenceCompare, Bool.and_eq_true, decide_eq_true_eq, hmatch]
  tauto

/-- Witness of C26: the desired spec names the CPU reservation only. -/
theorem CompareVmConfig_eq_reference_witness :
    exampleMatchingConfig.CpuAllocation = some ⟨some 100, some 500⟩ ∧
    ({ exampleMatchingConfig with MemoryAllocation := some ⟨some 0, some 4096⟩ } :
      types.VirtualMachineConfigInfo).MemoryAllocation = some ⟨some 0, some 4096⟩ ∧
    CompareVmConfig "vm-0"
      (some { exampleMatchingConfig with MemoryAllocation := some ⟨some 0, some 4096⟩ })
      (some exampleSpec) =
      some (referenceCompare { exampleMatchingConfig with
        MemoryAllocation := some ⟨some 0, some 4096⟩ } 100 500 0 4096 exampleSpec) :=
  ⟨rfl, rfl,
    (CompareVmConfig_eq_reference "vm-0"
      { exampleMatchingConfig with MemoryAllocation := some ⟨some 0, some 4096⟩ } exampleSpec
      100 500 0 4096 rfl rfl).1⟩

/-- C27: `SetPowerState` rejects an unknown desired power state without a backend
mutation.  Once the current power state has been read, for every desired state other
than poweredOn and poweredOff: if it differs from the current state the method returns
the error "invalid desired power state" followed by that state, and issues no `PowerOn`,
no `PowerOff` and no wait on a task (its only backend call is the power state read); and
it returns an error if and only if the desired state differs from the current one. -/
theorem SetPowerState_rejects_unknown_state {σ : Type} (vm : VirtualMachine σ)
    (desiredPowerState ps : String) (s s1 : σ)
    (hread : vm.vcVirtualMachine.PowerState s = (Except.ok ps, s1))
    (hon : desiredPowerState ≠ v1alpha1.VirtualMachinePoweredOn)
    (hoff : desiredPowerState ≠ v1alpha1.VirtualMachinePoweredOff) :
    (ps ≠ desiredPowerState →
      (vm.SetPowerState desiredPowerState s).result =
        some (some (errors.New ("invalid desired power state " ++ desiredPowerState))) ∧
      (vm.SetPowerState desiredPowerState s).calls = [VcCall.PowerState] ∧
      (vm.SetPowerState desiredPowerState s).calls.countP VcCall.isPowerOn = 0 ∧
      (vm.SetPowerState desiredPowerState s).calls.countP VcCall.isPowerOff = 0 ∧
      (vm.SetPowerState desiredPowerState s).calls.countP VcCall.isWaitForResult = 0 ∧
      (vm.SetPowerState desiredPowerState s).state = s1) ∧
    ((∃ err, (vm.SetPowerState desiredPowerState s).result = some (some err)) ↔
      ps ≠ desiredPowerState) := by
  constructor
  · intro hne
    simp [VirtualMachine.SetPowerState, hread, hne, hon, hoff, VcCall.isPowerOn,
      VcCall.isPowerOff, VcCall.isWaitForResult]
  · by_cases hne : ps = desiredPowerState
    · simp [VirtualMachine.SetPowerState, hread, hne]
    · simp [VirtualMachine.SetPowerState, hread, hne, hon, hoff]

/-- Witness of C27: a powered-on VM asked to be suspended. -/
theorem SetPowerState_rejects_unknown_state_witness :
    (simVm SimFaults.none).vcVirtualMachine.PowerState ⟨exampleMatchingConfig, "poweredOn"⟩ =
      (Except.ok "poweredOn", ⟨exampleMatchingConfig, "poweredOn"⟩) ∧
    "suspended" ≠ v1alpha1.VirtualMachinePoweredOn ∧
    "suspended" ≠ v1alpha1.VirtualMachinePoweredOff ∧
    ((simVm SimFaults.none).SetPowerState "suspended"
      ⟨exampleMatchingConfig, "poweredOn"⟩).result =
      some (some (errors.New ("invalid desired power state " ++ "suspended"))) ∧
    ((simVm SimFaults.none).SetPowerState "suspended"
      ⟨exampleMatchingConfig, "poweredOn"⟩).calls = [VcCall.PowerState] :=
  ⟨rfl, by decide, by decide,
    ((SetPowerState_rejects_unknown_state (simVm SimFaults.none) "suspended" "poweredOn"
      ⟨exampleMatchingConfig, "poweredOn"⟩ ⟨exampleMatchingConfig, "poweredOn"⟩ rfl
      (by decide) (by decide)).1 (by decide)).1,
    ((SetPowerState_rejects_unknown_state (simVm SimFaults.none) "suspended" "poweredOn"
      ⟨exampleMatchingConfig, "poweredOn"⟩ ⟨exampleMatchingConfig, "poweredOn"⟩ rfl
      (by decide) (by decide)).1 (by decide)).2.1⟩

end resources

namespace placement

/-- C28: the two copies of the placement-response parser agree. For every placement
result `pool.ParsePlaceVMResponse` and `placement.ParseRelocateVMResponse` return the same
relocate spec (or both none), namely the first usable one of the response; and
`pool.CheckPlacementRelocateSpec` and `placement.CheckPlacementRelocateSpec` accept
exactly the same relocate specs: those that are present with host, resource pool and
datastore all present. -/
theorem parser_copies_agree :
    (∀ res : types.PlacementResult,
      pool.ParsePlaceVMResponse res = ParseRelocateVMResponse res ∧
      ParseRelocateVMResponse res = (usableRelocateSpecs res).head?) ∧
    (∀ spec : Option types.VirtualMachineRelocateSpec,
      pool.CheckPlacementRelocateSpec spec = CheckPlacementRelocateSpec spec ∧
      (CheckPlacementRelocateSpec spec = true ↔
        ∃ sp, spec = some sp ∧ sp.Host ≠ none ∧ sp.Pool ≠ none ∧ sp.Datastore ≠ none)) := by
  refine ⟨fun res => ⟨?_, ParseRelocateVMResponse_eq res⟩, fun spec => ⟨?_, ?_⟩⟩
  · rw [pool_ParsePlaceVMResponse_eq, ParseRelocateVMResponse_eq]
  · cases spec <;> rfl
  · cases spec with
    | none => simp [CheckPlacementRelocateSpec]
    | some sp =>
      rcases sp with ⟨f, d, p, h⟩
      cases h <;> cases p <;> cases d <;> simp [CheckPlacementRelocateSpec]

end placement

namespace virtualmachine

/-- C29: stripping the finalizer touches only the given token. For every list `l` and
token `s`, `filter l s` is `l` with every occurrence of `s` removed and all other entries
kept in their original order (with their multiplicity), so `contains (filter l s) s` is
false, `filter l s = l` when `s` does not occur in `l`, and filtering twice equals
filtering once. -/
theorem filter_strips_only_the_token (l : List String) (s : String) :
    VirtualMachineControllerImpl.filter l s = l.filter (fun item => decide (item ≠ s)) ∧
    (∀ x, x ∈ VirtualMachineControllerImpl.filter l s ↔ x ∈ l ∧ x ≠ s) ∧
    (∀ x, x ≠ s → (VirtualMachineControllerImpl.filter l s).count x = l.count x) ∧
    (VirtualMachineControllerImpl.filter l s).Sublist l ∧
    VirtualMachineControllerImpl.contains (VirtualMachineControllerImpl.filter l s) s = false ∧
    (VirtualMachineControllerImpl.contains l s = false →
      VirtualMachineControllerImpl.filter l s = l) ∧
    VirtualMachineControllerImpl.filter (VirtualMachineControllerImpl.filter l s) s =
      VirtualMachineControllerImpl.filter l s := by
  refine ⟨filter_eq l s, ?_, ?_, ?_, contains_filter l s, ?_, ?_⟩
  · intro x
    rw [filter_eq]
    simp [List.mem_filter]
  · intro x hx
    rw [filter_eq, List.count_filter]
    simpa using hx
  · rw [filter_eq]
    exact List.filter_sublist l
  · intro h
    rw [contains_eq] at h
    rw [filter_eq, List.filter_eq_self]
    intro a ha
    have hs : s ∉ l := by simpa using h
    have : a ≠ s := fun e => hs (e ▸ ha)
    simpa using this
  · rw [filter_eq, filter_eq, List.filter_filter]
    simp

/-- Witness of C29: the list `["a", "vm-finalizer", "b", "vm-finalizer"]` loses both
occurrences of the token and keeps `"a"` and `"b"` in order; a list without the token is returned as it is. -/
theorem filter_strips_only_the_token_witness :
    VirtualMachineControllerImpl.contains ["a", "b"] "vm-finalizer" = false ∧
    VirtualMachineControllerImpl.filter ["a", "b"] "vm-finalizer" = ["a", "b"] ∧
    VirtualMachineControllerImpl.filter ["a", "vm-finalizer", "b", "vm-finalizer"]
      "vm-finalizer" = ["a", "b"] :=
  ⟨by decide,
   (filter_strips_only_the_token ["a", "b"] "vm-finalizer").2.2.2.2.2.1 (by decide),
   by decide⟩

end virtualmachine

namespace api.v1alpha1

/-- C24: primary IP round trip of the schema conversion. For every primary-IP string
(IPv4, IPv6 or anything else, the empty string included) and no interface statuses,
converting up and down again returns the string and no interfaces; and for every
v1alpha2 network status with no interfaces in which exactly `PrimaryIP4` holds an IPv4
address, or exactly `PrimaryIP6` holds a non-empty non-IPv4 value, converting down and up
again returns the same status. The IPv4 test of the Go library is a parameter, of which
only the rejection of the empty string is used. -/
theorem network_status_round_trip (isIPv4 : String → Bool) (hempty : isIPv4 "" = false) :
    (∀ ip : String,
      convert_v1alpha2_NetworkStatus_To_v1alpha1_Network
        (convert_v1alpha1_Network_To_v1alpha2_NetworkStatus isIPv4 ip []) = (ip, [])) ∧
    (∀ st : v1alpha2.VirtualMachineNetworkStatus, st.Interfaces = [] →
      ((st.PrimaryIP6 = "" ∧ isIPv4 st.PrimaryIP4 = true) ∨
        (st.PrimaryIP4 = "" ∧ st.PrimaryIP6 ≠ "" ∧ isIPv4 st.PrimaryIP6 = false)) →
      convert_v1alpha1_Network_To_v1alpha2_NetworkStatus isIPv4
        (convert_v1alpha2_NetworkStatus_To_v1alpha1_Network (some st)).1
        (convert_v1alpha2_NetworkStatus_To_v1alpha1_Network (some st)).2 = some st) := by
  constructor
  · intro ip
    by_cases hip : ip = ""
    · subst hip
      simp [convert_v1alpha1_Network_To_v1alpha2_NetworkStatus,
        convert_v1alpha2_NetworkStatus_To_v1alpha1_Network]
    · cases h4 : isIPv4 ip with
      | true =>
        simp [convert_v1alpha1_Network_To_v1alpha2_NetworkStatus,
          convert_v1alpha2_NetworkStatus_To_v1alpha1_Network, hip, h4]
      | false =>
        simp [convert_v1alpha1_Network_To_v1alpha2_NetworkStatus,
          convert_v1alpha2_NetworkStatus_To_v1alpha1_Network, hip, h4]
  · intro st hi h
    rcases st with ⟨ifs, p4, p6⟩
    simp only at hi h
    subst hi
    rcases h with ⟨h6, h4⟩ | ⟨h4, h6, hv⟩
    · subst h6
      have hp : p4 ≠ "" := by
        intro e
        rw [e, hempty] at h4
        cases h4
      simp [convert_v1alpha1_Network_To_v1alpha2_NetworkStatus,
        convert_v1alpha2_NetworkStatus_To_v1alpha1_Network, hp, h4]
    · subst h4
      simp [convert_v1alpha1_Network_To_v1alpha2_NetworkStatus,
        convert_v1alpha2_NetworkStatus_To_v1alpha1_Network, h6, hv]

/-- Witness of C24, with the example IPv4 recogniser: the strings `"192.0.2.7"`, `"2001:db8::7"` and `""`
come back unchanged, and so do the statuses holding exactly one of the two addresses. -/
theorem network_status_round_trip_witness :
    exampleIsIPv4 "" = false ∧
    convert_v1alpha2_NetworkStatus_To_v1alpha1_Network
      (convert_v1alpha1_Network_To_v1alpha2_NetworkStatus exampleIsIPv4 "192.0.2.7" []) =
        ("192.0.2.7", []) ∧
    convert_v1alpha2_NetworkStatus_To_v1alpha1_Network
      (convert_v1alpha1_Network_To_v1alpha2_NetworkStatus exampleIsIPv4 "2001:db8::7" []) =
        ("2001:db8::7", []) ∧
    convert_v1alpha2_NetworkStatus_To_v1alpha1_Network
      (convert_v1alpha1_Network_To_v1alpha2_NetworkStatus exampleIsIPv4 "" []) = ("", []) ∧
    convert_v1alpha1_Network_To_v1alpha2_NetworkStatus exampleIsIPv4
      (convert_v1alpha2_NetworkStatus_To_v1alpha1_Network (some ⟨[], "192.0.2.7", ""⟩)).1
      (convert_v1alpha2_NetworkStatus_To_v1alpha1_Network (some ⟨[], "192.0.2.7", ""⟩)).2 =
        some ⟨[], "192.0.2.7", ""⟩ ∧
    convert_v1alpha1_Network_To_v1alpha2_NetworkStatus exampleIsIPv4
      (convert_v1alpha2_NetworkStatus_To_v1alpha1_Network (some ⟨[], "", "2001:db8::7"⟩)).1
      (convert_v1alpha2_NetworkStatus_To_v1alpha1_Network (some ⟨[], "", "2001:db8::7"⟩)).2 =
        some ⟨[], "", "2001:db8::7"⟩ :=
  ⟨by decide,
   (network_status_round_trip exampleIsIPv4 (by decide)).1 "192.0.2.7",
   (network_status_round_trip exampleIsIPv4 (by decide)).1 "2001:db8::7",
   (network_status_round_trip exampleIsIPv4 (by decide)).1 "",
   (network_status_round_trip exampleIsIPv4 (by decide)).2 ⟨[], "192.0.2.7", ""⟩ rfl
     (Or.inl ⟨rfl, by decide⟩),
   (network_status_round_trip exampleIsIPv4 (by decide)).2 ⟨[], "", "2001:db8::7"⟩ rfl
     (Or.inr ⟨rfl, by decide, by decide⟩)⟩

/-- Counterexample to C25 as stated: the present probe with every field zero converts up to the zero
spec, which converts down to the absent probe. -/
theorem zero_probe_comes_back_absent :
    convert_v1alpha2_ReadinessProbeSpec_To_v1alpha1_Probe
      (convert_v1alpha1_Probe_To_v1alpha2_ReadinessProbeSpec (some zeroProbe)) = none ∧
    ¬ (∀ p : Option Probe,
      convert_v1alpha2_ReadinessProbeSpec_To_v1alpha1_Probe
        (convert_v1alpha1_Probe_To_v1alpha2_ReadinessProbeSpec p) = p) := by
  refine ⟨by decide, fun h => ?_⟩
  have h0 := h (some zeroProbe)
  revert h0
  decide

/-- C25 (amended): for every v1alpha1 readiness probe that is absent, or present with at
least one field different from its zero value, converting up and down again gives the
probe back; the present probe with every field zero comes back absent; and for every
v1alpha2 readiness probe spec without `GuestInfo`, converting down and up again gives the
spec back. -/
theorem probe_round_trip :
    (∀ p : Option Probe, p ≠ some zeroProbe →
      convert_v1alpha2_ReadinessProbeSpec_To_v1alpha1_Probe
        (convert_v1alpha1_Probe_To_v1alpha2_ReadinessProbeSpec p) = p) ∧
    convert_v1alpha2_ReadinessProbeSpec_To_v1alpha1_Probe
      (convert_v1alpha1_Probe_To_v1alpha2_ReadinessProbeSpec (some zeroProbe)) = none ∧
    (∀ s : v1alpha2.VirtualMachineReadinessProbeSpec, s.GuestInfo = [] →
      convert_v1alpha1_Probe_To_v1alpha2_ReadinessProbeSpec
        (convert_v1alpha2_ReadinessProbeSpec_To_v1alpha1_Probe s) = s) := by
  refine ⟨?_, by decide, ?_⟩
  · intro p hp
    cases p with
    | none => decide
    | some p =>
      rcases p with ⟨tcp, hb, t, q⟩
      have hne : convert_v1alpha1_Probe_To_v1alpha2_ReadinessProbeSpec (some ⟨tcp, hb, t, q⟩) ≠
          ⟨none, none, [], 0, 0⟩ := by
        intro e
        apply hp
        cases tcp <;> cases hb <;>
          simp_all [convert_v1alpha1_Probe_To_v1alpha2_ReadinessProbeSpec, zeroProbe]
      unfold convert_v1alpha2_ReadinessProbeSpec_To_v1alpha1_Probe
      rw [if_neg hne]
      cases tcp <;> cases hb <;> simp [convert_v1alpha1_Probe_To_v1alpha2_ReadinessProbeSpec]
  · intro s hs
    rcases s with ⟨tcp, hb, gi, t, q⟩
    simp only at hs
    subst hs
    by_cases hz : (⟨tcp, hb, [], t, q⟩ : v1alpha2.VirtualMachineReadinessProbeSpec) =
        ⟨none, none, [], 0, 0⟩
    · rw [hz]
      decide
    · unfold convert_v1alpha2_ReadinessProbeSpec_To_v1alpha1_Probe
      rw [if_neg hz]
      cases tcp <;> cases hb <;> simp [convert_v1alpha1_Probe_To_v1alpha2_ReadinessProbeSpec]

/-- Witness of C25 (amended): a probe with a TCP socket on port 22 and a timeout of ten seconds, and the spec it
converts to, both come back unchanged. -/
theorem probe_round_trip_witness :
    (some ⟨some ⟨⟨0, 22, ""⟩, "10.0.0.1"⟩, none, 10, 0⟩ : Option Probe) ≠ some zeroProbe ∧
    convert_v1alpha2_ReadinessProbeSpec_To_v1alpha1_Probe
      (convert_v1alpha1_Probe_To_v1alpha2_ReadinessProbeSpec
        (some ⟨some ⟨⟨0, 22, ""⟩, "10.0.0.1"⟩, none, 10, 0⟩)) =
      some ⟨some ⟨⟨0, 22, ""⟩, "10.0.0.1"⟩, none, 10, 0⟩ ∧
    convert_v1alpha1_Probe_To_v1alpha2_ReadinessProbeSpec
      (convert_v1alpha2_ReadinessProbeSpec_To_v1alpha1_Probe
        ⟨some ⟨⟨0, 22, ""⟩, "10.0.0.1"⟩, none, [], 10, 0⟩) =
      ⟨some ⟨⟨0, 22, ""⟩, "10.0.0.1"⟩, none, [], 10, 0⟩ :=
  ⟨by decide,
   probe_round_trip.1 (some ⟨some ⟨⟨0, 22, ""⟩, "10.0.0.1"⟩, none, 10, 0⟩) (by decide),
   probe_round_trip.2.2 ⟨some ⟨⟨0, 22, ""⟩, "10.0.0.1"⟩, none, [], 10, 0⟩ rfl⟩

/-- C30 (defect of the code): the v1alpha1-to-v1alpha2 conversion of the volume provisioning
options assigns in the wrong direction. Whatever the generated conversion does, the
outcome does not depend on the input options; and with a generated conversion that copies
nothing, the input `ThinProvisioned = true, EagerZeroed = true` and an empty output end as
an input with both fields cleared and an output still empty, while the opposite direction
copies both fields and leaves its input alone. -/
theorem Convert_provisioning_options_overwrites_input :
    (∀ (autoConvert : VirtualMachineVolumeProvisioningOptions →
          v1alpha2.VirtualMachineVolumeProvisioningOptions →
          Converted VirtualMachineVolumeProvisioningOptions
            v1alpha2.VirtualMachineVolumeProvisioningOptions)
        (in1 in2 : VirtualMachineVolumeProvisioningOptions)
        (out : v1alpha2.VirtualMachineVolumeProvisioningOptions),
      Convert_v1alpha1_VirtualMachineVolumeProvisioningOptions_To_v1alpha2_VirtualMachineVolumeProvisioningOptions
          autoConvert in1 out =
        Convert_v1alpha1_VirtualMachineVolumeProvisioningOptions_To_v1alpha2_VirtualMachineVolumeProvisioningOptions
          autoConvert in2 out) ∧
    (Convert_v1alpha1_VirtualMachineVolumeProvisioningOptions_To_v1alpha2_VirtualMachineVolumeProvisioningOptions
        autoConvertNothing ⟨some true, some true⟩ ⟨none, none⟩).input = ⟨none, none⟩ ∧
    (Convert_v1alpha1_VirtualMachineVolumeProvisioningOptions_To_v1alpha2_VirtualMachineVolumeProvisioningOptions
        autoConvertNothing ⟨some true, some true⟩ ⟨none, none⟩).output = ⟨none, none⟩ ∧
    (Convert_v1alpha2_VirtualMachineVolumeProvisioningOptions_To_v1alpha1_VirtualMachineVolumeProvisioningOptions
        autoConvertNothing ⟨some true, some true⟩ ⟨none, none⟩).input =
      ⟨some true, some true⟩ ∧
    (Convert_v1alpha2_VirtualMachineVolumeProvisioningOptions_To_v1alpha1_VirtualMachineVolumeProvisioningOptions
        autoConvertNothing ⟨some true, some true⟩ ⟨none, none⟩).output =
      ⟨some true, some true⟩ :=
  ⟨fun _ _ _ _ => rfl, rfl, rfl, rfl, rfl⟩

end api.v1alpha1
